import Mathlib

/-!
# TransForma: conversion policy, classifier, admission gate and artifact store

A shallow embedding of `src/app/api/convert/route.js`.

Conventions of the embedding.

* JavaScript strings are Lean strings; byte buffers are lists of natural numbers below 256.
* `Date.now()` readings are integers (milliseconds); every call site of `Date.now()` in `POST`
  is a separate field of `Clock`.
* `String.prototype.toLowerCase` is a built-in of the JavaScript runtime and is taken as a
  parameter `toLowerCase : String → String`; `asciiLower` is the instance used for concrete
  evaluations (it agrees with the built-in on ASCII text).
* The bodies of the `switch` branches call external codecs (sharp, mammoth, ExcelJS, pdf-lib,
  js-yaml); what the selected branch yields for a request (its output bytes, or the message of
  the exception it raises) is the parameter `runBranch` of `Runtime`.
* `console.log` calls and the unused `clientIp` are left out.
* The bodies of some branches are embedded on their own: the text summary of the `json` and
  `yaml` branches, the `csv` branch for an array of objects, and the data paths of the `json`
  and `yaml` branches. There `JSON.parse` and `yaml.dump` are library calls and are the
  fields of `DataCodec`; a parsed JSON value is a `Json`, whose numbers are integers.
* The built-ins `parseInt` and `URLSearchParams` are defined concretely (`parseInt`,
  `searchParamsGet`). The result of `parseInt` is a Number (`JsNumber`): `NaN`, an infinity,
  or a double with an integral value, the double nearest to the integer read
  (`roundToDouble`). The `pdf` branch is embedded as the list of its `page.drawText` calls,
  on UTF-16 code units; `page.drawText` raises an exception for a text that the font cannot
  encode, and which texts the font encodes is the parameter `encodes` of the loop.
-/

namespace TransForma

/-! ## String helpers (JavaScript built-ins with a structural definition) -/

/-- The built-in `s.split(sep)` for a one-character separator, on the characters of `s`. -/
def splitChars (sep : Char) : List Char → List (List Char)
  | [] => [[]]
  | c :: cs =>
    if c = sep then [] :: splitChars sep cs
    else
      match splitChars sep cs with
      | [] => [[c]]
      | seg :: segs => (c :: seg) :: segs

/-- The expression `s.split('.').pop()`: the text after the last `'.'`, the whole string
when there is none. -/
def splitPop (s : String) : String :=
  String.mk ((splitChars '.' s.data).getLastD [])

/-- The built-in `s.startsWith(pre)`. -/
def startsWith (s pre : String) : Bool :=
  pre.data.isPrefixOf s.data

/-- Substring test on character lists. -/
def includesChars (sub : List Char) : List Char → Bool
  | [] => sub.isEmpty
  | c :: cs => sub.isPrefixOf (c :: cs) || includesChars sub cs

/-- The built-in `s.includes(sub)`. -/
def includes (s sub : String) : Bool :=
  includesChars sub.data s.data

/-- The expression `mimeType?.startsWith(pre)` read as a condition: `undefined` is falsy. -/
def optStartsWith (mimeType : Option String) (pre : String) : Bool :=
  match mimeType with
  | some m => startsWith m pre
  | none => false

/-- The expression `mimeType?.includes(sub)` read as a condition: `undefined` is falsy. -/
def optIncludes (mimeType : Option String) (sub : String) : Bool :=
  match mimeType with
  | some m => includes m sub
  | none => false

/-- Lower-casing of one ASCII letter; every other character is kept. -/
def asciiLowerChar (c : Char) : Char :=
  if 65 ≤ c.toNat ∧ c.toNat ≤ 90 then Char.ofNat (c.toNat + 32) else c

/-- Lower-casing restricted to ASCII letters, the concrete stand-in for `toLowerCase`. -/
def asciiLower (s : String) : String :=
  String.mk (s.data.map asciiLowerChar)

/-- The expression `name.replace(/\.[^/.]+$/, "")`: drop the text from the last `'.'` on,
when that dot is followed by at least one character and by no `'/'`. -/
def stripExtension (name : String) : String :=
  match (splitChars '.' name.data).reverse with
  | ext :: seg :: segs =>
    if ext ≠ [] ∧ '/' ∉ ext then String.mk (List.intercalate ['.'] (seg :: segs).reverse)
    else name
  | _ => name

/-- UTF-8 bytes of one character. -/
def utf8EncodeChar (c : Char) : List Nat :=
  let n := c.toNat
  if n < 128 then [n]
  else if n < 2048 then [192 + n / 64, 128 + n % 64]
  else if n < 65536 then [224 + n / 4096, 128 + (n / 64) % 64, 128 + n % 64]
  else [240 + n / 262144, 128 + (n / 4096) % 64, 128 + (n / 64) % 64, 128 + n % 64]

/-- The call `Buffer.from(s)`: the UTF-8 bytes of a string. -/
def bufferFrom (s : String) : List Nat :=
  s.data.flatMap utf8EncodeChar

/-- The Base64 alphabet of RFC 4648. -/
def base64Alphabet : List Char :=
  "ABCDEFGHIJKLMNOPQRSTUVWXYZabcdefghijklmnopqrstuvwxyz0123456789+/".data

/-- The Base64 digit of a six-bit value. -/
def base64Digit (n : Nat) : Char :=
  base64Alphabet.getD n 'A'

/-- Base64 with padding, three bytes at a time. -/
def base64Chars : List Nat → List Char
  | [] => []
  | [a] => [base64Digit (a / 4), base64Digit ((a % 4) * 16), '=', '=']
  | [a, b] =>
    [base64Digit (a / 4), base64Digit ((a % 4) * 16 + b / 16), base64Digit ((b % 16) * 4), '=']
  | a :: b :: c :: rest =>
    base64Digit (a / 4) :: base64Digit ((a % 4) * 16 + b / 16)
      :: base64Digit ((b % 16) * 4 + c / 64) :: base64Digit (c % 64) :: base64Chars rest

/-- The call `buffer.toString('base64')`. -/
def toBase64 (bytes : List Nat) : String :=
  String.mk (base64Chars bytes)

/-! ### Decoding (the inverse built-ins, `Buffer.from(handle, 'base64').toString()`) -/

/-- The six-bit value of a Base64 digit: its position in the alphabet of RFC 4648. -/
def base64Value (c : Char) : Nat :=
  base64Alphabet.indexOf c

/-- Base64 decoding with padding, four characters at a time. -/
def base64DecodeChars : List Char → List Nat
  | a :: b :: c :: d :: rest =>
    if c = '=' then [base64Value a * 4 + base64Value b / 16]
    else if d = '=' then
      [base64Value a * 4 + base64Value b / 16, (base64Value b % 16) * 16 + base64Value c / 4]
    else
      (base64Value a * 4 + base64Value b / 16)
        :: ((base64Value b % 16) * 16 + base64Value c / 4)
        :: ((base64Value c % 4) * 64 + base64Value d) :: base64DecodeChars rest
  | _ => []

/-- UTF-8 decoding as a byte-by-byte automaton: `pending` continuation bytes are still to
come for the character whose bits so far are `acc`. -/
def utf8DecodeAux : List Nat → Nat → Nat → List Char
  | [], _, _ => []
  | b :: rest, 0, _ =>
    if b < 128 then Char.ofNat b :: utf8DecodeAux rest 0 0
    else if b < 224 then utf8DecodeAux rest 1 (b - 192)
    else if b < 240 then utf8DecodeAux rest 2 (b - 224)
    else utf8DecodeAux rest 3 (b - 240)
  | b :: rest, pending + 1, acc =>
    if pending = 0 then Char.ofNat (acc * 64 + (b - 128)) :: utf8DecodeAux rest 0 0
    else utf8DecodeAux rest pending (acc * 64 + (b - 128))

/-- The text that a handle stands for: Base64 decoding, then UTF-8 decoding. -/
def decodeHandle (handle : String) : String :=
  String.mk (utf8DecodeAux (base64DecodeChars handle.data) 0 0)

/-! ## Format tables -/

/-- The table `FORMAT_CATEGORIES`, in the order of `Object.entries`. -/
def FORMAT_CATEGORIES : List (String × List String) :=
  [ ("image", ["jpg", "jpeg", "png", "webp", "gif", "bmp", "tiff", "svg", "ico"]),
    ("document", ["pdf", "docx", "doc", "odt", "rtf", "txt", "html", "md", "tex"]),
    ("spreadsheet", ["xlsx", "xls", "csv", "ods", "tsv"]),
    ("data", ["json", "xml", "yaml", "yml", "csv", "tsv"]),
    ("archive", ["zip", "rar", "7z", "tar", "gz"]),
    ("code", ["js", "ts", "py", "java", "cpp", "c", "cs", "php", "rb", "go", "rs"]),
    ("audio", ["mp3", "wav", "flac", "aac", "ogg", "m4a"]),
    ("video", ["mp4", "avi", "mov", "wmv", "flv", "mkv", "webm"]) ]

/-- One entry of `CONVERSION_RULES`; a list that the entry does not define is `none`. -/
structure ConversionRule where
  allowed : Option (List String)
  forbidden : Option (List String)
  deriving DecidableEq, Repr

/-- The table `CONVERSION_RULES`. -/
def CONVERSION_RULES : List (String × ConversionRule) :=
  [ ("image",
      ⟨some ["jpg", "jpeg", "png", "webp", "gif", "bmp", "tiff", "svg", "ico", "pdf"],
       some ["json", "xml", "yaml", "csv", "xlsx", "txt", "docx", "mp3", "mp4"]⟩),
    ("document",
      ⟨some ["pdf", "docx", "txt", "html", "md", "json", "xml", "yaml"],
       some ["jpg", "png", "mp3", "mp4", "xlsx", "csv"]⟩),
    ("spreadsheet",
      ⟨some ["xlsx", "csv", "json", "xml", "yaml", "txt", "html", "pdf"],
       some ["jpg", "png", "mp3", "mp4", "docx"]⟩),
    ("data",
      ⟨some ["json", "xml", "yaml", "csv", "tsv", "txt", "html"],
       some ["jpg", "png", "mp3", "mp4", "docx", "pdf"]⟩),
    ("code",
      ⟨some ["txt", "html", "json", "xml", "pdf"],
       some ["jpg", "png", "mp3", "mp4", "xlsx", "csv"]⟩),
    ("audio",
      ⟨some ["txt", "json", "xml"],
       some ["jpg", "png", "pdf", "docx", "xlsx", "csv"]⟩),
    ("video",
      ⟨some ["txt", "json", "xml"],
       some ["jpg", "png", "pdf", "docx", "xlsx", "csv"]⟩) ]

/-! ## Category classifier -/

/-- The `for ... of Object.entries(FORMAT_CATEGORIES)` loop of `getFileCategory`: the first
category whose suffix list includes `extension`. -/
def findCategory (extension : String) : List (String × List String) → Option String
  | [] => none
  | (category, extensions) :: rest =>
    if extension ∈ extensions then some category else findCategory extension rest

/-- The function `getFileCategory(fileName, mimeType)`. -/
def getFileCategory (toLowerCase : String → String) (fileName : String)
    (mimeType : Option String) : String :=
  let extension := toLowerCase (splitPop fileName)
  match findCategory extension FORMAT_CATEGORIES with
  | some category => category
  | none =>
    if optStartsWith mimeType "image/" then "image"
    else if optStartsWith mimeType "audio/" then "audio"
    else if optStartsWith mimeType "video/" then "video"
    else if optIncludes mimeType "document" || optIncludes mimeType "text/" then "document"
    else if optIncludes mimeType "spreadsheet" || optIncludes mimeType "excel" then "spreadsheet"
    else "unknown"

/-! ## Conversion policy -/

/-- The body of `isConversionAllowed` over an arbitrary rule table. A key that the table
does not define gives `true`; so does a property that a JavaScript object inherits (such as
`constructor`), which is truthy and has neither an `allowed` nor a `forbidden` field. -/
def isConversionAllowedIn (table : List (String × ConversionRule))
    (sourceCategory targetFormat : String) : Bool :=
  match table.lookup sourceCategory with
  | none => true
  | some rules =>
    if (match rules.forbidden with
        | some forbidden => decide (targetFormat ∈ forbidden)
        | none => false) then false
    else if (match rules.allowed with
        | some allowed => !decide (targetFormat ∈ allowed)
        | none => false) then false
    else true

/-- The function `isConversionAllowed(sourceCategory, targetFormat)`. -/
def isConversionAllowed (sourceCategory targetFormat : String) : Bool :=
  isConversionAllowedIn CONVERSION_RULES sourceCategory targetFormat

/-! ## Process-wide state -/

/-- The value of `global.systemRateLimit` when it is set; `untilMs` is the field `until`
(a reserved word here), in milliseconds. -/
structure RateLimit where
  isActive : Bool
  untilMs : Int
  reason : String
  deriving DecidableEq, Repr

/-- One record of `global.convertedFiles`. -/
structure ArtifactRecord where
  buffer : List Nat
  contentType : String
  fileName : String
  createdAt : Int
  deriving DecidableEq, Repr

/-- A JavaScript `Map` from handles to records: its entries in insertion order. -/
abbrev ArtifactMap := List (String × ArtifactRecord)

/-- The method `map.has(id)`. -/
def ArtifactMap.has (m : ArtifactMap) (id : String) : Bool :=
  m.any (fun e => e.1 == id)

/-- The method `map.get(id)`. -/
def ArtifactMap.get (m : ArtifactMap) (id : String) : Option ArtifactRecord :=
  m.lookup id

/-- The method `map.set(id, record)`: an existing key keeps its position and takes the new
value, a new key is appended. -/
def ArtifactMap.set : ArtifactMap → String → ArtifactRecord → ArtifactMap
  | [], id, record => [(id, record)]
  | (k, v) :: rest, id, record =>
    if k = id then (id, record) :: rest else (k, v) :: ArtifactMap.set rest id record

/-- The method `map.delete(id)`. -/
def ArtifactMap.delete (m : ArtifactMap) (id : String) : ArtifactMap :=
  m.filter (fun e => e.1 != id)

/-- The eviction loop of `POST` over the entries still to visit: an entry older than
`oneHourAgo` is deleted from the map by its key. -/
def sweepLoop (oneHourAgo : Int) : List (String × ArtifactRecord) → ArtifactMap → ArtifactMap
  | [], m => m
  | (id, file) :: rest, m =>
    if file.createdAt < oneHourAgo then sweepLoop oneHourAgo rest (m.delete id)
    else sweepLoop oneHourAgo rest m

/-- The eviction loop `for (const [id, file] of global.convertedFiles.entries())`. -/
def sweep (oneHourAgo : Int) (m : ArtifactMap) : ArtifactMap :=
  sweepLoop oneHourAgo m m

/-- The two process-wide values; `convertedFiles` is `none` until the first successful
conversion creates the map. -/
structure Globals where
  systemRateLimit : Option RateLimit
  convertedFiles : Option ArtifactMap
  deriving DecidableEq, Repr

/-- The keys of a map are pairwise different, as in every JavaScript `Map`. -/
def ArtifactMap.WellFormed (m : ArtifactMap) : Prop :=
  (m.map Prod.fst).Nodup

/-- The store of the globals is a map with pairwise different keys. -/
def Globals.WellFormed (g : Globals) : Prop :=
  ∀ m, g.convertedFiles = some m → ArtifactMap.WellFormed m

/-! ## Health probe -/

/-- What `fetch(.../api/health)` and `healthResponse.json()` give: an exception, a response
that is not `ok`, or an `ok` response with its `status` field. -/
inductive HealthProbe where
  | failed
  | notOk
  | ok (status : String)
  deriving DecidableEq, Repr

/-- The object returned by `checkSystemHealth`. -/
structure HealthResult where
  rateLimited : Bool
  timeRemaining : Option Int
  healthCheckFailed : Bool
  deriving DecidableEq, Repr

/-- The function `checkSystemHealth()`: `now` is the reading of `Date.now()` taken after the
probe. -/
def checkSystemHealth (g : Globals) (probe : HealthProbe) (now : Int) : HealthResult × Globals :=
  match probe with
  | .failed => (⟨false, none, true⟩, g)
  | .notOk => (⟨false, none, false⟩, g)
  | .ok status =>
    if status = "critical" then
      (⟨true, some 60, false⟩,
        { g with systemRateLimit := some ⟨true, now + 60 * 60 * 1000, "System critical"⟩ })
    else if status = "warning" then
      (⟨true, some 30, false⟩,
        { g with systemRateLimit := some ⟨true, now + 30 * 60 * 1000, "High system load"⟩ })
    else if status = "starting" then
      (⟨true, some 5, false⟩,
        { g with systemRateLimit := some ⟨true, now + 5 * 60 * 1000, "System starting"⟩ })
    else
      (⟨false, none, false⟩, { g with systemRateLimit := none })

/-! ## The conversion endpoint -/

/-- The file entry of the form data: `file.name`, `file.type` and the bytes of
`file.arrayBuffer()`. -/
structure UploadedFile where
  name : String
  type : String
  bytes : List Nat
  deriving DecidableEq, Repr

/-- The fields of `request.formData()` that `POST` reads; an absent field is `none`. -/
structure FormData where
  file : Option UploadedFile
  outputFormat : Option String
  quality : Option String
  includeMetadata : Option String
  deriving DecidableEq, Repr

/-- The readings of `Date.now()` in `POST`, one per call site: the two of the admission gate
(the `timeRemaining` computation and the comparison with `until`), the `createdAt` of the
stored record and the one of `oneHourAgo`. -/
structure Clock where
  gateRemaining : Int
  gateCheck : Int
  createdAt : Int
  sweep : Int
  deriving DecidableEq, Repr

/-- The clock of a request during which every reading of `Date.now()` gives `now`. -/
def Clock.tick (now : Int) : Clock :=
  ⟨now, now, now, now⟩

/-- What the code takes from its runtime: the `toLowerCase` built-in and, for a target token
and a request, what the body of the selected `switch` branch yields: the bytes of
`convertedBuffer`, or the message of the exception it raises. -/
structure Runtime where
  toLowerCase : String → String
  runBranch : String → FormData → Except String (List Nat)

/-- The `response` object of a successful conversion (`compressionRatio`, a formatted
floating-point number, and the content of `metadata` are left out). -/
structure ConversionResult where
  success : Bool
  fileName : String
  contentType : String
  size : Nat
  originalSize : Nat
  sourceCategory : String
  targetFormat : String
  downloadId : String
  hasMetadata : Bool
  deriving DecidableEq, Repr

/-- The JSON bodies that `POST` sends. -/
inductive Body where
  | throttled (error message : String) (rateLimited : Bool) (timeRemaining : Int)
  | noFile (error : String)
  | invalidConversion (error suggestion : String)
  | unsupportedFormat (error : String) (images documents spreadsheets data : List String)
  | converted (response : ConversionResult)
  deriving DecidableEq, Repr

/-- How a call of `POST` ends: a JSON response with its status, or an exception that leaves
the handler. -/
inductive Response where
  | json (status : Nat) (body : Body)
  | uncaught (error : String)
  deriving DecidableEq, Repr

/-- The steps of `POST` that call into the codecs. -/
inductive Effect where
  | extractMetadata
  | branch (outputFormat : String)
  deriving DecidableEq, Repr

/-- The result of a call: the response, the process-wide state afterwards and the codec steps
that ran, in order. -/
structure Outcome where
  response : Response
  globals : Globals
  trace : List Effect
  deriving DecidableEq, Repr

/-- The value of `Math.ceil(a / b)` for a positive `b`. -/
def ceilDiv (a b : Int) : Int :=
  -((-a) / b)

/-- The `switch (outputFormat)` of `POST`: the `contentType` and `fileExtension` that the
branch of a token assigns, `none` for the `default` branch. -/
def dispatch (outputFormat : String) : Option (String × String) :=
  if outputFormat = "png" then some ("image/png", "png")
  else if outputFormat = "jpeg" ∨ outputFormat = "jpg" then some ("image/jpeg", "jpg")
  else if outputFormat = "webp" then some ("image/webp", "webp")
  else if outputFormat = "gif" then some ("image/gif", "gif")
  else if outputFormat = "bmp" then some ("image/bmp", "bmp")
  else if outputFormat = "tiff" then some ("image/tiff", "tiff")
  else if outputFormat = "ico" then some ("image/x-icon", "ico")
  else if outputFormat = "pdf" then some ("application/pdf", "pdf")
  else if outputFormat = "html" then some ("text/html", "html")
  else if outputFormat = "txt" then some ("text/plain", "txt")
  else if outputFormat = "md" then some ("text/markdown", "md")
  else if outputFormat = "json" then some ("application/json", "json")
  else if outputFormat = "xml" then some ("application/xml", "xml")
  else if outputFormat = "yaml" ∨ outputFormat = "yml" then
    some ("application/x-yaml", outputFormat)
  else if outputFormat = "csv" then some ("text/csv", "csv")
  else if outputFormat = "xlsx" ∨ outputFormat = "excel" then
    some ("application/vnd.openxmlformats-officedocument.spreadsheetml.sheet", "xlsx")
  else if outputFormat = "svg" then some ("image/svg+xml", "svg")
  else none

/-- The expression `formData.get("outputFormat")?.toLowerCase() || "png"`. -/
def outputFormatOf (toLowerCase : String → String) (form : FormData) : String :=
  match form.outputFormat with
  | some raw => if toLowerCase raw = "" then "png" else toLowerCase raw
  | none => "png"

/-- The suggestion text of the policy rejection:
`CONVERSION_RULES[sourceCategory]?.allowed?.join(', ') || 'txt, json'`. -/
def suggestionFor (sourceCategory : String) : String :=
  let joined :=
    match CONVERSION_RULES.lookup sourceCategory with
    | some rules =>
      match rules.allowed with
      | some allowed => ", ".intercalate allowed
      | none => ""
    | none => ""
  "Try converting to one of these formats: " ++ (if joined = "" then "txt, json" else joined)

/-- The exception that the `catch` block of `POST` raises itself: it reads `file` and
`outputFormat`, which are `const` bindings of the `try` block and not in scope there. -/
def catchBlockError : String :=
  "ReferenceError: file is not defined"

/-- The part of `POST` after the admission gate (from `request.formData()` on). The form
data is taken as parsed: `request.formData()` and `file.arrayBuffer()` succeed, and the entry
`file`, when present, is a `File`. -/
def convert (rt : Runtime) (g : Globals) (clock : Clock) (form : FormData) : Outcome :=
  let outputFormat := outputFormatOf rt.toLowerCase form
  let includeMetadata := decide (form.includeMetadata = some "true")
  match form.file with
  | none => ⟨.json 400 (.noFile "No file provided"), g, []⟩
  | some file =>
    let fileName := stripExtension file.name
    let sourceCategory := getFileCategory rt.toLowerCase file.name (some file.type)
    if !isConversionAllowed sourceCategory outputFormat then
      ⟨.json 400 (.invalidConversion
          ("Invalid conversion: " ++ sourceCategory ++ " files cannot be converted to "
            ++ outputFormat)
          (suggestionFor sourceCategory)), g, []⟩
    else
      let trace : List Effect := if includeMetadata then [.extractMetadata] else []
      match dispatch outputFormat with
      | none =>
        ⟨.json 400 (.unsupportedFormat ("Unsupported output format: " ++ outputFormat)
            ((FORMAT_CATEGORIES.lookup "image").getD [])
            ((FORMAT_CATEGORIES.lookup "document").getD [])
            ((FORMAT_CATEGORIES.lookup "spreadsheet").getD [])
            ((FORMAT_CATEGORIES.lookup "data").getD [])), g, trace⟩
      | some (contentType, fileExtension) =>
        match rt.runBranch outputFormat form with
        | .error _ => ⟨.uncaught catchBlockError, g, trace ++ [.branch outputFormat]⟩
        | .ok convertedBuffer =>
          let convertedFileName := fileName ++ "." ++ fileExtension
          let downloadId := toBase64 (bufferFrom convertedFileName)
          let response : ConversionResult :=
            { success := true
              fileName := convertedFileName
              contentType := contentType
              size := convertedBuffer.length
              originalSize := file.bytes.length
              sourceCategory := sourceCategory
              targetFormat := outputFormat
              downloadId := downloadId
              hasMetadata := includeMetadata }
          let stored := ArtifactMap.set (g.convertedFiles.getD []) downloadId
            ⟨convertedBuffer, contentType, convertedFileName, clock.createdAt⟩
          let swept := sweep (clock.sweep - 60 * 60 * 1000) stored
          ⟨.json 200 (.converted response), { g with convertedFiles := some swept },
            trace ++ [.branch outputFormat]⟩

/-- The handler `POST(request)`: the admission gate, then `convert`. -/
def POST (rt : Runtime) (g : Globals) (clock : Clock) (form : FormData) : Outcome :=
  match g.systemRateLimit with
  | some limit =>
    if limit.isActive then
      let timeRemaining := ceilDiv (limit.untilMs - clock.gateRemaining) 60000
      if clock.gateCheck < limit.untilMs then
        ⟨.json 503 (.throttled "System temporarily unavailable"
            ("System is under maintenance. Please try again in " ++ toString timeRemaining
              ++ " minutes.")
            true timeRemaining), g, []⟩
      else convert rt { g with systemRateLimit := none } clock form
    else convert rt g clock form
  | none => convert rt g clock form

/-! ## The retrieval endpoint -/

/-- The responses of `GET`: a JSON error, or the stored bytes with the headers
`Content-Type`, `Content-Disposition` (its file name; the percent-encoded copy of the same
name is left out) and `Content-Length`. -/
inductive Download where
  | json (status : Nat) (error : String)
  | file (status : Nat) (body : List Nat) (contentType downloadFileName contentLength : String)
  deriving DecidableEq, Repr

/-- The handler `GET(request)`: `id` is `url.searchParams.get('id')`, `now` the reading of
`Date.now()`. The value `safeFileName` that the code computes is never used and is left out. -/
def GET (g : Globals) (id : Option String) (now : Int) : Download × Globals :=
  match id with
  | none => (.json 404 "File not found or expired", g)
  | some downloadId =>
    if downloadId = "" ∨ !((g.convertedFiles.map (fun m => m.has downloadId)).getD false) then
      (.json 404 "File not found or expired", g)
    else
      match (g.convertedFiles.getD []).get downloadId with
      | none => (.json 500 "Download failed", g)
      | some file =>
        let extension := splitPop file.fileName
        (.file 200 file.buffer file.contentType
          ("converted_file_" ++ toString now ++ "."
            ++ (if extension = "" then "bin" else extension))
          (toString file.buffer.length), g)

/-! ## Branch bodies: the text summary of the `json` and `yaml` branches -/

/-- The call `buffer.toString('utf-8')` on a buffer of well-formed UTF-8. -/
def bufferToString (bytes : List Nat) : String :=
  String.mk (utf8DecodeAux bytes 0 0)

/-- The class `\s` of a JavaScript regular expression: the white space and line terminator
code points. -/
def isWhiteSpace (c : Char) : Bool :=
  decide (c.toNat ∈ [9, 10, 11, 12, 13, 32, 160, 5760, 8232, 8233, 8239, 8287, 12288, 65279])
    || decide (8192 ≤ c.toNat ∧ c.toNat ≤ 8202)

/-- The pieces of `text.split(/\s+/)`: `inRun` says that the previous character belongs to
the white-space run that ended the piece before. -/
def splitWhiteSpaceAux : List Char → Bool → List (List Char)
  | [], _ => [[]]
  | c :: cs, inRun =>
    if isWhiteSpace c then
      if inRun then splitWhiteSpaceAux cs true else [] :: splitWhiteSpaceAux cs true
    else
      match splitWhiteSpaceAux cs false with
      | [] => [[c]]
      | piece :: pieces => (c :: piece) :: pieces

/-- The expression `text.split(/\s+/)`. -/
def splitWhiteSpace (text : String) : List String :=
  (splitWhiteSpaceAux text.data false).map String.mk

/-- The expression `text.length`: the number of UTF-16 code units. -/
def jsLength (text : String) : Nat :=
  (text.data.map (fun c => if c.toNat < 65536 then 1 else 2)).sum

/-- The computed fields of the object that the `json` and `yaml` branches build for a text
source. -/
structure TextSummary where
  content : String
  lines : List String
  wordCount : Nat
  characterCount : Nat
  deriving DecidableEq, Repr

/-- The text summary of the `json` and `yaml` branches (lines 539 to 548 and 632 to 641). -/
def textSummary (textContent : String) : TextSummary where
  content := textContent
  lines := (splitChars '\n' textContent.data).map String.mk
  wordCount := (splitWhiteSpace textContent).length
  characterCount := jsLength textContent

/-! ## Branch bodies: CSV and data -/

/-- A value of `JSON.parse`. Numbers are integers in this model; the members of an object
are listed in the order of `Object.keys`, each key once. -/
inductive Json where
  | null
  | bool (b : Bool)
  | number (n : Int)
  | string (s : String)
  | array (items : List Json)
  | object (members : List (String × Json))

/-- The value is truthy: it is not `null`, `false`, `0` or the empty string. -/
def Json.truthy : Json → Bool
  | .null => false
  | .bool b => b
  | .number n => n != 0
  | .string s => s != ""
  | .array _ => true
  | .object _ => true

mutual
/-- The conversion `String(value)`. -/
def Json.toJsString : Json → String
  | .null => "null"
  | .bool b => if b then "true" else "false"
  | .number n => toString n
  | .string s => s
  | .array items => ",".intercalate (Json.joinItems items)
  | .object _ => "[object Object]"
/-- The texts that `Array.prototype.join` puts together: `null` gives the empty text. -/
def Json.joinItems : List Json → List String
  | [] => []
  | .null :: rest => "" :: Json.joinItems rest
  | item :: rest => Json.toJsString item :: Json.joinItems rest
end

/-- The expression `text.replace(/"/g, '""')` on the characters of the text. -/
def escapeQuotes : List Char → List Char
  | [] => []
  | c :: cs => if c = '"' then '"' :: '"' :: escapeQuotes cs else c :: escapeQuotes cs

/-- One field of a data row, for the value `row[header]` (`none` when the row has no such
key; properties inherited from `Object.prototype` are left out):
the template `"${String(row[header] || '').replace(/"/g, '""')}"`. -/
def csvCell (value : Option Json) : String :=
  let text :=
    match value with
    | some v => if v.truthy then v.toJsString else ""
    | none => ""
  "\"" ++ String.mk (escapeQuotes text.data) ++ "\""

/-- The line of one data row: `values.join(',') + '\n'`. -/
def csvLine (headers : List String) (row : List (String × Json)) : String :=
  ",".intercalate (headers.map (fun header => csvCell (row.lookup header))) ++ "\n"

/-- The `csv` branch for a data source that parses to a non-empty array of objects (lines
681 to 690): the header line, then one line per element. -/
def csvOfObjects (first : List (String × Json)) (rest : List (List (String × Json))) :
    String :=
  let headers := first.map Prod.fst
  ",".intercalate headers ++ "\n" ++ String.join ((first :: rest).map (csvLine headers))

/-- The expression `String(row[header] || '')` of a field of a data row, for the value
`row[header]` (`none` when the row has no such key; properties inherited from
`Object.prototype` are left out, as in `csvCell`). -/
def cellText (value : Option Json) : String :=
  match value with
  | some v => if v.truthy then v.toJsString else ""
  | none => ""

/-- The two library calls of the data branches: `JSON.parse` (`none` when it throws) and
`yaml.dump` of js-yaml. -/
structure DataCodec where
  jsonParse : String → Option Json
  yamlDump : Json → String

/-- The `yaml` branch for a source of category data (lines 604 to 621): `text` is
`buffer.toString()`, `metadata` the value of the variable `metadata` (`null` without the
metadata flag). -/
def yamlOfData (codec : DataCodec) (metadata : Json) (fileName fileType text : String) :
    String :=
  match codec.jsonParse text with
  | some data => codec.yamlDump (.object [("metadata", metadata), ("data", data)])
  | none =>
    codec.yamlDump (.object [("metadata", metadata), ("fileName", .string fileName),
      ("fileType", .string fileType), ("content", .string text),
      ("note", .string "Could not parse as structured data")])

/-- The object that the `json` branch hands to `JSON.stringify` (lines 489 to 572), `none`
where the branch calls an external extractor (a spreadsheet, or a type that contains
`document`); `convertedAt` is the text of `new Date().toISOString()`. -/
def jsonOfFile (codec : DataCodec) (metadata : Json)
    (sourceCategory fileName fileType text convertedAt : String) (size : Nat) : Option Json :=
  if sourceCategory = "spreadsheet" then none
  else if sourceCategory = "document" ∨ includes fileType "text" ∨ sourceCategory = "code" then
    if includes fileType "document" then none
    else
      some (.object [("metadata", metadata), ("fileName", .string fileName),
        ("originalFormat", .string fileType),
        ("content", .string (textSummary text).content),
        ("lines", .array ((textSummary text).lines.map Json.string)),
        ("wordCount", .number (textSummary text).wordCount),
        ("characterCount", .number (textSummary text).characterCount),
        ("convertedAt", .string convertedAt)])
  else if sourceCategory = "data" then
    match codec.jsonParse text with
    | some data => some (.object [("metadata", metadata), ("originalData", data)])
    | none =>
      some (.object [("metadata", metadata), ("content", .string text),
        ("note", .string "Could not parse original data as JSON")])
  else
    some (.object [("metadata", metadata), ("fileName", .string fileName),
      ("fileType", .string fileType), ("size", .number size),
      ("convertedAt", .string convertedAt),
      ("note", .string "Non-data file converted to JSON metadata")])

/-! ## The quality parameter, the PDF text layout and the download URL -/

/-- The value of a digit of `parseInt`: `0` to `9`, then the letters in either case. -/
def digitValue (c : Char) : Option Nat :=
  if 48 ≤ c.toNat ∧ c.toNat ≤ 57 then some (c.toNat - 48)
  else if 97 ≤ c.toNat ∧ c.toNat ≤ 122 then some (c.toNat - 87)
  else if 65 ≤ c.toNat ∧ c.toNat ≤ 90 then some (c.toNat - 55)
  else none

/-- The values of the longest prefix of digits of the radix. -/
def leadingDigits (radix : Nat) : List Char → List Nat
  | [] => []
  | c :: cs =>
    match digitValue c with
    | some d => if d < radix then d :: leadingDigits radix cs else []
    | none => []

/-- A value of type Number that `parseInt` returns: `NaN`, a double with an integral value
(negative zero is `finite 0`, it is falsy as zero is), or an infinity. -/
inductive JsNumber where
  | nan
  | finite (value : Int)
  | infinity (negative : Bool)
  deriving DecidableEq, Repr

/-- The number of binary digits of `n`, with `fuel` steps at hand. -/
def bitLength : Nat → Nat → Nat
  | 0, _ => 0
  | fuel + 1, n => if n = 0 then 0 else 1 + bitLength fuel (n / 2)

/-- The double nearest to the natural number `m`: `m` itself when it has at most 53 binary
digits, else `m` rounded to 53 significant binary digits, a tie going to the even
significand; `none` when the rounded value has more than 1024 binary digits, which is
beyond the doubles (the Number is then an infinity). -/
def roundToDouble (m : Nat) : Option Nat :=
  let bits := bitLength m m
  if bits ≤ 53 then some m
  else
    let shift := bits - 53
    let q := m / 2 ^ shift
    let r := m % 2 ^ shift
    let half := 2 ^ (shift - 1)
    let rounded := if half < r ∨ (r = half ∧ q % 2 = 1) then q + 1 else q
    let value := rounded * 2 ^ shift
    if 1024 < bitLength value value then none else some value

/-- The mathematical integer that `parseInt(text)` reads without a radix, `none` when there
is no digit: leading white space is skipped, a sign and a prefix `0x` are read, then the
longest run of digits. -/
def parseIntMath (text : String) : Option Int :=
  let trimmed := text.data.dropWhile isWhiteSpace
  let negative := decide (trimmed.head? = some '-')
  let unsigned :=
    if trimmed.head? = some '-' ∨ trimmed.head? = some '+' then trimmed.tail else trimmed
  let hex := decide (unsigned.take 2 = ['0', 'x'] ∨ unsigned.take 2 = ['0', 'X'])
  let radix := if hex then 16 else 10
  let digits := leadingDigits radix (if hex then unsigned.drop 2 else unsigned)
  if digits = [] then none
  else
    let magnitude : Int := digits.foldl (fun acc d => acc * radix + d) 0
    some (if negative then -magnitude else magnitude)

/-- The Number value of a mathematical integer. -/
def numberOfInt (n : Int) : JsNumber :=
  match roundToDouble n.natAbs with
  | some m => .finite (if n < 0 then -(m : Int) else m)
  | none => .infinity (decide (n < 0))

/-- The built-in `parseInt(text)` without a radix: `NaN` when no digit is read, else the
double nearest to the integer read, as Node.js computes it (the language standard leaves
the rounding of a decimal integer of more than 20 digits to the engine). -/
def parseInt (text : String) : JsNumber :=
  match parseIntMath text with
  | none => .nan
  | some n => numberOfInt n

/-- The expression `parseInt(formData.get("quality")) || 90`; an absent field is `null`,
which `parseInt` reads as the text `null`; `NaN` and zero are the falsy numbers. -/
def qualityOf (form : FormData) : JsNumber :=
  let parsed :=
    match form.quality with
    | some raw => parseInt raw
    | none => parseInt "null"
  match parsed with
  | .nan => .finite 90
  | .finite n => if n = 0 then .finite 90 else .finite n
  | .infinity negative => .infinity negative

/-- The UTF-16 code units of a string, the characters that `split` and `substring` of
JavaScript work on. -/
def utf16Units (text : String) : List Nat :=
  text.data.flatMap (fun c =>
    if c.toNat < 65536 then [c.toNat]
    else [55296 + (c.toNat - 65536) / 1024, 56320 + (c.toNat - 65536) % 1024])

/-- The built-in `split` for a one-unit separator, on code units. -/
def splitUnits (sep : Nat) : List Nat → List (List Nat)
  | [] => [[]]
  | c :: cs =>
    if c = sep then [] :: splitUnits sep cs
    else
      match splitUnits sep cs with
      | [] => [[c]]
      | seg :: segs => (c :: seg) :: segs

/-- One call `page.drawText(text, { x, y, size })`. -/
structure DrawText where
  text : List Nat
  x : Int
  y : Int
  size : Nat
  deriving DecidableEq, Repr

/-- What the loop of the `pdf` branch did: the calls of `page.drawText` that returned, in
order, and whether a call raised an exception. An exception ends the loop and the branch,
so no PDF is produced. -/
structure DrawOutcome where
  draws : List DrawText
  raised : Bool
  deriving DecidableEq, Repr

/-- The loop `for (const line of lines.slice(0, 40))` of the `pdf` branch, from the current
`yPosition`. The call `page.drawText` belongs to pdf-lib: it raises an exception when the
font of the page cannot encode the text, and `encodes` says for which texts it can. -/
def drawTextLoop (encodes : List Nat → Bool) : List (List Nat) → Int → DrawOutcome
  | [], _ => ⟨[], false⟩
  | line :: rest, yPosition =>
    if yPosition < 50 then ⟨[], false⟩
    else if encodes (line.take 80) then
      let next := drawTextLoop encodes rest (yPosition - 20)
      ⟨⟨line.take 80, 50, yPosition, 10⟩ :: next.draws, next.raised⟩
    else ⟨[], true⟩

/-- The loop of the `pdf` branch for a text (lines 314 to 325): the calls of
`page.drawText` that returned, and whether one raised an exception. -/
def pdfTextDraws (encodes : List Nat → Bool) (textContent : String) : DrawOutcome :=
  drawTextLoop encodes ((splitUnits 10 (utf16Units textContent)).take 40) 800

/-- The value of a hexadecimal digit. -/
def hexValue (c : Char) : Option Nat :=
  if 48 ≤ c.toNat ∧ c.toNat ≤ 57 then some (c.toNat - 48)
  else if 97 ≤ c.toNat ∧ c.toNat ≤ 102 then some (c.toNat - 87)
  else if 65 ≤ c.toNat ∧ c.toNat ≤ 70 then some (c.toNat - 55)
  else none

/-- Percent-decoding of a text to bytes: `%` with two hexadecimal digits is one byte, every
other character stands for its UTF-8 bytes. -/
def percentDecode : List Char → List Nat
  | [] => []
  | [c] => utf8EncodeChar c
  | [c, d] => utf8EncodeChar c ++ utf8EncodeChar d
  | c :: h :: l :: rest =>
    if c = '%' then
      match hexValue h, hexValue l with
      | some a, some b => (16 * a + b) :: percentDecode rest
      | _, _ => utf8EncodeChar c ++ percentDecode (h :: l :: rest)
    else utf8EncodeChar c ++ percentDecode (h :: l :: rest)

/-- The decoding that `URLSearchParams` applies to a name or a value: `+` becomes a space,
then percent-decoding, then UTF-8 decoding (of well-formed bytes). -/
def formDecode (raw : List Char) : String :=
  String.mk (utf8DecodeAux (percentDecode (raw.map (fun c => if c = '+' then ' ' else c))) 0 0)

/-- The query of the URL that `downloadFile` of the front end requests: the template
`/api/convert?id=${downloadId}`, the handle placed as it is. -/
def downloadQuery (downloadId : String) : String :=
  "id=" ++ downloadId

/-- The call `url.searchParams.get(name)` for a query: the pairs are split at `&`, each at
its first `=`, and both parts are decoded. -/
def searchParamsGet (query name : String) : Option String :=
  ((splitChars '&' query.data).filter (fun pair => !pair.isEmpty)).findSome? (fun pair =>
    if formDecode (pair.takeWhile (fun c => c != '=')) = name then
      some (formDecode ((pair.dropWhile (fun c => c != '=')).drop 1))
    else none)

/-! ## Specification vocabulary -/

/-- The string `s` starts with `pre`. -/
def StartsWith (s pre : String) : Prop :=
  ∃ rest : String, s = pre ++ rest

/-- The string `s` contains `sub` somewhere. -/
def Contains (s sub : String) : Prop :=
  ∃ before after : String, s = before ++ sub ++ after

/-- The suffix of a file name matches no entry of `FORMAT_CATEGORIES`. -/
def NoSuffixMatch (toLowerCase : String → String) (fileName : String) : Prop :=
  ∀ p ∈ FORMAT_CATEGORIES, toLowerCase (splitPop fileName) ∉ p.2

/-- The admission gate rejects the request: the rate limit is active and the reading of
`Date.now()` that is compared with `until` lies before it. -/
def Throttled (g : Globals) (clock : Clock) : Prop :=
  ∃ limit, g.systemRateLimit = some limit ∧ limit.isActive = true ∧
    clock.gateCheck < limit.untilMs

/-- The tokens that have a `case` in the `switch` of `POST`. -/
def supportedTokens : List String :=
  ["png", "jpg", "jpeg", "webp", "gif", "bmp", "tiff", "ico", "pdf", "html", "txt", "md",
    "json", "xml", "yaml", "yml", "csv", "xlsx", "excel", "svg"]

/-- An effect of the trace is the run of a conversion branch. -/
def Effect.isBranch : Effect → Bool
  | .branch _ => true
  | .extractMetadata => false

/-- The body of the 503 response for a given number of remaining minutes. -/
def throttledBody (timeRemaining : Int) : Body :=
  .throttled "System temporarily unavailable"
    ("System is under maintenance. Please try again in " ++ toString timeRemaining
      ++ " minutes.")
    true timeRemaining

/-- The response is the success response of a conversion. -/
def Response.isConverted : Response → Bool
  | .json 200 (.converted _) => true
  | _ => false

/-- The number of maximal runs of characters that are not white space; `inToken` says that
the previous character belongs to such a run. -/
def countTokens : List Char → Bool → Nat
  | [], _ => 0
  | c :: cs, inToken =>
    if isWhiteSpace c then countTokens cs false
    else (if inToken then 0 else 1) + countTokens cs true

/-- The number of white-space-delimited tokens of a text. -/
def tokenCount (text : String) : Nat :=
  countTokens text.data false

/-- The text starts with a character that is not white space. -/
def startsWithToken : List Char → Bool
  | [] => false
  | c :: _ => !isWhiteSpace c

/-- The last character of the text is white space (`default` for the empty text). -/
def endsWithWhiteSpace : List Char → Bool → Bool
  | [], default => default
  | c :: cs, _ => endsWithWhiteSpace cs (isWhiteSpace c)

/-- The states of a reader of RFC 4180 text. -/
inductive CsvState where
  | fieldStart
  | unquoted
  | quoted
  | afterQuote
  deriving DecidableEq, Repr

/-- A reader of RFC 4180 text with line feeds as record ends: `field` holds the characters of
the current field and `record` the fields of the current record, both in reverse. -/
def readCsvAux : List Char → CsvState → List Char → List String → List (List String)
  | [], .fieldStart, _, record =>
    if record.isEmpty then [] else [("" :: record).reverse]
  | [], _, field, record => [(String.mk field.reverse :: record).reverse]
  | c :: cs, .fieldStart, _, record =>
    if c = '"' then readCsvAux cs .quoted [] record
    else if c = ',' then readCsvAux cs .fieldStart [] ("" :: record)
    else if c = '\n' then ("" :: record).reverse :: readCsvAux cs .fieldStart [] []
    else readCsvAux cs .unquoted [c] record
  | c :: cs, .unquoted, field, record =>
    if c = ',' then readCsvAux cs .fieldStart [] (String.mk field.reverse :: record)
    else if c = '\n' then
      (String.mk field.reverse :: record).reverse :: readCsvAux cs .fieldStart [] []
    else readCsvAux cs .unquoted (c :: field) record
  | c :: cs, .quoted, field, record =>
    if c = '"' then readCsvAux cs .afterQuote field record
    else readCsvAux cs .quoted (c :: field) record
  | c :: cs, .afterQuote, field, record =>
    if c = '"' then readCsvAux cs .quoted ('"' :: field) record
    else if c = ',' then readCsvAux cs .fieldStart [] (String.mk field.reverse :: record)
    else if c = '\n' then
      (String.mk field.reverse :: record).reverse :: readCsvAux cs .fieldStart [] []
    else readCsvAux cs .unquoted (c :: field) record

/-- The records of an RFC 4180 text, each a list of fields. -/
def readCsv (text : String) : List (List String) :=
  readCsvAux text.data .fieldStart [] []

/-- The keys of an object, the empty list for any other value. -/
def Json.keys : Json → List String
  | .object members => members.map Prod.fst
  | _ => []

/-- The text of a member that is a string. -/
def Json.stringMember (key : String) : Json → Option String
  | .object members =>
    match members.lookup key with
    | some (.string s) => some s
    | _ => none
  | _ => none

/-- What the code relies on from the two libraries: `yaml.dump` writes a mapping in block
style, starting with its first key, and `JSON.parse` rejects a text that starts with the
letter `m` (no JSON value does). -/
structure DataCodec.Conforms (codec : DataCodec) : Prop where
  dump_block : ∀ (metadata : Json) (rest : List (String × Json)),
    StartsWith (codec.yamlDump (.object (("metadata", metadata) :: rest))) "metadata:"
  parse_rejects : ∀ text : String, StartsWith text "m" → codec.jsonParse text = none

/-- The rate limit is active. -/
def Active (g : Globals) : Prop :=
  ∃ limit, g.systemRateLimit = some limit ∧ limit.isActive = true

/-- The rule table without its forbidden lists. -/
def withoutForbidden (table : List (String × ConversionRule)) : List (String × ConversionRule) :=
  table.map (fun p => (p.1, { p.2 with forbidden := none }))

/-- A text with every double quote doubled. -/
def doubleQuotes (text : String) : String :=
  String.mk (text.data.flatMap (fun c => if c = '"' then ['"', '"'] else [c]))

/-! ## Sample inputs -/

/-- A runtime for concrete evaluations: ASCII lower-casing, and codecs that hand back the
uploaded bytes. -/
def sampleRuntime : Runtime where
  toLowerCase := asciiLower
  runBranch := fun _ form =>
    match form.file with
    | some file => .ok file.bytes
    | none => .error "no file"

/-- A request that uploads `a.json` and asks for `JPG`, with metadata. -/
def jsonToJpg : FormData :=
  ⟨some ⟨"a.json", "application/json", [123, 125]⟩, some "JPG", none, some "true"⟩

/-- A request that uploads `notes.txt` and asks for `json`. -/
def notesToJson : FormData :=
  ⟨some ⟨"notes.txt", "text/plain", [104, 105]⟩, some "json", none, none⟩

/-- A request that uploads `photo.png` and asks for `webp`. -/
def photoToWebp : FormData :=
  ⟨some ⟨"photo.png", "image/png", [1, 2, 3]⟩, some "webp", some "80", none⟩

/-- The state before anything happened: no rate limit, no store. -/
def freshGlobals : Globals :=
  ⟨none, none⟩

/-- A state whose rate limit is active until the time 1 000 000. -/
def limitedGlobals : Globals :=
  ⟨some ⟨true, 1000000, "High system load"⟩, none⟩

/-- A request that uploads the archive `bundle.zip` and asks for `zip`. -/
def zipToZip : FormData :=
  ⟨some ⟨"bundle.zip", "application/zip", [80, 75]⟩, some "zip", none, none⟩

/-- The response to `notesToJson`. -/
def notesResult : ConversionResult :=
  { success := true
    fileName := "notes.json"
    contentType := "application/json"
    size := 2
    originalSize := 2
    sourceCategory := "document"
    targetFormat := "json"
    downloadId := toBase64 (bufferFrom "notes.json")
    hasMetadata := false }

/-- The response to `photoToWebp`. -/
def photoResult : ConversionResult :=
  { success := true
    fileName := "photo.webp"
    contentType := "image/webp"
    size := 3
    originalSize := 3
    sourceCategory := "image"
    targetFormat := "webp"
    downloadId := toBase64 (bufferFrom "photo.webp")
    hasMetadata := false }

/-- The state after `notesToJson` was converted at time 0 in the fresh state. -/
def afterNotes : Globals :=
  (POST sampleRuntime freshGlobals (Clock.tick 0) notesToJson).globals

/-- The two library calls on the texts of the sample round trip: `JSON.parse` reads the JSON
text of `{a: 1}` and rejects the YAML text, `yaml.dump` writes `{metadata: null, data: {a: 1}}`
in block style. -/
def sampleCodec : DataCodec where
  jsonParse := fun text =>
    if text = "\x7b\"a\":1\x7d" then some (.object [("a", .number 1)]) else none
  yamlDump := fun _ => "metadata: null\ndata:\n  a: 1\n"

/-- A runtime whose codecs raise an exception, as sharp does for bytes that are no image. -/
def failingRuntime : Runtime where
  toLowerCase := asciiLower
  runBranch := fun _ _ => .error "Input buffer contains unsupported image format"

/-- A request that uploads `notes.txt` and asks for `docx`. -/
def notesToDocx : FormData :=
  ⟨some ⟨"notes.txt", "text/plain", [104, 105]⟩, some "docx", none, none⟩

/-- A request that uploads `a.json` and asks for `tsv`. -/
def jsonToTsv : FormData :=
  ⟨some ⟨"a.json", "application/json", [123, 125]⟩, some "tsv", none, none⟩

/-- A request that uploads `ab~.txt` and asks for `txt`. -/
def tildeToTxt : FormData :=
  ⟨some ⟨"ab~.txt", "text/plain", [104, 105]⟩, some "txt", none, none⟩

/-- A quality field that reads as 2^1024: the hexadecimal digit 1 followed by 256 zeros. -/
def hugeQuality : String := String.mk ('0' :: 'x' :: '1' :: List.replicate 256 '0')

/-- A sample font: it encodes the texts of printable ASCII characters only. The default font
of pdf-lib encodes these, and does not encode the dotless i (U+0131) of the sample text. -/
def printableAscii (text : List Nat) : Bool :=
  text.all (fun unit => decide (32 ≤ unit ∧ unit ≤ 126))

/-! ## Helper lemmas -/

theorem startsWith_iff (s pre : String) : startsWith s pre = true ↔ StartsWith s pre := by
  unfold startsWith StartsWith
  rw [List.isPrefixOf_iff_prefix]
  constructor
  · rintro ⟨t, ht⟩
    exact ⟨String.mk t, String.ext (by simp [ht])⟩
  · rintro ⟨rest, h⟩
    exact ⟨rest.data, by simp [h]⟩

theorem includesChars_iff (sub l : List Char) : includesChars sub l = true ↔ sub <:+: l := by
  induction l with
  | nil => simp [includesChars, List.isEmpty_iff]
  | cons c cs ih =>
    simp only [includesChars, Bool.or_eq_true, List.isPrefixOf_iff_prefix, ih,
      List.infix_cons_iff]

theorem includes_iff (s sub : String) : includes s sub = true ↔ Contains s sub := by
  unfold includes Contains
  rw [includesChars_iff]
  constructor
  · rintro ⟨a, b, h⟩
    exact ⟨String.mk a, String.mk b, String.ext (by simp [h])⟩
  · rintro ⟨before, after, h⟩
    exact ⟨before.data, after.data, by simp [h]⟩

theorem findCategory_spec (extension : String) :
    ∀ table : List (String × List String), (∃ p ∈ table, extension ∈ p.2) →
      ∃ category pre exts post, findCategory extension table = some category ∧
        table = pre ++ (category, exts) :: post ∧ extension ∈ exts ∧
        ∀ p ∈ pre, extension ∉ p.2 := by
  intro table
  induction table with
  | nil => rintro ⟨p, hp, _⟩; cases hp
  | cons entry rest ih =>
    obtain ⟨category, extensions⟩ := entry
    intro h
    by_cases hmem : extension ∈ extensions
    · exact ⟨category, [], extensions, rest, by simp [findCategory, hmem], rfl, hmem,
        by simp⟩
    · have hrest : ∃ p ∈ rest, extension ∈ p.2 := by
        obtain ⟨p, hp, hpe⟩ := h
        rcases List.mem_cons.mp hp with rfl | hp
        · exact absurd hpe hmem
        · exact ⟨p, hp, hpe⟩
      obtain ⟨c, pre, exts, post, hfind, htable, hexts, hpre⟩ := ih hrest
      refine ⟨c, (category, extensions) :: pre, exts, post, ?_, ?_, hexts, ?_⟩
      · simp [findCategory, hmem, hfind]
      · simp [htable]
      · intro p hp
        rcases List.mem_cons.mp hp with rfl | hp
        · exact hmem
        · exact hpre p hp

theorem findCategory_none (extension : String) :
    ∀ table : List (String × List String), (∀ p ∈ table, extension ∉ p.2) →
      findCategory extension table = none := by
  intro table
  induction table with
  | nil => intro _; rfl
  | cons entry rest ih =>
    obtain ⟨category, extensions⟩ := entry
    intro h
    have h1 : extension ∉ extensions := h (category, extensions) (List.mem_cons_self _ _)
    simp only [findCategory, h1, if_false]
    exact ih (fun p hp => h p (List.mem_cons_of_mem _ hp))

theorem findCategory_mem (extension category : String) :
    ∀ table : List (String × List String), findCategory extension table = some category →
      category ∈ table.map Prod.fst := by
  intro table
  induction table with
  | nil => intro h; simp [findCategory] at h
  | cons entry rest ih =>
    obtain ⟨c, extensions⟩ := entry
    intro h
    by_cases hmem : extension ∈ extensions
    · simp [findCategory, hmem] at h
      simp [h]
    · simp only [findCategory, hmem, if_false] at h
      simp [ih h]

/-- The closed set of categories that the classifier can return. -/
theorem getFileCategory_range (toLowerCase : String → String) (fileName : String)
    (mimeType : Option String) :
    getFileCategory toLowerCase fileName mimeType ∈
      ["image", "document", "spreadsheet", "data", "archive", "code", "audio", "video",
        "unknown"] := by
  unfold getFileCategory
  simp only
  split
  · rename_i category hfind
    have hmem := findCategory_mem _ _ _ hfind
    simp only [FORMAT_CATEGORIES, List.map, List.mem_cons] at hmem
    simp only [List.mem_cons]
    tauto
  · split_ifs <;> simp

/-! ### The artifact map -/

theorem ArtifactMap.get_set_self (m : ArtifactMap) (id : String) (record : ArtifactRecord) :
    (ArtifactMap.set m id record).get id = some record := by
  induction m with
  | nil => simp [ArtifactMap.set, ArtifactMap.get, List.lookup]
  | cons entry rest ih =>
    obtain ⟨k, v⟩ := entry
    by_cases hk : k = id
    · simp [ArtifactMap.set, ArtifactMap.get, List.lookup, hk]
    · have hne : (id == k) = false := by simpa using fun h => hk h.symm
      simp only [ArtifactMap.set, hk, if_false, ArtifactMap.get, List.lookup, hne]
      exact ih

theorem ArtifactMap.get_set_other (m : ArtifactMap) (id k : String) (record : ArtifactRecord)
    (hne : k ≠ id) : (ArtifactMap.set m id record).get k = m.get k := by
  induction m with
  | nil =>
    have h : (k == id) = false := by simpa using hne
    simp [ArtifactMap.set, ArtifactMap.get, List.lookup, h]
  | cons entry rest ih =>
    obtain ⟨k', v⟩ := entry
    by_cases hk : k' = id
    · subst hk
      have h : (k == k') = false := by simpa using hne
      simp [ArtifactMap.set, ArtifactMap.get, List.lookup, h]
    · simp only [ArtifactMap.set, hk, if_false, ArtifactMap.get, List.lookup]
      cases hkk : k == k' with
      | true => rfl
      | false => exact ih

theorem ArtifactMap.keys_set (m : ArtifactMap) (id : String) (record : ArtifactRecord) :
    (ArtifactMap.set m id record).map Prod.fst
      = if id ∈ m.map Prod.fst then m.map Prod.fst else m.map Prod.fst ++ [id] := by
  induction m with
  | nil => simp [ArtifactMap.set]
  | cons entry rest ih =>
    obtain ⟨k, v⟩ := entry
    by_cases hk : k = id
    · simp [ArtifactMap.set, hk]
    · have hne : ¬ id = k := fun h => hk h.symm
      simp only [ArtifactMap.set, hk, if_false, List.map_cons, ih, List.mem_cons, hne, false_or]
      split_ifs <;> simp

theorem ArtifactMap.wellFormed_set (m : ArtifactMap) (id : String) (record : ArtifactRecord)
    (hwf : ArtifactMap.WellFormed m) : ArtifactMap.WellFormed (ArtifactMap.set m id record) := by
  unfold ArtifactMap.WellFormed at hwf ⊢
  rw [ArtifactMap.keys_set]
  split_ifs with h
  · exact hwf
  · exact List.Nodup.append hwf (List.nodup_singleton id) (by simpa using h)

theorem ArtifactMap.wellFormed_filter (m : ArtifactMap) (p : String × ArtifactRecord → Bool)
    (hwf : ArtifactMap.WellFormed m) : ArtifactMap.WellFormed (m.filter p) := by
  unfold ArtifactMap.WellFormed at hwf ⊢
  exact List.Nodup.sublist ((List.filter_sublist m).map Prod.fst) hwf

theorem ArtifactMap.mem_iff_get (m : ArtifactMap) (hwf : ArtifactMap.WellFormed m)
    (k : String) (v : ArtifactRecord) : (k, v) ∈ m ↔ m.get k = some v := by
  induction m with
  | nil => simp [ArtifactMap.get]
  | cons entry rest ih =>
    obtain ⟨k', v'⟩ := entry
    have hwf' : ArtifactMap.WellFormed rest := (List.nodup_cons.mp hwf).2
    have hnot : k' ∉ rest.map Prod.fst := (List.nodup_cons.mp hwf).1
    by_cases hk : k = k'
    · subst hk
      have hnomem : (k, v) ∉ rest := fun h => hnot (List.mem_map_of_mem Prod.fst h)
      simp only [ArtifactMap.get, List.lookup, beq_self_eq_true, List.mem_cons, Prod.mk.injEq,
        true_and, Option.some.injEq, hnomem, or_false]
      exact eq_comm
    · have hne : (k == k') = false := by simpa using hk
      simp only [ArtifactMap.get, List.lookup, hne, List.mem_cons, Prod.mk.injEq, hk, false_and,
        false_or]
      exact ih hwf'

theorem ArtifactMap.has_eq_isSome (m : ArtifactMap) (id : String) :
    m.has id = (m.get id).isSome := by
  induction m with
  | nil => simp [ArtifactMap.has, ArtifactMap.get]
  | cons entry rest ih =>
    obtain ⟨k, v⟩ := entry
    simp only [ArtifactMap.has, ArtifactMap.get] at ih
    cases hk : id == k with
    | true =>
      have : (k == id) = true := by
        rw [beq_iff_eq] at hk ⊢
        exact hk.symm
      simp [ArtifactMap.has, ArtifactMap.get, List.lookup, hk, this]
    | false =>
      have : (k == id) = false := by
        rw [beq_eq_false_iff_ne] at hk ⊢
        exact fun h => hk h.symm
      simp [ArtifactMap.has, ArtifactMap.get, List.lookup, hk, this, ih]

theorem sweepLoop_eq_filter (oneHourAgo : Int) (pending : List (String × ArtifactRecord)) :
    ∀ m : ArtifactMap, sweepLoop oneHourAgo pending m
      = m.filter (fun e =>
          pending.all (fun p => !decide (p.2.createdAt < oneHourAgo) || e.1 != p.1)) := by
  induction pending with
  | nil => intro m; simp [sweepLoop]
  | cons entry rest ih =>
    obtain ⟨id, file⟩ := entry
    intro m
    by_cases hold : file.createdAt < oneHourAgo
    · simp only [sweepLoop, hold, if_true, ih, ArtifactMap.delete, List.filter_filter,
        List.all_cons, decide_True, Bool.not_true, Bool.false_or]
      apply List.filter_congr
      intro e _
      exact Bool.and_comm _ _
    · simp only [sweepLoop, hold, if_false, ih, List.all_cons, decide_False, Bool.not_false,
        Bool.true_or, Bool.true_and]

theorem sweep_eq_filter (oneHourAgo : Int) (m : ArtifactMap) (hwf : ArtifactMap.WellFormed m) :
    sweep oneHourAgo m = m.filter (fun e => !decide (e.2.createdAt < oneHourAgo)) := by
  unfold sweep
  rw [sweepLoop_eq_filter]
  apply List.filter_congr
  intro e he
  by_cases hold : e.2.createdAt < oneHourAgo
  · simp only [hold, decide_True, Bool.not_true, List.all_eq_false]
    exact ⟨e, he, by simp [hold]⟩
  · simp only [hold, decide_False, Bool.not_false, List.all_eq_true, Bool.or_eq_true,
      Bool.not_eq_true', decide_eq_false_iff_not, bne_iff_ne, ne_eq]
    intro p hp
    by_cases hp_old : p.2.createdAt < oneHourAgo
    · right
      intro hkey
      have : e = p := List.inj_on_of_nodup_map hwf he hp hkey
      exact hold (this ▸ hp_old)
    · exact Or.inl hp_old

theorem ArtifactMap.get_filter (m : ArtifactMap) (hwf : ArtifactMap.WellFormed m)
    (p : String × ArtifactRecord → Bool) (k : String) :
    ArtifactMap.get (m.filter p) k
      = (m.get k).bind (fun v => if p (k, v) then some v else none) := by
  cases hget : m.get k with
  | none =>
    simp only [Option.none_bind]
    cases hget' : ArtifactMap.get (m.filter p) k with
    | none => rfl
    | some v =>
      have hmem := (ArtifactMap.mem_iff_get _ (ArtifactMap.wellFormed_filter m p hwf) k v).mpr hget'
      have hmem' : (k, v) ∈ m := (List.mem_filter.mp hmem).1
      rw [(ArtifactMap.mem_iff_get m hwf k v).mp hmem'] at hget
      cases hget
  | some v =>
    simp only [Option.some_bind]
    have hmem : (k, v) ∈ m := (ArtifactMap.mem_iff_get m hwf k v).mpr hget
    by_cases hp : p (k, v) = true
    · simp only [hp, if_true]
      exact (ArtifactMap.mem_iff_get _ (ArtifactMap.wellFormed_filter m p hwf) k v).mp
        (List.mem_filter.mpr ⟨hmem, hp⟩)
    · simp only [hp, if_false]
      cases hget' : ArtifactMap.get (m.filter p) k with
      | none => rfl
      | some v' =>
        have hmem' :=
          (ArtifactMap.mem_iff_get _ (ArtifactMap.wellFormed_filter m p hwf) k v').mpr hget'
        have hin := List.mem_filter.mp hmem'
        have hv : m.get k = some v' := (ArtifactMap.mem_iff_get m hwf k v').mp hin.1
        rw [hget] at hv
        cases hv
        exact absurd hin.2 hp

/-! ### The conversion endpoint -/

theorem Clock.tick_createdAt (now : Int) : (Clock.tick now).createdAt = now := rfl

theorem Clock.tick_sweep (now : Int) : (Clock.tick now).sweep = now := rfl

theorem ceilDiv_eq_ceil (a : Int) : ceilDiv a 60000 = ⌈(a : ℚ) / 60000⌉ := by
  have h := Rat.floor_intCast_div_natCast (-a) 60000
  have h2 : ((-a : ℤ) : ℚ) / ((60000 : ℕ) : ℚ) = -((a : ℚ) / 60000) := by
    push_cast
    ring
  rw [h2, Int.floor_neg] at h
  unfold ceilDiv
  have h3 : ((60000 : ℕ) : ℤ) = 60000 := by norm_num
  rw [h3] at h
  omega

theorem convert_rateLimit (rt : Runtime) (g : Globals) (clock : Clock) (form : FormData) :
    (convert rt g clock form).globals.systemRateLimit = g.systemRateLimit := by
  unfold convert
  simp only
  split
  · rfl
  · split
    · rfl
    · split
      · rfl
      · split <;> rfl

theorem convert_ne_503 (rt : Runtime) (g : Globals) (clock : Clock) (form : FormData)
    (body : Body) : (convert rt g clock form).response ≠ .json 503 body := by
  unfold convert
  simp only
  split
  · simp
  · split
    · simp
    · split
      · simp
      · split <;> simp

theorem POST_of_not_throttled (rt : Runtime) (g : Globals) (clock : Clock) (form : FormData)
    (hgate : ¬ Throttled g clock) :
    ∃ limit, POST rt g clock form = convert rt { g with systemRateLimit := limit } clock form := by
  unfold POST
  cases hlimit : g.systemRateLimit with
  | none => exact ⟨none, by simp [← hlimit]⟩
  | some limit =>
    by_cases hactive : limit.isActive = true
    · have hnot : ¬ clock.gateCheck < limit.untilMs :=
        fun h => hgate ⟨limit, hlimit, hactive, h⟩
      exact ⟨none, by simp [hactive, hnot]⟩
    · exact ⟨some limit, by simp [hactive, ← hlimit]⟩

theorem convert_converted_inv (rt : Runtime) (g : Globals) (clock : Clock) (form : FormData)
    (r : ConversionResult)
    (h : (convert rt g clock form).response = .json 200 (.converted r)) :
    ∃ file contentType fileExtension convertedBuffer,
      form.file = some file ∧
      dispatch (outputFormatOf rt.toLowerCase form) = some (contentType, fileExtension) ∧
      rt.runBranch (outputFormatOf rt.toLowerCase form) form = .ok convertedBuffer ∧
      r.fileName = stripExtension file.name ++ "." ++ fileExtension ∧
      r.contentType = contentType ∧
      r.downloadId = toBase64 (bufferFrom r.fileName) ∧
      r.size = convertedBuffer.length ∧
      (convert rt g clock form).globals.convertedFiles
        = some (sweep (clock.sweep - 60 * 60 * 1000)
            (ArtifactMap.set (g.convertedFiles.getD []) r.downloadId
              ⟨convertedBuffer, contentType, r.fileName, clock.createdAt⟩)) := by
  unfold convert at h ⊢
  simp only at h ⊢
  cases hfile : form.file with
  | none => simp [hfile] at h
  | some file =>
    simp only [hfile] at h ⊢
    split at h
    · simp at h
    · rename_i hallow
      simp only [hallow]
      cases hdisp : dispatch (outputFormatOf rt.toLowerCase form) with
      | none => simp [hdisp] at h
      | some pair =>
        obtain ⟨contentType, fileExtension⟩ := pair
        simp only [hdisp] at h ⊢
        cases hrun : rt.runBranch (outputFormatOf rt.toLowerCase form) form with
        | error msg => simp [hrun] at h
        | ok convertedBuffer =>
          simp only [hrun] at h ⊢
          simp only [Response.json.injEq, Body.converted.injEq, true_and] at h
          subst h
          exact ⟨file, contentType, fileExtension, convertedBuffer, rfl, rfl, rfl, rfl, rfl, rfl,
            rfl, rfl⟩

theorem base64Chars_ne_nil (bytes : List Nat) (h : bytes ≠ []) : base64Chars bytes ≠ [] := by
  match bytes, h with
  | [_], _ => simp [base64Chars]
  | [_, _], _ => simp [base64Chars]
  | _ :: _ :: _ :: _, _ => simp [base64Chars]

theorem toBase64_displayName_ne_empty (base extension : String) :
    toBase64 (bufferFrom (base ++ "." ++ extension)) ≠ "" := by
  have hbytes : bufferFrom (base ++ "." ++ extension) ≠ [] := by
    have h46 : utf8EncodeChar '.' = [46] := by decide
    simp [bufferFrom, h46]
  intro h
  have hdata := congrArg String.data h
  exact base64Chars_ne_nil _ hbytes hdata

theorem Globals.wellFormed_store (g : Globals) (hwf : g.WellFormed) :
    ArtifactMap.WellFormed (g.convertedFiles.getD []) := by
  cases hstore : g.convertedFiles with
  | none => exact List.nodup_nil
  | some m => exact hwf m hstore

/-- The store after a successful conversion, read through `get`. -/
theorem POST_converted_store (rt : Runtime) (g : Globals) (clock : Clock) (form : FormData)
    (r : ConversionResult) (hwf : g.WellFormed)
    (hok : (POST rt g clock form).response = .json 200 (.converted r)) :
    ∃ convertedBuffer store,
      rt.runBranch (outputFormatOf rt.toLowerCase form) form = .ok convertedBuffer ∧
      r.size = convertedBuffer.length ∧ r.downloadId ≠ "" ∧
      (POST rt g clock form).globals.convertedFiles = some store ∧
      ArtifactMap.WellFormed store ∧
      (∀ e ∈ store, clock.sweep - 3600000 ≤ e.2.createdAt) ∧
      ∀ k, store.get k
        = (if k = r.downloadId then
              some ⟨convertedBuffer, r.contentType, r.fileName, clock.createdAt⟩
            else (g.convertedFiles.getD []).get k).bind
            (fun v => if v.createdAt < clock.sweep - 3600000 then none else some v) := by
  have hthr : ¬ Throttled g clock := by
    rintro ⟨limit, hlimit, hactive, hnow⟩
    simp [POST, hlimit, hactive, hnow] at hok
  obtain ⟨limit, hpost⟩ := POST_of_not_throttled rt g clock form hthr
  rw [hpost] at hok ⊢
  obtain ⟨file, contentType, fileExtension, convertedBuffer, _, _, hrun, hname, hct, hid, hsize,
    hstore⟩ := convert_converted_inv rt _ clock form r hok
  simp only at hstore
  have hwfset := ArtifactMap.wellFormed_set (g.convertedFiles.getD []) r.downloadId
    ⟨convertedBuffer, contentType, r.fileName, clock.createdAt⟩ (g.wellFormed_store hwf)
  rw [sweep_eq_filter _ _ hwfset] at hstore
  refine ⟨convertedBuffer, _, hrun, hsize, ?_, hstore, ?_, ?_, ?_⟩
  · rw [hid, hname]
    exact toBase64_displayName_ne_empty _ _
  · exact ArtifactMap.wellFormed_filter _ _ hwfset
  · intro e he
    have := (List.mem_filter.mp he).2
    simp only [Bool.not_eq_true', decide_eq_false_iff_not, not_lt] at this
    omega
  · intro k
    rw [ArtifactMap.get_filter _ hwfset]
    have hfun : (fun v : ArtifactRecord =>
          if (fun e : String × ArtifactRecord =>
              !decide (e.2.createdAt < clock.sweep - 60 * 60 * 1000)) (k, v) = true
          then some v else none)
        = (fun v => if v.createdAt < clock.sweep - 3600000 then none else some v) := by
      funext v
      by_cases hlt : v.createdAt < clock.sweep - 3600000
      · simp only [show (60 * 60 * 1000 : Int) = 3600000 by norm_num, hlt, decide_True,
          Bool.not_true, if_true]
        rfl
      · simp only [show (60 * 60 * 1000 : Int) = 3600000 by norm_num, hlt, decide_False,
          Bool.not_false, if_true, if_false]
    rw [hfun]
    by_cases hk : k = r.downloadId
    · subst hk
      rw [ArtifactMap.get_set_self, if_pos rfl, hct]
    · rw [ArtifactMap.get_set_other _ _ _ _ hk, if_neg hk]

theorem GET_found (g : Globals) (m : ArtifactMap) (id : String) (now : Int)
    (file : ArtifactRecord) (hstore : g.convertedFiles = some m) (hid : id ≠ "")
    (hget : m.get id = some file) :
    ∃ name, (GET g (some id) now).1
      = .file 200 file.buffer file.contentType name (toString file.buffer.length) := by
  have hhas : m.has id = true := by simp [ArtifactMap.has_eq_isSome, hget]
  simp [GET, hstore, hid, hhas, hget]

theorem GET_missing (g : Globals) (id : String) (now : Int)
    (hget : (g.convertedFiles.getD []).get id = none) :
    (GET g (some id) now).1 = .json 404 "File not found or expired" := by
  cases hstore : g.convertedFiles with
  | none => simp [GET, hstore]
  | some m =>
    have hhas : m.has id = false := by
      rw [hstore] at hget
      simp only [Option.getD_some] at hget
      simp [ArtifactMap.has_eq_isSome, hget]
    simp [GET, hstore, hhas]

theorem POST_throttled (rt : Runtime) (g : Globals) (clock : Clock) (form : FormData)
    (limit : RateLimit) (hlimit : g.systemRateLimit = some limit)
    (hactive : limit.isActive = true) (hnow : clock.gateCheck < limit.untilMs) :
    POST rt g clock form
      = ⟨.json 503 (.throttled "System temporarily unavailable"
          ("System is under maintenance. Please try again in "
            ++ toString (ceilDiv (limit.untilMs - clock.gateRemaining) 60000) ++ " minutes.")
          true (ceilDiv (limit.untilMs - clock.gateRemaining) 60000)), g, []⟩ := by
  simp [POST, hlimit, hactive, hnow]

theorem convert_store (rt : Runtime) (g : Globals) (clock : Clock) (form : FormData) :
    (∃ r, (convert rt g clock form).response = .json 200 (.converted r)) ∨
      (convert rt g clock form).globals.convertedFiles = g.convertedFiles := by
  unfold convert
  simp only
  split
  · exact Or.inr rfl
  · split
    · exact Or.inr rfl
    · split
      · exact Or.inr rfl
      · split
        · exact Or.inr rfl
        · exact Or.inl ⟨_, rfl⟩

theorem dispatch_isSome_iff (token : String) :
    (dispatch token).isSome = true ↔ token ∈ supportedTokens := by
  constructor
  · intro h
    by_contra hn
    simp only [supportedTokens, List.mem_cons, List.mem_singleton, List.not_mem_nil, or_false,
      not_or] at hn
    obtain ⟨h1, h2, h3, h4, h5, h6, h7, h8, h9, h10, h11, h12, h13, h14, h15, h16, h17, h18,
      h19, h20⟩ := hn
    simp [dispatch, h1, h2, h3, h4, h5, h6, h7, h8, h9, h10, h11, h12, h13, h14, h15, h16,
      h17, h18, h19, h20] at h
  · intro h
    simp only [supportedTokens, List.mem_cons, List.mem_singleton, List.not_mem_nil,
      or_false] at h
    rcases h with h | h | h | h | h | h | h | h | h | h | h | h | h | h | h | h | h | h | h | h
      <;> subst h <;> decide

theorem ceilDiv_bounds (a b : Int) (hab : b ≤ a) (ha : a ≤ 1800000) (hb0 : 0 < b) :
    1 ≤ ceilDiv b 60000 ∧ ceilDiv b 60000 ≤ ceilDiv a 60000 ∧ ceilDiv a 60000 ≤ 30 := by
  unfold ceilDiv
  omega

theorem POST_throttled_body (rt : Runtime) (g : Globals) (now : Int) (form : FormData)
    (untilMs : Int) (reason : String)
    (hlimit : g.systemRateLimit = some ⟨true, untilMs, reason⟩) (hnow : now < untilMs) :
    POST rt g (Clock.tick now) form
      = ⟨.json 503 (throttledBody (ceilDiv (untilMs - now) 60000)), g, []⟩ :=
  POST_throttled rt g (Clock.tick now) form ⟨true, untilMs, reason⟩ hlimit rfl hnow

theorem Response.ne_converted_of_isConverted (response : Response)
    (h : response.isConverted = false) (r : ConversionResult) :
    response ≠ .json 200 (.converted r) := by
  intro heq
  rw [heq] at h
  simp [Response.isConverted] at h

/-! ### Base64 and UTF-8 round trip -/

set_option maxRecDepth 100000 in
theorem base64Value_digit : ∀ n, n < 64 → base64Value (base64Digit n) = n := by
  decide

set_option maxRecDepth 100000 in
theorem base64Digit_ne_pad : ∀ n, n < 64 → base64Digit n ≠ '=' := by
  decide

theorem base64_roundtrip : ∀ bytes : List Nat, (∀ b ∈ bytes, b < 256) →
    base64DecodeChars (base64Chars bytes) = bytes
  | [], _ => rfl
  | [a], h => by
    have ha : a < 256 := h a (by simp)
    have h1 := base64Value_digit (a / 4) (by omega)
    have h2 := base64Value_digit ((a % 4) * 16) (by omega)
    simp only [base64Chars, base64DecodeChars, if_true, h1, h2]
    congr 1
    omega
  | [a, b], h => by
    have ha : a < 256 := h a (by simp)
    have hb : b < 256 := h b (by simp)
    have h1 := base64Value_digit (a / 4) (by omega)
    have h2 := base64Value_digit ((a % 4) * 16 + b / 16) (by omega)
    have h3 := base64Value_digit ((b % 16) * 4) (by omega)
    have hne := base64Digit_ne_pad ((b % 16) * 4) (by omega)
    simp only [base64Chars, base64DecodeChars, if_true, h1, h2, h3, hne, if_false]
    congr 1
    · omega
    · congr 1
      omega
  | a :: b :: c :: rest, h => by
    have ha : a < 256 := h a (by simp)
    have hb : b < 256 := h b (by simp)
    have hc : c < 256 := h c (by simp)
    have h1 := base64Value_digit (a / 4) (by omega)
    have h2 := base64Value_digit ((a % 4) * 16 + b / 16) (by omega)
    have h3 := base64Value_digit ((b % 16) * 4 + c / 64) (by omega)
    have h4 := base64Value_digit (c % 64) (by omega)
    have hne3 := base64Digit_ne_pad ((b % 16) * 4 + c / 64) (by omega)
    have hne4 := base64Digit_ne_pad (c % 64) (by omega)
    have ih := base64_roundtrip rest (fun x hx => h x (by simp [hx]))
    simp only [base64Chars, base64DecodeChars, h1, h2, h3, h4, hne3, hne4, if_false, ih]
    congr 1
    · omega
    · congr 1
      · omega
      · congr 1
        omega


theorem Char.toNat_lt_max (c : Char) : c.toNat < 1114112 := by
  have h := c.valid
  unfold UInt32.isValidChar Nat.isValidChar at h
  unfold Char.toNat
  omega

theorem utf8EncodeChar_lt (c : Char) : ∀ b ∈ utf8EncodeChar c, b < 256 := by
  have hc := Char.toNat_lt_max c
  intro b hb
  unfold utf8EncodeChar at hb
  simp only at hb
  split_ifs at hb <;> simp only [List.mem_cons, List.mem_singleton, List.not_mem_nil,
    or_false] at hb <;> omega

theorem bufferFrom_lt (s : String) : ∀ b ∈ bufferFrom s, b < 256 := by
  intro b hb
  unfold bufferFrom at hb
  obtain ⟨c, _, hc⟩ := List.mem_flatMap.mp hb
  exact utf8EncodeChar_lt c b hc

theorem utf8Decode_encodeChar (c : Char) (rest : List Nat) :
    utf8DecodeAux (utf8EncodeChar c ++ rest) 0 0 = c :: utf8DecodeAux rest 0 0 := by
  have hc := Char.toNat_lt_max c
  have hback : ∀ n, n = c.toNat → Char.ofNat n = c := by
    intro n hn
    rw [hn, Char.ofNat_toNat]
  unfold utf8EncodeChar
  simp only
  split_ifs with h1 h2 h3
  · simp only [List.cons_append, List.nil_append, utf8DecodeAux, h1, if_true]
    rw [hback _ rfl]
    rfl
  · have hlead1 : ¬ 192 + c.toNat / 64 < 128 := by omega
    have hlead2 : 192 + c.toNat / 64 < 224 := by omega
    simp only [List.cons_append, List.nil_append, utf8DecodeAux, hlead1, hlead2, if_true,
      if_false]
    rw [hback _ (by omega)]
    rfl
  · have hlead1 : ¬ 224 + c.toNat / 4096 < 128 := by omega
    have hlead2 : ¬ 224 + c.toNat / 4096 < 224 := by omega
    have hlead3 : 224 + c.toNat / 4096 < 240 := by omega
    simp only [List.cons_append, List.nil_append, utf8DecodeAux, hlead1, hlead2, hlead3,
      if_true, if_false, Nat.succ_ne_zero]
    rw [hback _ (by omega)]
    rfl
  · have hlead1 : ¬ 240 + c.toNat / 262144 < 128 := by omega
    have hlead2 : ¬ 240 + c.toNat / 262144 < 224 := by omega
    have hlead3 : ¬ 240 + c.toNat / 262144 < 240 := by omega
    simp only [List.cons_append, List.nil_append, utf8DecodeAux, hlead1, hlead2, hlead3,
      if_true, if_false, Nat.succ_ne_zero]
    rw [hback _ (by omega)]
    rfl

theorem utf8Decode_flatMap (chars : List Char) :
    utf8DecodeAux (chars.flatMap utf8EncodeChar) 0 0 = chars := by
  induction chars with
  | nil => rfl
  | cons c cs ih => rw [List.flatMap_cons, utf8Decode_encodeChar, ih]

theorem decodeHandle_toBase64 (name : String) :
    decodeHandle (toBase64 (bufferFrom name)) = name := by
  unfold decodeHandle toBase64
  simp only
  rw [base64_roundtrip _ (bufferFrom_lt name)]
  unfold bufferFrom
  rw [utf8Decode_flatMap]

theorem toBase64_bufferFrom_injective (a b : String)
    (h : toBase64 (bufferFrom a) = toBase64 (bufferFrom b)) : a = b := by
  have := congrArg decodeHandle h
  rwa [decodeHandle_toBase64, decodeHandle_toBase64] at this

theorem POST_converted_inv (rt : Runtime) (g : Globals) (clock : Clock) (form : FormData)
    (r : ConversionResult)
    (hok : (POST rt g clock form).response = .json 200 (.converted r)) :
    ∃ file contentType fileExtension,
      form.file = some file ∧
      dispatch (outputFormatOf rt.toLowerCase form) = some (contentType, fileExtension) ∧
      r.fileName = stripExtension file.name ++ "." ++ fileExtension ∧
      r.contentType = contentType ∧
      r.downloadId = toBase64 (bufferFrom r.fileName) := by
  have hthr : ¬ Throttled g clock := by
    rintro ⟨limit, hlimit, hactive, hnow⟩
    simp [POST, hlimit, hactive, hnow] at hok
  obtain ⟨limit, hpost⟩ := POST_of_not_throttled rt g clock form hthr
  rw [hpost] at hok
  obtain ⟨file, contentType, fileExtension, _, hfile, hdisp, _, hname, hct, hid, _, _⟩ :=
    convert_converted_inv rt _ clock form r hok
  exact ⟨file, contentType, fileExtension, hfile, hdisp, hname, hct, hid⟩

/-! ### Word and character counts -/

theorem splitWhiteSpaceAux_length (chars : List Char) :
    (splitWhiteSpaceAux chars false).length
        = 1 + countTokens chars true + (if endsWithWhiteSpace chars false then 1 else 0) ∧
      (splitWhiteSpaceAux chars true).length
        = countTokens chars false + (if endsWithWhiteSpace chars true then 1 else 0) := by
  induction chars with
  | nil => simp [splitWhiteSpaceAux, countTokens, endsWithWhiteSpace]
  | cons c cs ih =>
    obtain ⟨ih1, ih2⟩ := ih
    by_cases hws : isWhiteSpace c = true
    · simp only [splitWhiteSpaceAux, hws, if_true, countTokens, endsWithWhiteSpace,
        List.length_cons, ih2, Bool.false_eq_true, if_false]
      refine ⟨?_, ?_⟩ <;> first | trivial | omega
    · have hlen : ∀ l : List (List Char),
          (match l with
            | [] => [[c]]
            | piece :: pieces => (c :: piece) :: pieces).length = max l.length 1 := by
        intro l
        cases l <;> simp
      simp only [Bool.not_eq_true] at hws
      simp only [splitWhiteSpaceAux, hws, Bool.false_eq_true, if_false, countTokens,
        endsWithWhiteSpace, hlen, ih1, if_true]
      refine ⟨?_, ?_⟩ <;> first | trivial | omega

theorem jsLength_le_bytes (chars : List Char) :
    (chars.map (fun c => if c.toNat < 65536 then 1 else 2)).sum
        ≤ (chars.flatMap utf8EncodeChar).length ∧
      ((chars.map (fun c => if c.toNat < 65536 then 1 else 2)).sum
          = (chars.flatMap utf8EncodeChar).length ↔ ∀ c ∈ chars, c.toNat < 128) := by
  induction chars with
  | nil => simp
  | cons c cs ih =>
    obtain ⟨ih1, ih2⟩ := ih
    have hlen : (utf8EncodeChar c).length
        = if c.toNat < 128 then 1 else if c.toNat < 2048 then 2
          else if c.toNat < 65536 then 3 else 4 := by
      unfold utf8EncodeChar
      simp only
      split_ifs <;> rfl
    simp only [List.map_cons, List.sum_cons, List.flatMap_cons, List.length_append, hlen,
      List.mem_cons, forall_eq_or_imp]
    constructor
    · split_ifs <;> omega
    · constructor
      · intro h
        have hc : c.toNat < 128 := by
          by_contra hn
          split_ifs at h <;> omega
        refine ⟨hc, ih2.mp ?_⟩
        simp only [hc, show c.toNat < 65536 by omega, if_true] at h
        omega
      · rintro ⟨hc, hrest⟩
        simp only [hc, show c.toNat < 65536 by omega, if_true]
        have := ih2.mpr hrest
        omega

/-! ### CSV and data branches -/

theorem readCsvAux_escaped (v : List Char) :
    ∀ (tail field : List Char) (record : List String),
      readCsvAux (escapeQuotes v ++ tail) .quoted field record
        = readCsvAux tail .quoted (v.reverse ++ field) record := by
  induction v with
  | nil => intro tail field record; rfl
  | cons c cs ih =>
    intro tail field record
    by_cases hc : c = '"'
    · subst hc
      simp only [escapeQuotes, if_true, List.cons_append, readCsvAux, List.reverse_cons,
        List.append_assoc, List.singleton_append]
      exact ih _ _ _
    · simp only [escapeQuotes, hc, if_false, List.cons_append, readCsvAux,
        List.reverse_cons, List.append_assoc, List.singleton_append]
      exact ih _ _ _

theorem startsWith_m_of_metadata (text : String) (h : StartsWith text "metadata:") :
    StartsWith text "m" := by
  obtain ⟨rest, hrest⟩ := h
  exact ⟨"etadata:" ++ rest, by rw [hrest]; rfl⟩

theorem sampleCodec_conforms : sampleCodec.Conforms where
  dump_block := by
    intro metadata rest
    rw [← startsWith_iff]
    show startsWith "metadata: null\ndata:\n  a: 1\n" "metadata:" = true
    decide
  parse_rejects := by
    intro text h
    obtain ⟨rest, hrest⟩ := h
    have hne : text ≠ "\x7b\"a\":1\x7d" := by
      intro heq
      rw [heq] at hrest
      have := congrArg (fun s => s.data.head?) hrest
      simp at this
    simp [sampleCodec, hne]

/-! ### Rule table, rate limit and error paths -/

theorem lookup_mem {β : Type} (table : List (String × β)) (key : String) (value : β)
    (h : table.lookup key = some value) : (key, value) ∈ table := by
  induction table with
  | nil => simp at h
  | cons entry rest ih =>
    obtain ⟨k, v⟩ := entry
    cases hk : key == k with
    | true =>
      simp only [List.lookup, hk, Option.some.injEq] at h
      have hkey : key = k := by simpa using hk
      simp [hkey, h]
    | false =>
      simp only [List.lookup, hk] at h
      exact List.mem_cons_of_mem _ (ih h)

theorem convert_ne_500 (rt : Runtime) (g : Globals) (clock : Clock) (form : FormData)
    (body : Body) : (convert rt g clock form).response ≠ .json 500 body := by
  unfold convert
  simp only
  split
  · simp
  · split
    · simp
    · split
      · simp
      · split <;> simp

theorem POST_rateLimit (rt : Runtime) (g : Globals) (clock : Clock) (form : FormData) :
    (POST rt g clock form).globals.systemRateLimit = g.systemRateLimit ∨
      ((POST rt g clock form).globals.systemRateLimit = none ∧
        ∃ limit, g.systemRateLimit = some limit ∧ limit.isActive = true ∧
          limit.untilMs ≤ clock.gateCheck) := by
  unfold POST
  cases hlimit : g.systemRateLimit with
  | none =>
    left
    simp only
    rw [convert_rateLimit, hlimit]
  | some limit =>
    simp only
    by_cases hactive : limit.isActive = true
    · by_cases hnow : clock.gateCheck < limit.untilMs
      · left
        simp [hactive, hnow, hlimit]
      · right
        simp only [hactive, hnow, if_true, if_false]
        exact ⟨convert_rateLimit _ _ _ _, limit, rfl, hactive, not_lt.mp hnow⟩
    · left
      simp only [hactive, Bool.false_eq_true, if_false]
      rw [convert_rateLimit, hlimit]

theorem GET_state (g : Globals) (id : Option String) (now : Int) : (GET g id now).2 = g := by
  unfold GET
  split
  · rfl
  · split
    · rfl
    · split <;> rfl

theorem rules_lists_disjoint :
    ∀ p ∈ CONVERSION_RULES,
      p.2.allowed.isSome = true ∧ p.2.forbidden.isSome = true ∧
        ∀ t ∈ p.2.forbidden.getD [], t ∉ p.2.allowed.getD [] := by
  decide

theorem lookup_withoutForbidden (table : List (String × ConversionRule)) (category : String) :
    (withoutForbidden table).lookup category
      = (table.lookup category).map (fun r => { r with forbidden := none }) := by
  induction table with
  | nil => rfl
  | cons entry rest ih =>
    obtain ⟨k, v⟩ := entry
    unfold withoutForbidden at ih ⊢
    cases hk : category == k with
    | true => simp [List.lookup, hk]
    | false => simp [List.lookup, hk, ih]

theorem isConversionAllowed_iff_allowed (category : String) (rules : ConversionRule)
    (allowed : List String) (hentry : CONVERSION_RULES.lookup category = some rules)
    (hallowed : rules.allowed = some allowed) (target : String) :
    isConversionAllowed category target = true ↔ target ∈ allowed := by
  have hmem := lookup_mem CONVERSION_RULES category rules hentry
  obtain ⟨_, hf, hdisj⟩ := rules_lists_disjoint (category, rules) hmem
  obtain ⟨forbidden, hforbidden⟩ := Option.isSome_iff_exists.mp hf
  simp only at hforbidden
  simp only [hallowed, hforbidden, Option.getD_some] at hdisj
  unfold isConversionAllowed isConversionAllowedIn
  simp only [hentry, hallowed, hforbidden]
  by_cases hta : target ∈ allowed
  · have htf : target ∉ forbidden := fun h => hdisj target h hta
    simp [hta, htf]
  · by_cases htf : target ∈ forbidden
    · simp [hta, htf]
    · simp [hta, htf]

theorem convert_unsupported (rt : Runtime) (g : Globals) (clock : Clock) (form : FormData)
    (file : UploadedFile) (hfile : form.file = some file)
    (hallow : isConversionAllowed (getFileCategory rt.toLowerCase file.name (some file.type))
      (outputFormatOf rt.toLowerCase form) = true)
    (hnone : dispatch (outputFormatOf rt.toLowerCase form) = none) :
    (convert rt g clock form).response
      = .json 400 (.unsupportedFormat
          ("Unsupported output format: " ++ outputFormatOf rt.toLowerCase form)
          ["jpg", "jpeg", "png", "webp", "gif", "bmp", "tiff", "svg", "ico"]
          ["pdf", "docx", "doc", "odt", "rtf", "txt", "html", "md", "tex"]
          ["xlsx", "xls", "csv", "ods", "tsv"]
          ["json", "xml", "yaml", "yml", "csv", "tsv"]) := by
  simp [convert, hfile, hallow, hnone, FORMAT_CATEGORIES, List.lookup]

theorem allowed_unsupported_pairs :
    ∀ p ∈ CONVERSION_RULES, ∀ t ∈ p.2.allowed.getD [], dispatch t = none →
      (p.1 = "document" ∧ t = "docx") ∨ (p.1 = "data" ∧ t = "tsv") := by
  decide

/-! ### PDF text layout -/

theorem drawTextLoop_spec (encodes : List Nat → Bool) (lines : List (List Nat)) :
    ∀ k : Nat, k ≤ 38 →
      (∀ (i : Nat) (d : DrawText),
        (drawTextLoop encodes lines (800 - 20 * (k : Int))).draws[i]? = some d →
          i < 38 - k ∧ ∃ line, lines[i]? = some line ∧ encodes (line.take 80) = true ∧
            d = ⟨line.take 80, 50, 800 - 20 * ((k + i : Nat) : Int), 10⟩) ∧
      ((∀ (i : Nat) (line : List Nat), lines[i]? = some line → i < 38 - k →
          encodes (line.take 80) = true) →
        (drawTextLoop encodes lines (800 - 20 * (k : Int))).raised = false ∧
        (drawTextLoop encodes lines (800 - 20 * (k : Int))).draws.length
          = min lines.length (38 - k)) ∧
      (∀ (j : Nat) (line : List Nat), lines[j]? = some line → j < 38 - k →
          encodes (line.take 80) = false →
          (∀ (i : Nat) (l : List Nat), i < j → lines[i]? = some l →
            encodes (l.take 80) = true) →
        (drawTextLoop encodes lines (800 - 20 * (k : Int))).raised = true ∧
        (drawTextLoop encodes lines (800 - 20 * (k : Int))).draws.length = j) := by
  induction lines with
  | nil =>
    intro k _
    simp [drawTextLoop]
  | cons line rest ih =>
    intro k hk
    by_cases hlast : k = 38
    · subst hlast
      simp [drawTextLoop]
    · have hk' : k + 1 ≤ 38 := by omega
      have hy : ¬ (800 - 20 * (k : Int) < 50) := by omega
      have hnext : (800 - 20 * (k : Int) - 20) = 800 - 20 * ((k + 1 : Nat) : Int) := by
        push_cast
        ring
      obtain ⟨ihget, ihall, ihraise⟩ := ih (k + 1) hk'
      cases henc : encodes (line.take 80) with
      | false =>
        simp only [drawTextLoop, hy, if_false, henc, Bool.false_eq_true]
        refine ⟨?_, ?_, ?_⟩
        · intro i d hd
          simp at hd
        · intro hall
          have := hall 0 line (by simp) (by omega)
          rw [henc] at this
          cases this
        · intro j l hl hj hrej hbefore
          cases j with
          | zero => simp
          | succ j' =>
            have := hbefore 0 line (by omega) (by simp)
            rw [henc] at this
            cases this
      | true =>
        simp only [drawTextLoop, hy, if_false, henc, if_true, hnext]
        refine ⟨?_, ?_, ?_⟩
        · intro i d hd
          cases i with
          | zero =>
            simp only [List.getElem?_cons_zero, Option.some.injEq] at hd
            refine ⟨by omega, line, by simp, henc, ?_⟩
            rw [← hd]
            simp
          | succ j =>
            simp only [List.getElem?_cons_succ] at hd
            obtain ⟨hj, l, hl, hlenc, hdl⟩ := ihget j d hd
            refine ⟨by omega, l, by simpa using hl, hlenc, ?_⟩
            rw [hdl]
            congr 3
            omega
        · intro hall
          obtain ⟨hr, hlen⟩ := ihall (fun i l hl hi => hall (i + 1) l (by simpa using hl)
            (by omega))
          refine ⟨hr, ?_⟩
          simp only [List.length_cons, hlen]
          omega
        · intro j l hl hj hrej hbefore
          cases j with
          | zero =>
            simp only [List.getElem?_cons_zero, Option.some.injEq] at hl
            subst hl
            rw [henc] at hrej
            cases hrej
          | succ j' =>
            simp only [List.getElem?_cons_succ] at hl
            obtain ⟨hr, hlen⟩ := ihraise j' l hl (by omega) hrej
              (fun i l2 hi hl2 => hbefore (i + 1) l2 (by omega) (by simpa using hl2))
            exact ⟨hr, by simp only [List.length_cons, hlen]⟩

/-! ### The Number that parseInt returns -/

theorem bitLength_le (fuel : Nat) : ∀ n k : Nat, n < 2 ^ k → bitLength fuel n ≤ k := by
  induction fuel with
  | zero => intro n k _; simp [bitLength]
  | succ f ih =>
    intro n k hn
    by_cases h0 : n = 0
    · simp [bitLength, h0]
    · cases k with
      | zero => simp at hn; exact absurd hn h0
      | succ j =>
        have hhalf : n / 2 < 2 ^ j := by
          rw [pow_succ] at hn
          omega
        have := ih (n / 2) j hhalf
        simp only [bitLength, h0, if_false]
        omega

theorem bitLength_pow_le (fuel : Nat) :
    ∀ n : Nat, n ≠ 0 → n ≤ fuel → 2 ^ (bitLength fuel n - 1) ≤ n := by
  induction fuel with
  | zero => intro n h0 hle; omega
  | succ f ih =>
    intro n h0 hle
    simp only [bitLength, h0, if_false, Nat.add_sub_cancel_left]
    by_cases hhalf : n / 2 = 0
    · have hzero : bitLength f (n / 2) = 0 := by
        rw [hhalf]
        cases f <;> simp [bitLength]
      rw [hzero]
      simp
      omega
    · have hih := ih (n / 2) hhalf (by omega)
      have hpos : 1 ≤ bitLength f (n / 2) := by
        cases f with
        | zero => omega
        | succ f' => simp [bitLength, hhalf]
      have hpow : 2 ^ bitLength f (n / 2) = 2 * 2 ^ (bitLength f (n / 2) - 1) := by
        rw [← pow_succ']
        congr 1
        omega
      rw [hpow]
      omega

theorem lt_pow_bitLength (fuel : Nat) : ∀ n : Nat, n ≤ fuel → n < 2 ^ bitLength fuel n := by
  induction fuel with
  | zero => intro n hle; simp [bitLength]; omega
  | succ f ih =>
    intro n hle
    by_cases h0 : n = 0
    · simp [bitLength, h0]
    · have hih := ih (n / 2) (by omega)
      simp only [bitLength, h0, if_false]
      rw [Nat.add_comm, pow_succ]
      omega

theorem roundToDouble_exact (m : Nat) (h : m ≤ 2 ^ 53) : roundToDouble m = some m := by
  rcases Nat.lt_or_ge m (2 ^ 53) with hlt | hge
  · have := bitLength_le m m 53 hlt
    simp [roundToDouble, this]
  · have : m = 2 ^ 53 := le_antisymm h hge
    subst this
    decide

theorem roundToDouble_rounded (m : Nat) (hbits : ¬ bitLength m m ≤ 53) :
    ∃ rounded, 2 ^ 52 ≤ rounded ∧
      roundToDouble m =
        if 1024 < bitLength (rounded * 2 ^ (bitLength m m - 53))
            (rounded * 2 ^ (bitLength m m - 53)) then none
        else some (rounded * 2 ^ (bitLength m m - 53)) := by
  have h0 : m ≠ 0 := by
    intro h
    subst h
    exact hbits (by decide)
  have hlow := bitLength_pow_le m m h0 (le_refl m)
  have hsplit : 2 ^ (bitLength m m - 1) = 2 ^ 52 * 2 ^ (bitLength m m - 53) := by
    rw [← pow_add]
    congr 1
    omega
  have hq : 2 ^ 52 ≤ m / 2 ^ (bitLength m m - 53) := by
    rw [Nat.le_div_iff_mul_le (by positivity)]
    rw [← hsplit]
    exact hlow
  unfold roundToDouble
  simp only [hbits, if_false]
  split_ifs with h1 h2 h3
  · exact ⟨_, le_trans hq (Nat.le_succ _), by simp [h2]⟩
  · exact ⟨_, le_trans hq (Nat.le_succ _), by simp [h2]⟩
  · exact ⟨_, hq, by simp [h3]⟩
  · exact ⟨_, hq, by simp [h3]⟩

theorem roundToDouble_ne_zero (m : Nat) (h : m ≠ 0) : roundToDouble m ≠ some 0 := by
  by_cases hbits : bitLength m m ≤ 53
  · simp only [roundToDouble, hbits, if_true]
    simpa using h
  · obtain ⟨rounded, hge, heq⟩ := roundToDouble_rounded m hbits
    rw [heq]
    split_ifs
    · simp
    · have hpos : 0 < rounded * 2 ^ (bitLength m m - 53) :=
        Nat.mul_pos (lt_of_lt_of_le (by positivity) hge) (by positivity)
      simp only [ne_eq, Option.some.injEq]
      omega

theorem roundToDouble_overflow (m : Nat) (h : 2 ^ 1024 ≤ m) : roundToDouble m = none := by
  have hlt := lt_pow_bitLength m m (le_refl m)
  have hbig : 1024 < bitLength m m := by
    by_contra hnot
    have : 2 ^ bitLength m m ≤ 2 ^ 1024 :=
      pow_le_pow_right₀ one_le_two (Nat.le_of_not_lt hnot)
    exact absurd (lt_of_lt_of_le hlt this) (not_lt.mpr h)
  clear h hlt
  have hbits : ¬ bitLength m m ≤ 53 := by omega
  obtain ⟨rounded, hge, heq⟩ := roundToDouble_rounded m hbits
  rw [heq]
  have hsplit : 2 ^ (bitLength m m - 1) = 2 ^ 52 * 2 ^ (bitLength m m - 53) := by
    rw [← pow_add]
    congr 1
    omega
  have hle : 1024 ≤ bitLength m m - 1 := by omega
  have hvalue : 2 ^ 1024 ≤ rounded * 2 ^ (bitLength m m - 53) :=
    calc 2 ^ 1024 ≤ 2 ^ (bitLength m m - 1) := pow_le_pow_right₀ one_le_two hle
      _ = 2 ^ 52 * 2 ^ (bitLength m m - 53) := hsplit
      _ ≤ rounded * 2 ^ (bitLength m m - 53) := Nat.mul_le_mul_right _ hge
  have hover : 1024 < bitLength (rounded * 2 ^ (bitLength m m - 53))
      (rounded * 2 ^ (bitLength m m - 53)) := by
    by_contra hnot
    have hlt2 := lt_pow_bitLength _ _ (le_refl (rounded * 2 ^ (bitLength m m - 53)))
    have : 2 ^ bitLength (rounded * 2 ^ (bitLength m m - 53))
        (rounded * 2 ^ (bitLength m m - 53)) ≤ 2 ^ 1024 :=
      pow_le_pow_right₀ one_le_two (Nat.le_of_not_lt hnot)
    exact absurd (lt_of_lt_of_le hlt2 this) (not_lt.mpr hvalue)
  rw [if_pos hover]

theorem numberOfInt_exact (n : Int) (h : n.natAbs ≤ 2 ^ 53) : numberOfInt n = .finite n := by
  unfold numberOfInt
  rw [roundToDouble_exact _ h]
  simp only
  congr 1
  split_ifs with hneg <;> omega

theorem numberOfInt_ne_zero (n : Int) (h : n ≠ 0) :
    numberOfInt n ≠ .nan ∧ numberOfInt n ≠ .finite 0 := by
  unfold numberOfInt
  have hne := roundToDouble_ne_zero n.natAbs (by omega)
  cases hround : roundToDouble n.natAbs with
  | none => simp
  | some m =>
    rw [hround] at hne
    have hm : m ≠ 0 := fun hz => hne (by rw [hz])
    simp only [ne_eq, not_false_eq_true, JsNumber.finite.injEq, true_and, reduceCtorEq]
    split_ifs <;> omega

theorem numberOfInt_overflow (n : Int) (h : 2 ^ 1024 ≤ n.natAbs) :
    numberOfInt n = .infinity (decide (n < 0)) := by
  unfold numberOfInt
  rw [roundToDouble_overflow _ h]

/-! ### The rows of the csv branch -/

theorem escapeQuotes_eq_flatMap (l : List Char) :
    escapeQuotes l = l.flatMap (fun c => if c = '"' then ['"', '"'] else [c]) := by
  induction l with
  | nil => rfl
  | cons c cs ih =>
    by_cases hc : c = '"'
    · simp [escapeQuotes, hc, ih]
    · simp [escapeQuotes, hc, ih]

theorem csvCell_eq (value : Option Json) :
    csvCell value = "\"" ++ doubleQuotes (cellText value) ++ "\"" := by
  cases value <;> simp only [csvCell, doubleQuotes, cellText, escapeQuotes_eq_flatMap]

theorem csvCell_data (value : Option Json) :
    (csvCell value).data = '"' :: (escapeQuotes (cellText value).data ++ ['"']) := by
  cases value <;> simp [csvCell, cellText, String.data_append]

theorem intercalate_go_data (sep : String) :
    ∀ (l : List String) (acc : String),
      (String.intercalate.go acc sep l).data
        = acc.data ++ l.flatMap (fun a => sep.data ++ a.data)
  | [], acc => by simp [String.intercalate.go]
  | a :: as, acc => by
    simp [String.intercalate.go, intercalate_go_data sep as, String.data_append]

theorem intercalate_cons_data (sep a : String) (as : List String) :
    (sep.intercalate (a :: as)).data = a.data ++ as.flatMap (fun b => sep.data ++ b.data) := by
  simp [String.intercalate, intercalate_go_data]

theorem join_data_aux : ∀ (l : List String) (acc : String),
    (l.foldl (fun r s => r ++ s) acc).data = acc.data ++ l.flatMap String.data
  | [], acc => by simp
  | a :: as, acc => by
    simp [join_data_aux as, String.data_append]

theorem join_data (l : List String) : (String.join l).data = l.flatMap String.data := by
  unfold String.join
  rw [join_data_aux]
  simp

theorem readCsvAux_cell (t tail field : List Char) (record : List String) :
    readCsvAux ('"' :: (escapeQuotes t ++ '"' :: tail)) .fieldStart field record
      = readCsvAux tail .afterQuote t.reverse record := by
  simp only [readCsvAux, if_true]
  rw [readCsvAux_escaped]
  simp only [readCsvAux, if_true, List.append_nil]

theorem readCsvAux_line : ∀ (ts : List (List Char)) (t tail field : List Char)
    (record : List String),
    readCsvAux (('"' :: (escapeQuotes t ++ ['"']))
        ++ ts.flatMap (fun a => ',' :: ('"' :: (escapeQuotes a ++ ['"']))) ++ '\n' :: tail)
        .fieldStart field record
      = (record.reverse ++ (t :: ts).map String.mk) :: readCsvAux tail .fieldStart [] []
  | [], t, tail, field, record => by
    have h := readCsvAux_cell t ('\n' :: tail) field record
    simp only [List.flatMap_nil, List.append_nil, List.cons_append, List.append_assoc,
      List.nil_append, List.singleton_append] at h ⊢
    rw [h]
    simp [readCsvAux]
  | a :: as, t, tail, field, record => by
    have h := readCsvAux_cell t
      (',' :: (('"' :: (escapeQuotes a ++ ['"']))
        ++ as.flatMap (fun a => ',' :: ('"' :: (escapeQuotes a ++ ['"']))) ++ '\n' :: tail))
      field record
    have ih := readCsvAux_line as a tail [] (String.mk t :: record)
    simp only [List.flatMap_cons, List.cons_append, List.append_assoc,
      List.nil_append, List.singleton_append] at h ih ⊢
    have hcomma : ∀ (cs f : List Char) (r : List String),
        readCsvAux (',' :: cs) .afterQuote f r
          = readCsvAux cs .fieldStart [] (String.mk f.reverse :: r) := by
      intro cs f r
      simp [readCsvAux]
    rw [h, hcomma, List.reverse_reverse, ih]
    simp

theorem csvLine_data (header : String) (headers : List String) (row : List (String × Json)) :
    (csvLine (header :: headers) row).data
      = ('"' :: (escapeQuotes (cellText (row.lookup header)).data ++ ['"']))
        ++ (headers.map (fun h => (cellText (row.lookup h)).data)).flatMap
            (fun a => ',' :: ('"' :: (escapeQuotes a ++ ['"'])))
        ++ ['\n'] := by
  unfold csvLine
  rw [String.data_append, List.map_cons, intercalate_cons_data, csvCell_data]
  simp [List.flatMap_map, csvCell_data]

theorem readCsvAux_rows (header : String) (headers : List String) :
    ∀ rows : List (List (String × Json)),
      readCsvAux (rows.flatMap (fun row => (csvLine (header :: headers) row).data))
          .fieldStart [] []
        = rows.map (fun row => (header :: headers).map (fun h => cellText (row.lookup h)))
  | [] => by simp [readCsvAux]
  | row :: rows => by
    rw [List.flatMap_cons, csvLine_data]
    have h := readCsvAux_line (headers.map (fun h => (cellText (row.lookup h)).data))
      (cellText (row.lookup header)).data
      (rows.flatMap (fun row => (csvLine (header :: headers) row).data)) [] []
    simp only [List.append_assoc, List.singleton_append] at h ⊢
    rw [h, readCsvAux_rows header headers rows]
    simp

/-! ## Conversion policy: claims C1 to C3 -/

/-- C1, as stated, fails: the claim lets an entry whose allowed list is empty permit every
target that is not forbidden, whereas the code denies it; the three-way rule of the claim is
not what `isConversionAllowed` computes for all allowed and forbidden lists. -/
theorem isConversionAllowedIn_stated_rule_fails :
    ¬ ∀ (allowed forbidden : List String) (category target : String),
        isConversionAllowedIn [(category, ⟨some allowed, some forbidden⟩)] category target
          = (if target ∈ forbidden then false
             else if allowed ≠ [] ∧ target ∉ allowed then false
             else true) := by
  intro h
  have h1 := h [] [] "data" "png"
  revert h1
  decide

/-- C1, amended: for every rule entry and every target, `isConversionAllowed` returns false
when the target is in the forbidden list; otherwise it returns false when the allowed list is
present, empty or not, and does not contain the target; otherwise it returns true. -/
theorem isConversionAllowedIn_rule (table : List (String × ConversionRule))
    (category target : String) (rules : ConversionRule)
    (hentry : table.lookup category = some rules) :
    ((∃ forbidden, rules.forbidden = some forbidden ∧ target ∈ forbidden) →
        isConversionAllowedIn table category target = false) ∧
    ((∀ forbidden, rules.forbidden = some forbidden → target ∉ forbidden) →
      (∃ allowed, rules.allowed = some allowed ∧ target ∉ allowed) →
        isConversionAllowedIn table category target = false) ∧
    ((∀ forbidden, rules.forbidden = some forbidden → target ∉ forbidden) →
      (∀ allowed, rules.allowed = some allowed → target ∈ allowed) →
        isConversionAllowedIn table category target = true) := by
  obtain ⟨allowed, forbidden⟩ := rules
  refine ⟨?_, ?_, ?_⟩
  · rintro ⟨f, hf, hmem⟩
    simp only at hf
    subst hf
    simp [isConversionAllowedIn, hentry, hmem]
  · rintro hforb ⟨a, ha, hmem⟩
    simp only at ha hforb
    subst ha
    cases forbidden with
    | none => simp [isConversionAllowedIn, hentry, hmem]
    | some f => simp [isConversionAllowedIn, hentry, hmem, hforb f rfl]
  · intro hforb hall
    simp only at hforb hall
    cases forbidden with
    | none =>
      cases allowed with
      | none => simp [isConversionAllowedIn, hentry]
      | some a => simp [isConversionAllowedIn, hentry, hall a rfl]
    | some f =>
      cases allowed with
      | none => simp [isConversionAllowedIn, hentry, hforb f rfl]
      | some a => simp [isConversionAllowedIn, hentry, hforb f rfl, hall a rfl]

/-- Witness of C1 (amended): an entry with an empty allowed list and nothing forbidden
denies `png`. -/
theorem isConversionAllowedIn_rule_witness :
    List.lookup "data" [("data", (⟨some [], some []⟩ : ConversionRule))]
        = some ⟨some [], some []⟩ ∧
      isConversionAllowedIn [("data", ⟨some [], some []⟩)] "data" "png" = false :=
  ⟨by decide,
    (isConversionAllowedIn_rule [("data", ⟨some [], some []⟩)] "data" "png" ⟨some [], some []⟩
      (by decide)).2.1
      (by intro f hf; cases hf; simp)
      ⟨[], rfl, by simp⟩⟩

/-- C2: for every rule entry and every target that the forbidden list of the entry contains,
`isConversionAllowed` returns false, whatever the allowed list holds (forbidden wins, also
when the allowed list contains the same target). -/
theorem isConversionAllowedIn_forbidden_wins (table : List (String × ConversionRule))
    (category target : String) (allowed : Option (List String)) (forbidden : List String)
    (hentry : table.lookup category = some ⟨allowed, some forbidden⟩)
    (hmem : target ∈ forbidden) :
    isConversionAllowedIn table category target = false := by
  simp [isConversionAllowedIn, hentry, hmem]

/-- Witness of C2: `png` is both allowed and forbidden, and is denied. -/
theorem isConversionAllowedIn_forbidden_wins_witness :
    "png" ∈ ["jpg", "png"] ∧
      isConversionAllowedIn [("image", ⟨some ["png", "pdf"], some ["jpg", "png"]⟩)]
        "image" "png" = false :=
  ⟨by decide,
    isConversionAllowedIn_forbidden_wins [("image", ⟨some ["png", "pdf"], some ["jpg", "png"]⟩)]
      "image" "png" (some ["png", "pdf"]) ["jpg", "png"] (by decide) (by decide)⟩

/-- C3: for every source category without an entry in `CONVERSION_RULES` and every target,
`isConversionAllowed` returns true; `archive` and `unknown` have no entry, and they are the
only outputs of the classifier without one. -/
theorem isConversionAllowed_without_entry (target : String) :
    (∀ category : String, CONVERSION_RULES.lookup category = none →
        isConversionAllowed category target = true) ∧
    isConversionAllowed "archive" target = true ∧
    isConversionAllowed "unknown" target = true ∧
    (∀ (toLowerCase : String → String) (fileName : String) (mimeType : Option String),
      CONVERSION_RULES.lookup (getFileCategory toLowerCase fileName mimeType) = none ↔
        (getFileCategory toLowerCase fileName mimeType = "archive" ∨
          getFileCategory toLowerCase fileName mimeType = "unknown")) := by
  have hgen : ∀ category : String, CONVERSION_RULES.lookup category = none →
      isConversionAllowed category target = true := by
    intro category h
    simp [isConversionAllowed, isConversionAllowedIn, h]
  refine ⟨hgen, hgen _ (by decide), hgen _ (by decide), ?_⟩
  intro toLowerCase fileName mimeType
  have hrange := getFileCategory_range toLowerCase fileName mimeType
  generalize getFileCategory toLowerCase fileName mimeType = c at hrange ⊢
  simp only [List.mem_cons, List.mem_singleton, List.not_mem_nil, or_false] at hrange
  rcases hrange with h | h | h | h | h | h | h | h | h <;> subst h <;> decide

/-- Witness of C3: an archive may be converted to `png`. -/
theorem isConversionAllowed_without_entry_witness :
    CONVERSION_RULES.lookup "archive" = none ∧ isConversionAllowed "archive" "png" = true :=
  ⟨by decide, (isConversionAllowed_without_entry "png").1 "archive" (by decide)⟩

/-! ## Category classifier: claims C4 and C5 -/

/-- C4: when the lower-cased text after the last `'.'` of the file name occurs in
`FORMAT_CATEGORIES`, `getFileCategory` returns the first category of the table, in its order
image, document, spreadsheet, data, archive, code, audio, video, whose suffix list contains
it, and the media type has no influence; so `x.csv` and `x.tsv` are spreadsheet for every
media type, and `x.json` with type `image/png` is data. -/
theorem getFileCategory_suffix_first (toLowerCase : String → String) :
    (∀ (fileName : String) (mimeType : Option String),
      (∃ p ∈ FORMAT_CATEGORIES, toLowerCase (splitPop fileName) ∈ p.2) →
        (∃ pre exts post,
          FORMAT_CATEGORIES
              = pre ++ (getFileCategory toLowerCase fileName mimeType, exts) :: post ∧
            toLowerCase (splitPop fileName) ∈ exts ∧
            ∀ p ∈ pre, toLowerCase (splitPop fileName) ∉ p.2) ∧
        ∀ other : Option String,
          getFileCategory toLowerCase fileName other
            = getFileCategory toLowerCase fileName mimeType) ∧
    FORMAT_CATEGORIES.map Prod.fst
      = ["image", "document", "spreadsheet", "data", "archive", "code", "audio", "video"] ∧
    (∀ mimeType : Option String,
      getFileCategory asciiLower "x.csv" mimeType = "spreadsheet" ∧
      getFileCategory asciiLower "x.tsv" mimeType = "spreadsheet") ∧
    getFileCategory asciiLower "x.json" (some "image/png") = "data" := by
  refine ⟨?_, by decide, ?_, by decide⟩
  · intro fileName mimeType h
    obtain ⟨category, pre, exts, post, hfind, htable, hexts, hpre⟩ :=
      findCategory_spec (toLowerCase (splitPop fileName)) FORMAT_CATEGORIES h
    have hcat : ∀ m : Option String, getFileCategory toLowerCase fileName m = category := by
      intro m
      simp [getFileCategory, hfind]
    refine ⟨⟨pre, exts, post, ?_, hexts, hpre⟩, ?_⟩
    · rw [hcat mimeType]
      exact htable
    · intro other
      rw [hcat other, hcat mimeType]
  · intro mimeType
    have h1 : findCategory (asciiLower (splitPop "x.csv")) FORMAT_CATEGORIES
        = some "spreadsheet" := by decide
    have h2 : findCategory (asciiLower (splitPop "x.tsv")) FORMAT_CATEGORIES
        = some "spreadsheet" := by decide
    exact ⟨by simp [getFileCategory, h1], by simp [getFileCategory, h2]⟩

/-- Witness of C4: `Report.PDF`, declared as `image/png`, is a document: `pdf` is in the
suffix list of document and not in that of image, the only category before it. -/
theorem getFileCategory_suffix_first_witness :
    (∃ p ∈ FORMAT_CATEGORIES, asciiLower (splitPop "Report.PDF") ∈ p.2) ∧
      getFileCategory asciiLower "Report.PDF" (some "image/png") = "document" ∧
      (∃ pre exts post,
        FORMAT_CATEGORIES
            = pre ++ (getFileCategory asciiLower "Report.PDF" (some "image/png"), exts) :: post ∧
          asciiLower (splitPop "Report.PDF") ∈ exts ∧
          ∀ p ∈ pre, asciiLower (splitPop "Report.PDF") ∉ p.2) :=
  ⟨⟨("document", ["pdf", "docx", "doc", "odt", "rtf", "txt", "html", "md", "tex"]),
      by decide, by decide⟩,
    by decide,
    ((getFileCategory_suffix_first asciiLower).1 "Report.PDF" (some "image/png")
      ⟨("document", ["pdf", "docx", "doc", "odt", "rtf", "txt", "html", "md", "tex"]),
        by decide, by decide⟩).1⟩

/-- C5, as stated, fails: a media type that contains `text/` without starting with it (and
meets none of the other conditions) is classified as document, not as unknown. -/
theorem getFileCategory_stated_fallback_fails :
    ¬ ∀ (fileName mimeType : String), NoSuffixMatch asciiLower fileName →
        ¬ StartsWith mimeType "image/" → ¬ StartsWith mimeType "audio/" →
        ¬ StartsWith mimeType "video/" →
        ¬ (Contains mimeType "document" ∨ StartsWith mimeType "text/") →
        ¬ (Contains mimeType "spreadsheet" ∨ Contains mimeType "excel") →
        getFileCategory asciiLower fileName (some mimeType) = "unknown" := by
  intro h
  have h1 := h "notes" "application/x-text/plain" (by unfold NoSuffixMatch; decide)
    (by rw [← startsWith_iff]; decide) (by rw [← startsWith_iff]; decide)
    (by rw [← startsWith_iff]; decide)
    (by rw [← startsWith_iff, ← includes_iff]; decide)
    (by rw [← includes_iff, ← includes_iff]; decide)
  revert h1
  decide

/-- C5, amended: when the suffix of the file name matches no entry of `FORMAT_CATEGORIES`,
`getFileCategory` returns image if the type starts with `image/`, else audio if it starts
with `audio/`, else video if it starts with `video/`, else document if the type contains
`document` or contains `text/` (anywhere), else spreadsheet if it contains `spreadsheet` or
`excel`, and unknown in every other case, also for an absent media type. -/
theorem getFileCategory_fallback (toLowerCase : String → String) (fileName : String)
    (hsuffix : NoSuffixMatch toLowerCase fileName) :
    getFileCategory toLowerCase fileName none = "unknown" ∧
    ∀ mimeType : String,
      (StartsWith mimeType "image/" →
        getFileCategory toLowerCase fileName (some mimeType) = "image") ∧
      (¬ StartsWith mimeType "image/" → StartsWith mimeType "audio/" →
        getFileCategory toLowerCase fileName (some mimeType) = "audio") ∧
      (¬ StartsWith mimeType "image/" → ¬ StartsWith mimeType "audio/" →
        StartsWith mimeType "video/" →
        getFileCategory toLowerCase fileName (some mimeType) = "video") ∧
      (¬ StartsWith mimeType "image/" → ¬ StartsWith mimeType "audio/" →
        ¬ StartsWith mimeType "video/" →
        (Contains mimeType "document" ∨ Contains mimeType "text/") →
        getFileCategory toLowerCase fileName (some mimeType) = "document") ∧
      (¬ StartsWith mimeType "image/" → ¬ StartsWith mimeType "audio/" →
        ¬ StartsWith mimeType "video/" →
        ¬ (Contains mimeType "document" ∨ Contains mimeType "text/") →
        (Contains mimeType "spreadsheet" ∨ Contains mimeType "excel") →
        getFileCategory toLowerCase fileName (some mimeType) = "spreadsheet") ∧
      (¬ StartsWith mimeType "image/" → ¬ StartsWith mimeType "audio/" →
        ¬ StartsWith mimeType "video/" →
        ¬ (Contains mimeType "document" ∨ Contains mimeType "text/") →
        ¬ (Contains mimeType "spreadsheet" ∨ Contains mimeType "excel") →
        getFileCategory toLowerCase fileName (some mimeType) = "unknown") := by
  have hfind : findCategory (toLowerCase (splitPop fileName)) FORMAT_CATEGORIES = none :=
    findCategory_none _ _ hsuffix
  refine ⟨by simp [getFileCategory, hfind, optStartsWith, optIncludes], ?_⟩
  intro mimeType
  simp only [← startsWith_iff, ← includes_iff]
  simp only [getFileCategory, hfind, optStartsWith, optIncludes, Bool.or_eq_true]
  refine ⟨?_, ?_, ?_, ?_, ?_, ?_⟩
  · intro h1; simp [h1]
  · intro h1 h2; simp [h1, h2]
  · intro h1 h2 h3; simp [h1, h2, h3]
  · intro h1 h2 h3 h4; simp [h1, h2, h3, h4]
  · intro h1 h2 h3 h4 h5; simp [h1, h2, h3, h4, h5]
  · intro h1 h2 h3 h4 h5; simp [h1, h2, h3, h4, h5]

/-- Witness of C5 (amended): a file `notes` without a known suffix and with the media type
`application/x-text/plain` is a document. -/
theorem getFileCategory_fallback_witness :
    NoSuffixMatch asciiLower "notes" ∧
      getFileCategory asciiLower "notes" (some "application/x-text/plain") = "document" :=
  ⟨by unfold NoSuffixMatch; decide,
    ((getFileCategory_fallback asciiLower "notes" (by unfold NoSuffixMatch; decide)).2
        "application/x-text/plain").2.2.2.1
      (by rw [← startsWith_iff]; decide) (by rw [← startsWith_iff]; decide)
      (by rw [← startsWith_iff]; decide)
      (Or.inr (by rw [← includes_iff]; decide))⟩

/-! ## Policy rejection and admission gate: claims C6 to C8 -/

/-- C6: a request that passes the admission gate and carries a file whose category and
lower-cased target format are denied by `isConversionAllowed` gets status 400 with the error
`Invalid conversion: <category> files cannot be converted to <target>`; neither the metadata
extraction nor a branch of the dispatcher has run, and the store is untouched. -/
theorem POST_policy_rejection (rt : Runtime) (g : Globals) (clock : Clock) (form : FormData)
    (file : UploadedFile) (hgate : ¬ Throttled g clock) (hfile : form.file = some file)
    (hdeny : isConversionAllowed (getFileCategory rt.toLowerCase file.name (some file.type))
      (outputFormatOf rt.toLowerCase form) = false) :
    (POST rt g clock form).response
        = .json 400 (.invalidConversion
            ("Invalid conversion: " ++ getFileCategory rt.toLowerCase file.name (some file.type)
              ++ " files cannot be converted to " ++ outputFormatOf rt.toLowerCase form)
            (suggestionFor (getFileCategory rt.toLowerCase file.name (some file.type)))) ∧
      (POST rt g clock form).trace = [] ∧
      (POST rt g clock form).globals.convertedFiles = g.convertedFiles := by
  obtain ⟨limit, hpost⟩ := POST_of_not_throttled rt g clock form hgate
  rw [hpost]
  unfold convert
  simp [hfile, hdeny]

/-- Witness of C6: `a.json` is classified as data, and the target `JPG` is rejected. -/
theorem POST_policy_rejection_witness :
    (getFileCategory asciiLower "a.json" (some "application/json") = "data" ∧
      outputFormatOf asciiLower jsonToJpg = "jpg") ∧
    ((POST sampleRuntime freshGlobals (Clock.tick 0) jsonToJpg).response
        = .json 400 (.invalidConversion
            ("Invalid conversion: "
              ++ getFileCategory asciiLower "a.json" (some "application/json")
              ++ " files cannot be converted to " ++ outputFormatOf asciiLower jsonToJpg)
            (suggestionFor (getFileCategory asciiLower "a.json" (some "application/json")))) ∧
      (POST sampleRuntime freshGlobals (Clock.tick 0) jsonToJpg).trace = [] ∧
      (POST sampleRuntime freshGlobals (Clock.tick 0) jsonToJpg).globals.convertedFiles
        = freshGlobals.convertedFiles) :=
  ⟨by decide,
    POST_policy_rejection sampleRuntime freshGlobals (Clock.tick 0) jsonToJpg
      ⟨"a.json", "application/json", [123, 125]⟩
      (by rintro ⟨limit, h, _⟩; cases h) rfl (by decide)⟩

/-- C7: the admission gate at request time `now`. An active state with `now < until` is
rejected with status 503 and `timeRemaining = ceil((until - now) / 60000)`, and nothing
changes; an active state with `now >= until` becomes inactive and the request goes on to the
conversion; with an inactive state the request goes on. -/
theorem POST_admission_gate (rt : Runtime) (g : Globals) (now : Int) (form : FormData) :
    (∀ limit, g.systemRateLimit = some limit → limit.isActive = true → now < limit.untilMs →
      POST rt g (Clock.tick now) form
        = ⟨.json 503 (.throttled "System temporarily unavailable"
            ("System is under maintenance. Please try again in "
              ++ toString ⌈((limit.untilMs - now : ℤ) : ℚ) / 60000⌉ ++ " minutes.")
            true ⌈((limit.untilMs - now : ℤ) : ℚ) / 60000⌉), g, []⟩) ∧
    (∀ limit, g.systemRateLimit = some limit → limit.isActive = true → limit.untilMs ≤ now →
      POST rt g (Clock.tick now) form
          = convert rt { g with systemRateLimit := none } (Clock.tick now) form ∧
        (POST rt g (Clock.tick now) form).globals.systemRateLimit = none ∧
        ∀ body, (POST rt g (Clock.tick now) form).response ≠ .json 503 body) ∧
    ((∀ limit, g.systemRateLimit = some limit → limit.isActive = false) →
      POST rt g (Clock.tick now) form = convert rt g (Clock.tick now) form ∧
        (POST rt g (Clock.tick now) form).globals.systemRateLimit = g.systemRateLimit ∧
        ∀ body, (POST rt g (Clock.tick now) form).response ≠ .json 503 body) := by
  refine ⟨?_, ?_, ?_⟩
  · intro limit hlimit hactive hnow
    simp only [← ceilDiv_eq_ceil]
    simp [POST, hlimit, hactive, Clock.tick, hnow]
  · intro limit hlimit hactive hnow
    have hpost : POST rt g (Clock.tick now) form
        = convert rt { g with systemRateLimit := none } (Clock.tick now) form := by
      simp [POST, hlimit, hactive, Clock.tick, not_lt.mpr hnow]
    rw [hpost]
    exact ⟨rfl, convert_rateLimit _ _ _ _, fun body => convert_ne_503 _ _ _ _ body⟩
  · intro hinactive
    have hpost : POST rt g (Clock.tick now) form = convert rt g (Clock.tick now) form := by
      unfold POST
      cases hlimit : g.systemRateLimit with
      | none => rfl
      | some limit => simp [hinactive limit hlimit]
    rw [hpost]
    exact ⟨rfl, convert_rateLimit _ _ _ _, fun body => convert_ne_503 _ _ _ _ body⟩

/-- Witness of C7: with the limit active until 1 000 000, a request at 100 000 is rejected
with 15 minutes remaining, a request at 1 000 000 clears the limit, and a request in the
fresh state goes on. -/
theorem POST_admission_gate_witness :
    ((100000 : Int) < 1000000 ∧ (⌈(((1000000 : ℤ) - 100000 : ℤ) : ℚ) / 60000⌉ = 15) ∧
      POST sampleRuntime limitedGlobals (Clock.tick 100000) notesToJson
        = ⟨.json 503 (.throttled "System temporarily unavailable"
            ("System is under maintenance. Please try again in "
              ++ toString ⌈(((1000000 : ℤ) - 100000 : ℤ) : ℚ) / 60000⌉ ++ " minutes.")
            true ⌈(((1000000 : ℤ) - 100000 : ℤ) : ℚ) / 60000⌉), limitedGlobals, []⟩) ∧
    ((1000000 : Int) ≤ 1000000 ∧
      (POST sampleRuntime limitedGlobals (Clock.tick 1000000) notesToJson).globals.systemRateLimit
        = none) ∧
    (POST sampleRuntime freshGlobals (Clock.tick 5) notesToJson).globals.systemRateLimit
      = freshGlobals.systemRateLimit :=
  ⟨⟨by decide, by rw [← ceilDiv_eq_ceil]; decide,
      (POST_admission_gate sampleRuntime limitedGlobals 100000 notesToJson).1
        ⟨true, 1000000, "High system load"⟩ rfl rfl (by decide)⟩,
    ⟨by decide,
      ((POST_admission_gate sampleRuntime limitedGlobals 1000000 notesToJson).2.1
        ⟨true, 1000000, "High system load"⟩ rfl rfl (by decide)).2.1⟩,
    ((POST_admission_gate sampleRuntime freshGlobals 5 notesToJson).2.2
      (by intro limit h; cases h)).2.1⟩

/-- C8: after a successful health probe at time `now`, `checkSystemHealth` makes the rate
limit active with `until = now + 60 minutes` for the status `critical`, `now + 30 minutes`
for `warning` and `now + 5 minutes` for `starting`, returning `rateLimited: true` with
`timeRemaining` 60, 30 and 5, and makes it inactive for the status `healthy`; the store is
not touched. -/
theorem checkSystemHealth_transitions (g : Globals) (now : Int) :
    checkSystemHealth g (.ok "critical") now
        = (⟨true, some 60, false⟩,
            ⟨some ⟨true, now + 60 * 60000, "System critical"⟩, g.convertedFiles⟩) ∧
    checkSystemHealth g (.ok "warning") now
        = (⟨true, some 30, false⟩,
            ⟨some ⟨true, now + 30 * 60000, "High system load"⟩, g.convertedFiles⟩) ∧
    checkSystemHealth g (.ok "starting") now
        = (⟨true, some 5, false⟩,
            ⟨some ⟨true, now + 5 * 60000, "System starting"⟩, g.convertedFiles⟩) ∧
    checkSystemHealth g (.ok "healthy") now
        = (⟨false, none, false⟩, ⟨none, g.convertedFiles⟩) := by
  refine ⟨?_, ?_, ?_, ?_⟩ <;>
    simp [checkSystemHealth]

/-! ## Artifact store: claims C9 and C10 -/

/-- C9: after a successful conversion stored its artifact at time `now`, the store holds no
record with `createdAt < now - 3 600 000`, and every record under another handle with
`createdAt >= now - 3 600 000` is still there, unchanged. Hence the artifact is retrievable
59 minutes later, also after another insertion at that time, and is gone after an insertion
under another handle 61 minutes later. -/
theorem POST_retention (rt : Runtime) (g : Globals) (now : Int) (form : FormData)
    (r : ConversionResult) (hwf : g.WellFormed)
    (hok : (POST rt g (Clock.tick now) form).response = .json 200 (.converted r)) :
    (∃ store, (POST rt g (Clock.tick now) form).globals.convertedFiles = some store ∧
      (∀ e ∈ store, now - 3600000 ≤ e.2.createdAt) ∧
      (∀ id record, id ≠ r.downloadId → (g.convertedFiles.getD []).get id = some record →
        now - 3600000 ≤ record.createdAt → store.get id = some record)) ∧
    (∃ body name length,
      (GET (POST rt g (Clock.tick now) form).globals (some r.downloadId) (now + 59 * 60000)).1
          = .file 200 body r.contentType name length ∧
        body.length = r.size) ∧
    (∀ (rt2 : Runtime) (form2 : FormData) (r2 : ConversionResult),
      (POST rt2 (POST rt g (Clock.tick now) form).globals (Clock.tick (now + 59 * 60000))
          form2).response = .json 200 (.converted r2) →
        ∃ body contentType name length,
          (GET (POST rt2 (POST rt g (Clock.tick now) form).globals
              (Clock.tick (now + 59 * 60000)) form2).globals
            (some r.downloadId) (now + 59 * 60000)).1
            = .file 200 body contentType name length) ∧
    (∀ (rt2 : Runtime) (form2 : FormData) (r2 : ConversionResult),
      (POST rt2 (POST rt g (Clock.tick now) form).globals (Clock.tick (now + 61 * 60000))
          form2).response = .json 200 (.converted r2) →
        r2.downloadId ≠ r.downloadId →
        ∀ t : Int,
          (GET (POST rt2 (POST rt g (Clock.tick now) form).globals
              (Clock.tick (now + 61 * 60000)) form2).globals
            (some r.downloadId) t).1
            = .json 404 "File not found or expired") := by
  obtain ⟨buffer, store, _, hsize, hid, hstore, hwfstore, hfresh, hget⟩ :=
    POST_converted_store rt g (Clock.tick now) form r hwf hok
  simp only [Clock.tick_createdAt, Clock.tick_sweep] at hfresh hget
  have hself : store.get r.downloadId = some ⟨buffer, r.contentType, r.fileName, now⟩ := by
    rw [hget, if_pos rfl, Option.some_bind,
      if_neg (by show ¬ now < now - 3600000; omega)]
  have hwf1 : (POST rt g (Clock.tick now) form).globals.WellFormed := by
    intro m hm
    rw [hstore] at hm
    cases hm
    exact hwfstore
  refine ⟨⟨store, hstore, hfresh, ?_⟩, ?_, ?_, ?_⟩
  · intro id record hne hold hage
    rw [hget, if_neg hne, hold, Option.some_bind, if_neg (by omega)]
  · obtain ⟨name, hname⟩ := GET_found _ store r.downloadId (now + 59 * 60000) _ hstore hid hself
    exact ⟨buffer, name, _, hname, hsize.symm⟩
  · intro rt2 form2 r2 hok2
    obtain ⟨buffer2, store2, _, _, _, hstore2, _, _, hget2⟩ :=
      POST_converted_store rt2 _ (Clock.tick (now + 59 * 60000)) form2 r2 hwf1 hok2
    simp only [Clock.tick_createdAt, Clock.tick_sweep, hstore, Option.getD_some] at hget2
    have hfound : ∃ record, store2.get r.downloadId = some record := by
      by_cases hsame : r.downloadId = r2.downloadId
      · exact ⟨_, by
          rw [hget2, if_pos hsame, Option.some_bind,
            if_neg (by show ¬ now + 59 * 60000 < now + 59 * 60000 - 3600000; omega)]⟩
      · exact ⟨_, by
          rw [hget2, if_neg hsame, hself, Option.some_bind,
            if_neg (by show ¬ now < now + 59 * 60000 - 3600000; omega)]⟩
    obtain ⟨record, hrecord⟩ := hfound
    obtain ⟨name, hname⟩ :=
      GET_found _ store2 r.downloadId (now + 59 * 60000) record hstore2 hid hrecord
    exact ⟨_, _, name, _, hname⟩
  · intro rt2 form2 r2 hok2 hother t
    obtain ⟨buffer2, store2, _, _, _, hstore2, _, _, hget2⟩ :=
      POST_converted_store rt2 _ (Clock.tick (now + 61 * 60000)) form2 r2 hwf1 hok2
    simp only [Clock.tick_createdAt, Clock.tick_sweep, hstore, Option.getD_some] at hget2
    apply GET_missing
    rw [hstore2, Option.getD_some, hget2, if_neg (fun h => hother h.symm), hself,
      Option.some_bind, if_pos (by show now < now + 61 * 60000 - 3600000; omega)]

/-- Witness of C9: `notes.json` is stored at time 0; it can be fetched 59 minutes later, also
after `photo.webp` was stored at that time, and it is gone once `photo.webp` is stored 61
minutes after it. -/
theorem POST_retention_witness :
    (freshGlobals.WellFormed ∧
      (POST sampleRuntime freshGlobals (Clock.tick 0) notesToJson).response
        = .json 200 (.converted notesResult)) ∧
    (∃ body name length,
      (GET afterNotes (some notesResult.downloadId) (0 + 59 * 60000)).1
          = .file 200 body notesResult.contentType name length ∧
        body.length = notesResult.size) ∧
    (∃ body contentType name length,
      (GET (POST sampleRuntime afterNotes (Clock.tick (0 + 59 * 60000)) photoToWebp).globals
        (some notesResult.downloadId) (0 + 59 * 60000)).1
        = .file 200 body contentType name length) ∧
    (GET (POST sampleRuntime afterNotes (Clock.tick (0 + 61 * 60000)) photoToWebp).globals
      (some notesResult.downloadId) (0 + 61 * 60000)).1
      = .json 404 "File not found or expired" :=
  ⟨⟨(by intro m h; cases h), by decide⟩,
    (POST_retention sampleRuntime freshGlobals 0 notesToJson notesResult
      (by intro m h; cases h) (by decide)).2.1,
    (POST_retention sampleRuntime freshGlobals 0 notesToJson notesResult
      (by intro m h; cases h) (by decide)).2.2.1 sampleRuntime photoToWebp photoResult
      (by decide),
    (POST_retention sampleRuntime freshGlobals 0 notesToJson notesResult
      (by intro m h; cases h) (by decide)).2.2.2 sampleRuntime photoToWebp photoResult
      (by decide) (by decide) (0 + 61 * 60000)⟩

/-- C10: after a successful conversion with display name `n`, output bytes `b` and media
type `m` at time `now`, the returned handle leads to the record
`{buffer b, contentType m, fileName n, createdAt now}`, through the map and through `GET`;
the store holds exactly one record under that handle, so a record stored earlier under the
same handle has been replaced. -/
theorem POST_store_put (rt : Runtime) (g : Globals) (now : Int) (form : FormData)
    (r : ConversionResult) (hwf : g.WellFormed)
    (hok : (POST rt g (Clock.tick now) form).response = .json 200 (.converted r)) :
    ∃ b store,
      rt.runBranch (outputFormatOf rt.toLowerCase form) form = .ok b ∧
      (POST rt g (Clock.tick now) form).globals.convertedFiles = some store ∧
      store.get r.downloadId = some ⟨b, r.contentType, r.fileName, now⟩ ∧
      (store.map Prod.fst).count r.downloadId = 1 ∧
      (∀ record, (r.downloadId, record) ∈ store →
        record = ⟨b, r.contentType, r.fileName, now⟩) ∧
      ∀ t : Int, ∃ name,
        (GET (POST rt g (Clock.tick now) form).globals (some r.downloadId) t).1
          = .file 200 b r.contentType name (toString b.length) := by
  obtain ⟨buffer, store, hrun, _, hid, hstore, hwfstore, _, hget⟩ :=
    POST_converted_store rt g (Clock.tick now) form r hwf hok
  simp only [Clock.tick_createdAt, Clock.tick_sweep] at hget
  have hself : store.get r.downloadId = some ⟨buffer, r.contentType, r.fileName, now⟩ := by
    rw [hget, if_pos rfl, Option.some_bind,
      if_neg (by show ¬ now < now - 3600000; omega)]
  have hmem : (r.downloadId, (⟨buffer, r.contentType, r.fileName, now⟩ : ArtifactRecord))
      ∈ store := (ArtifactMap.mem_iff_get store hwfstore _ _).mpr hself
  refine ⟨buffer, store, hrun, hstore, hself, ?_, ?_, ?_⟩
  · exact List.count_eq_one_of_mem hwfstore (List.mem_map_of_mem Prod.fst hmem)
  · intro record hrecord
    have h := (ArtifactMap.mem_iff_get store hwfstore _ _).mp hrecord
    rw [hself] at h
    exact (Option.some.inj h).symm
  · intro t
    exact GET_found _ store r.downloadId t _ hstore hid hself

/-- Witness of C10: `notes.json` is converted a second time, at time 1000, in the state that
already holds it from time 0; the handle then leads to the new record only. -/
theorem POST_store_put_witness :
    (afterNotes.WellFormed ∧
      (POST sampleRuntime afterNotes (Clock.tick 1000) notesToJson).response
        = .json 200 (.converted notesResult)) ∧
    afterNotes.convertedFiles
      = some [(notesResult.downloadId, ⟨[104, 105], "application/json", "notes.json", 0⟩)] ∧
    ∃ b store,
      sampleRuntime.runBranch (outputFormatOf sampleRuntime.toLowerCase notesToJson) notesToJson
        = .ok b ∧
      (POST sampleRuntime afterNotes (Clock.tick 1000) notesToJson).globals.convertedFiles
        = some store ∧
      store.get notesResult.downloadId
        = some ⟨b, notesResult.contentType, notesResult.fileName, 1000⟩ ∧
      (store.map Prod.fst).count notesResult.downloadId = 1 ∧
      (∀ record, (notesResult.downloadId, record) ∈ store →
        record = ⟨b, notesResult.contentType, notesResult.fileName, 1000⟩) ∧
      ∀ t : Int, ∃ name,
        (GET (POST sampleRuntime afterNotes (Clock.tick 1000) notesToJson).globals
          (some notesResult.downloadId) t).1
          = .file 200 b notesResult.contentType name (toString b.length) :=
  ⟨⟨by
      intro m h
      have h0 : afterNotes.convertedFiles
          = some [(notesResult.downloadId, ⟨[104, 105], "application/json", "notes.json", 0⟩)] := by
        decide
      rw [h0] at h
      cases h
      exact List.nodup_singleton _,
    by decide⟩,
    by decide,
    POST_store_put sampleRuntime afterNotes 1000 notesToJson notesResult
      (by
        intro m h
        have h0 : afterNotes.convertedFiles
            = some [(notesResult.downloadId,
                ⟨[104, 105], "application/json", "notes.json", 0⟩)] := by
          decide
        rw [h0] at h
        cases h
        exact List.nodup_singleton _)
      (by decide)⟩

/-! ## Retrieval, atomicity and dispatch: claims C11, C12, C14 and C15 -/

/-- C11: the retrieval operation `GET` leaves the process-wide state, and so the store,
unchanged (no record is deleted, no `createdAt` is refreshed); when a retrieval succeeds, a
second retrieval of the same handle right after it succeeds too and returns the same payload,
media type and content length. -/
theorem GET_reads_only (g : Globals) (id : Option String) (now : Int) :
    (GET g id now).2 = g ∧
    ∀ (later : Int) (body : List Nat) (contentType name length : String),
      (GET g id now).1 = .file 200 body contentType name length →
      ∃ name' : String,
        (GET (GET g id now).2 id later).1 = .file 200 body contentType name' length := by
  have hsame : ∀ t, (GET g id t).2 = g := by
    intro t
    unfold GET
    split
    · rfl
    · split
      · rfl
      · split <;> rfl
  refine ⟨hsame now, ?_⟩
  intro later body contentType name length h
  rw [hsame now]
  unfold GET at h ⊢
  cases id with
  | none => simp at h
  | some downloadId =>
    simp only at h ⊢
    split at h
    · simp at h
    · rename_i hcond
      simp only [hcond, if_false]
      split at h
      · simp at h
      · rename_i file hfile
        simp only [Download.file.injEq, true_and] at h
        obtain ⟨hb, hc, _, hl⟩ := h
        subst hb hc hl
        exact ⟨_, rfl⟩

/-- Witness of C11: `notes.json` is fetched at time 1 and again at time 2. -/
theorem GET_reads_only_witness :
    (GET afterNotes (some notesResult.downloadId) 1).1
        = .file 200 [104, 105] "application/json" "converted_file_1.json" "2" ∧
      ∃ name' : String,
        (GET (GET afterNotes (some notesResult.downloadId) 1).2
            (some notesResult.downloadId) 2).1
          = .file 200 [104, 105] "application/json" name' "2" :=
  ⟨by decide,
    (GET_reads_only afterNotes (some notesResult.downloadId) 1).2 2 [104, 105]
      "application/json" "converted_file_1.json" "2" (by decide)⟩

/-- C12: atomicity. A conversion request that does not end in the success response (it is
throttled, has no file, is rejected by the policy, asks for an unsupported format, or a
conversion step raises an exception) leaves the artifact store as it was. -/
theorem POST_failure_keeps_store (rt : Runtime) (g : Globals) (clock : Clock) (form : FormData)
    (hfail : ∀ r, (POST rt g clock form).response ≠ .json 200 (.converted r)) :
    (POST rt g clock form).globals.convertedFiles = g.convertedFiles := by
  by_cases hthr : Throttled g clock
  · obtain ⟨limit, hlimit, hactive, hnow⟩ := hthr
    rw [POST_throttled rt g clock form limit hlimit hactive hnow]
  · obtain ⟨limit, hpost⟩ := POST_of_not_throttled rt g clock form hthr
    rw [hpost] at hfail ⊢
    rcases convert_store rt { g with systemRateLimit := limit } clock form with ⟨r, hr⟩ | h
    · exact absurd hr (hfail r)
    · exact h

/-- Witness of C12: the rejected request `a.json` to `JPG` leaves the store that holds
`notes.json` as it was. -/
theorem POST_failure_keeps_store_witness :
    (POST sampleRuntime afterNotes (Clock.tick 5) jsonToJpg).response.isConverted = false ∧
      (POST sampleRuntime afterNotes (Clock.tick 5) jsonToJpg).globals.convertedFiles
        = afterNotes.convertedFiles :=
  ⟨by decide,
    POST_failure_keeps_store sampleRuntime afterNotes (Clock.tick 5) jsonToJpg
      (Response.ne_converted_of_isConverted _ (by decide))⟩

/-- C14: after a `warning` probe at time `t0` the rate limit lasts until `t0 + 30 minutes`;
three consecutive requests at times `t0 <= t1 <= t2 <= t3 < until` are all rejected with
status 503, their `timeRemaining` values `ceil((until - t) / 60000)` do not increase with the
request time and lie between 1 and 30, and no request changes the rate-limit state or the
store or runs a codec step. -/
theorem POST_warning_window (rt1 rt2 rt3 : Runtime) (g g0 : Globals) (t0 t1 t2 t3 : Int)
    (f1 f2 f3 : FormData) (o1 o2 o3 : Outcome)
    (hg0 : g0 = (checkSystemHealth g (.ok "warning") t0).2)
    (ho1 : o1 = POST rt1 g0 (Clock.tick t1) f1)
    (ho2 : o2 = POST rt2 o1.globals (Clock.tick t2) f2)
    (ho3 : o3 = POST rt3 o2.globals (Clock.tick t3) f3)
    (h01 : t0 ≤ t1) (h12 : t1 ≤ t2) (h23 : t2 ≤ t3) (h3 : t3 < t0 + 30 * 60000) :
    g0.systemRateLimit = some ⟨true, t0 + 30 * 60000, "High system load"⟩ ∧
    ∃ r1 r2 r3 : Int,
      o1.response = .json 503 (throttledBody r1) ∧
      o2.response = .json 503 (throttledBody r2) ∧
      o3.response = .json 503 (throttledBody r3) ∧
      r1 = ⌈((t0 + 30 * 60000 - t1 : ℤ) : ℚ) / 60000⌉ ∧
      r2 = ⌈((t0 + 30 * 60000 - t2 : ℤ) : ℚ) / 60000⌉ ∧
      r3 = ⌈((t0 + 30 * 60000 - t3 : ℤ) : ℚ) / 60000⌉ ∧
      1 ≤ r3 ∧ r3 ≤ r2 ∧ r2 ≤ r1 ∧ r1 ≤ 30 ∧
      o1.globals = g0 ∧ o2.globals = g0 ∧ o3.globals = g0 ∧
      o1.trace = [] ∧ o2.trace = [] ∧ o3.trace = [] ∧
      g0.convertedFiles = g.convertedFiles := by
  have hlimit : g0.systemRateLimit = some ⟨true, t0 + 30 * 60000, "High system load"⟩ := by
    rw [hg0]
    simp [checkSystemHealth]
  have hstore : g0.convertedFiles = g.convertedFiles := by
    rw [hg0]
    simp [checkSystemHealth]
  have h1 : o1
      = ⟨.json 503 (throttledBody (ceilDiv (t0 + 30 * 60000 - t1) 60000)), g0, []⟩ := by
    rw [ho1]
    exact POST_throttled_body rt1 g0 t1 f1 _ _ hlimit (by omega)
  have h2 : o2
      = ⟨.json 503 (throttledBody (ceilDiv (t0 + 30 * 60000 - t2) 60000)), g0, []⟩ := by
    have hg1 : o1.globals = g0 := by rw [h1]
    rw [ho2, hg1]
    exact POST_throttled_body rt2 g0 t2 f2 _ _ hlimit (by omega)
  have h3' : o3
      = ⟨.json 503 (throttledBody (ceilDiv (t0 + 30 * 60000 - t3) 60000)), g0, []⟩ := by
    have hg2 : o2.globals = g0 := by rw [h2]
    rw [ho3, hg2]
    exact POST_throttled_body rt3 g0 t3 f3 _ _ hlimit h3
  have hb1 := ceilDiv_bounds (t0 + 30 * 60000 - t1) (t0 + 30 * 60000 - t2) (by omega)
    (by omega) (by omega)
  have hb2 := ceilDiv_bounds (t0 + 30 * 60000 - t2) (t0 + 30 * 60000 - t3) (by omega)
    (by omega) (by omega)
  refine ⟨hlimit, _, _, _, by rw [h1], by rw [h2], by rw [h3'],
    ceilDiv_eq_ceil _, ceilDiv_eq_ceil _, ceilDiv_eq_ceil _, hb2.1, hb2.2.1, hb1.2.1, hb1.2.2,
    by rw [h1], by rw [h2], by rw [h3'], by rw [h1], by rw [h2], by rw [h3'], hstore⟩

/-- Witness of C14: a warning at time 0, then requests at 0, 600 000 and 1 799 999. -/
theorem POST_warning_window_witness :
    ((0 : Int) ≤ 0 ∧ (0 : Int) ≤ 600000 ∧ (600000 : Int) ≤ 1799999 ∧
      (1799999 : Int) < 0 + 30 * 60000) ∧
    ∃ r1 r2 r3 : Int,
      (POST sampleRuntime (checkSystemHealth freshGlobals (.ok "warning") 0).2 (Clock.tick 0)
        notesToJson).response = .json 503 (throttledBody r1) ∧
      (POST sampleRuntime
        (POST sampleRuntime (checkSystemHealth freshGlobals (.ok "warning") 0).2 (Clock.tick 0)
          notesToJson).globals (Clock.tick 600000) photoToWebp).response
        = .json 503 (throttledBody r2) ∧
      (POST sampleRuntime
        (POST sampleRuntime
          (POST sampleRuntime (checkSystemHealth freshGlobals (.ok "warning") 0).2 (Clock.tick 0)
            notesToJson).globals (Clock.tick 600000) photoToWebp).globals
        (Clock.tick 1799999) jsonToJpg).response = .json 503 (throttledBody r3) ∧
      1 ≤ r3 ∧ r3 ≤ r2 ∧ r2 ≤ r1 ∧ r1 ≤ 30 :=
  ⟨by decide,
    match (POST_warning_window sampleRuntime sampleRuntime sampleRuntime freshGlobals _ 0 0
      600000 1799999 notesToJson photoToWebp jsonToJpg _ _ _ rfl rfl rfl rfl
      (by decide) (by decide) (by decide) (by decide)).2 with
    | ⟨r1, r2, r3, h1, h2, h3, _, _, _, hb1, hb2, hb3, hb4, _⟩ =>
      ⟨r1, r2, r3, h1, h2, h3, hb1, hb2, hb3, hb4⟩⟩

/-- C15: a request that passes the admission gate and the policy and whose lower-cased target
token is not one of `png, jpg, jpeg, webp, gif, bmp, tiff, ico, pdf, html, txt, md, json, xml,
yaml, yml, csv, xlsx, excel, svg` gets status 400 with the error
`Unsupported output format: <token>` and the image, document, spreadsheet and data format
lists; for a token of that set the `switch` has a branch, and exactly that one branch runs. -/
theorem POST_dispatch_total (rt : Runtime) (g : Globals) (clock : Clock) (form : FormData)
    (file : UploadedFile) (hgate : ¬ Throttled g clock) (hfile : form.file = some file)
    (hallow : isConversionAllowed (getFileCategory rt.toLowerCase file.name (some file.type))
      (outputFormatOf rt.toLowerCase form) = true) :
    (outputFormatOf rt.toLowerCase form ∉ supportedTokens →
      (POST rt g clock form).response
        = .json 400 (.unsupportedFormat
            ("Unsupported output format: " ++ outputFormatOf rt.toLowerCase form)
            ["jpg", "jpeg", "png", "webp", "gif", "bmp", "tiff", "svg", "ico"]
            ["pdf", "docx", "doc", "odt", "rtf", "txt", "html", "md", "tex"]
            ["xlsx", "xls", "csv", "ods", "tsv"]
            ["json", "xml", "yaml", "yml", "csv", "tsv"])) ∧
    (outputFormatOf rt.toLowerCase form ∈ supportedTokens →
      (dispatch (outputFormatOf rt.toLowerCase form)).isSome = true ∧
      (POST rt g clock form).trace.filter Effect.isBranch
        = [.branch (outputFormatOf rt.toLowerCase form)]) := by
  obtain ⟨limit, hpost⟩ := POST_of_not_throttled rt g clock form hgate
  rw [hpost]
  constructor
  · intro hnot
    have hnone : dispatch (outputFormatOf rt.toLowerCase form) = none := by
      cases hd : dispatch (outputFormatOf rt.toLowerCase form) with
      | none => rfl
      | some p =>
        exact absurd ((dispatch_isSome_iff _).mp (by simp [hd])) hnot
    simp [convert, hfile, hallow, hnone, FORMAT_CATEGORIES, List.lookup]
  · intro hmem
    have hsome := (dispatch_isSome_iff _).mpr hmem
    refine ⟨hsome, ?_⟩
    obtain ⟨p, hp⟩ := Option.isSome_iff_exists.mp hsome
    obtain ⟨contentType, fileExtension⟩ := p
    unfold convert
    simp only [hfile, hallow, hp]
    cases rt.runBranch (outputFormatOf rt.toLowerCase form) form <;>
      by_cases hmeta : form.includeMetadata = some "true" <;>
      simp [hmeta, Effect.isBranch]

/-- Witness of C15: `zip` is not a supported target (for an archive, which the policy lets
through), and the target `json` runs the one branch `json`. -/
theorem POST_dispatch_total_witness :
    (outputFormatOf sampleRuntime.toLowerCase zipToZip ∉ supportedTokens ∧
      (POST sampleRuntime freshGlobals (Clock.tick 0) zipToZip).response
        = .json 400 (.unsupportedFormat
            ("Unsupported output format: " ++ outputFormatOf sampleRuntime.toLowerCase zipToZip)
            ["jpg", "jpeg", "png", "webp", "gif", "bmp", "tiff", "svg", "ico"]
            ["pdf", "docx", "doc", "odt", "rtf", "txt", "html", "md", "tex"]
            ["xlsx", "xls", "csv", "ods", "tsv"]
            ["json", "xml", "yaml", "yml", "csv", "tsv"])) ∧
    (outputFormatOf sampleRuntime.toLowerCase notesToJson ∈ supportedTokens ∧
      (POST sampleRuntime freshGlobals (Clock.tick 0) notesToJson).trace.filter Effect.isBranch
        = [.branch (outputFormatOf sampleRuntime.toLowerCase notesToJson)]) :=
  ⟨⟨by decide,
      (POST_dispatch_total sampleRuntime freshGlobals (Clock.tick 0) zipToZip
        ⟨"bundle.zip", "application/zip", [80, 75]⟩ (by rintro ⟨limit, h, _⟩; cases h) rfl
        (by decide)).1 (by decide)⟩,
    ⟨by decide,
      ((POST_dispatch_total sampleRuntime freshGlobals (Clock.tick 0) notesToJson
        ⟨"notes.txt", "text/plain", [104, 105]⟩ (by rintro ⟨limit, h, _⟩; cases h) rfl
        (by decide)).2 (by decide)).2⟩⟩

/-! ## Retrieval handle: claim C13 -/

/-- C13: the retrieval handle of a successful conversion is the Base64 encoding of the UTF-8
bytes of the display name `<base name>.<extension>`; decoding the handle gives the display
name back, so two conversions have the same handle exactly when their display names are
equal; and the handle does not depend on the output bytes (nor on the state or the time):
the same request gives the same handle whatever the codecs return. -/
theorem downloadId_is_base64_of_displayName :
    (∀ (rt : Runtime) (g : Globals) (clock : Clock) (form : FormData) (r : ConversionResult),
      (POST rt g clock form).response = .json 200 (.converted r) →
        r.downloadId = toBase64 (bufferFrom r.fileName) ∧
        decodeHandle r.downloadId = r.fileName ∧
        ∃ file contentType fileExtension,
          form.file = some file ∧
          dispatch (outputFormatOf rt.toLowerCase form) = some (contentType, fileExtension) ∧
          r.fileName = stripExtension file.name ++ "." ++ fileExtension) ∧
    (∀ name : String, decodeHandle (toBase64 (bufferFrom name)) = name) ∧
    (∀ (rt1 rt2 : Runtime) (g1 g2 : Globals) (clock1 clock2 : Clock) (form1 form2 : FormData)
        (r1 r2 : ConversionResult),
      (POST rt1 g1 clock1 form1).response = .json 200 (.converted r1) →
      (POST rt2 g2 clock2 form2).response = .json 200 (.converted r2) →
        (r1.downloadId = r2.downloadId ↔ r1.fileName = r2.fileName)) ∧
    (∀ (rt1 rt2 : Runtime) (g1 g2 : Globals) (clock1 clock2 : Clock) (form : FormData)
        (r1 r2 : ConversionResult),
      rt1.toLowerCase = rt2.toLowerCase →
      (POST rt1 g1 clock1 form).response = .json 200 (.converted r1) →
      (POST rt2 g2 clock2 form).response = .json 200 (.converted r2) →
        r1.downloadId = r2.downloadId) := by
  refine ⟨?_, decodeHandle_toBase64, ?_, ?_⟩
  · intro rt g clock form r hok
    obtain ⟨file, contentType, fileExtension, hfile, hdisp, hname, _, hid⟩ :=
      POST_converted_inv rt g clock form r hok
    exact ⟨hid, by rw [hid, decodeHandle_toBase64], file, contentType, fileExtension, hfile,
      hdisp, hname⟩
  · intro rt1 rt2 g1 g2 clock1 clock2 form1 form2 r1 r2 hok1 hok2
    obtain ⟨_, _, _, _, _, _, _, hid1⟩ := POST_converted_inv rt1 g1 clock1 form1 r1 hok1
    obtain ⟨_, _, _, _, _, _, _, hid2⟩ := POST_converted_inv rt2 g2 clock2 form2 r2 hok2
    rw [hid1, hid2]
    exact ⟨toBase64_bufferFrom_injective _ _, fun h => by rw [h]⟩
  · intro rt1 rt2 g1 g2 clock1 clock2 form r1 r2 hlower hok1 hok2
    obtain ⟨file1, ct1, ext1, hfile1, hdisp1, hname1, _, hid1⟩ :=
      POST_converted_inv rt1 g1 clock1 form r1 hok1
    obtain ⟨file2, ct2, ext2, hfile2, hdisp2, hname2, _, hid2⟩ :=
      POST_converted_inv rt2 g2 clock2 form r2 hok2
    rw [hfile1] at hfile2
    cases hfile2
    rw [hlower, hdisp2] at hdisp1
    cases hdisp1
    rw [hid1, hid2, hname1, hname2]

/-- Witness of C13: the handle of `notes.json` decodes to `notes.json`, differs from the
handle of `photo.webp`, and is the same when the codec returns other bytes. -/
theorem downloadId_is_base64_of_displayName_witness :
    decodeHandle notesResult.downloadId = notesResult.fileName ∧
    (notesResult.downloadId = photoResult.downloadId
      ↔ notesResult.fileName = photoResult.fileName) ∧
    notesResult.downloadId = ({ notesResult with size := 1 } : ConversionResult).downloadId :=
  ⟨(downloadId_is_base64_of_displayName.1 sampleRuntime freshGlobals (Clock.tick 0)
      notesToJson notesResult (by decide)).2.1,
    downloadId_is_base64_of_displayName.2.2.1 sampleRuntime sampleRuntime freshGlobals
      afterNotes (Clock.tick 0) (Clock.tick 7) notesToJson photoToWebp notesResult photoResult
      (by decide) (by decide),
    downloadId_is_base64_of_displayName.2.2.2 sampleRuntime
      ⟨asciiLower, fun _ _ => .ok [7]⟩ freshGlobals afterNotes (Clock.tick 0) (Clock.tick 7)
      notesToJson notesResult { notesResult with size := 1 } rfl (by decide) (by decide)⟩

/-! ## Text summary: claims C16 and C17 -/

/-- C16 (the code departs from it): `wordCount` is the number of pieces of
`text.split(/\s+/)`, that is the number of white-space-delimited tokens, plus one when the
text is empty or starts with white space, plus one when it ends with white space. So
`hello world` followed by a newline has 2 tokens and `wordCount` 3, and the empty text has
`wordCount` 1; a text such as `hello world`, without white space at its ends, has
`wordCount` equal to its token count. -/
theorem wordCount_counts_edge_pieces :
    (∀ text : String,
      (textSummary text).wordCount
        = tokenCount text + (if startsWithToken text.data then 0 else 1)
          + (if endsWithWhiteSpace text.data false then 1 else 0)) ∧
    (textSummary "hello world\n").wordCount = 3 ∧ tokenCount "hello world\n" = 2 ∧
    (textSummary "").wordCount = 1 ∧ tokenCount "" = 0 ∧
    (textSummary "hello world").wordCount = 2 ∧ tokenCount "hello world" = 2 := by
  refine ⟨?_, by decide, by decide, by decide, by decide, by decide, by decide⟩
  intro text
  have h := (splitWhiteSpaceAux_length text.data).1
  have hcount : (textSummary text).wordCount = (splitWhiteSpaceAux text.data false).length := by
    simp [textSummary, splitWhiteSpace]
  have htok : countTokens text.data false
      = countTokens text.data true + (if startsWithToken text.data then 1 else 0) := by
    cases text.data with
    | nil => rfl
    | cons c cs =>
      by_cases hws : isWhiteSpace c = true
      · simp [countTokens, startsWithToken, hws]
      · simp only [Bool.not_eq_true] at hws
        simp [countTokens, startsWithToken, hws]
        omega
  rw [hcount, h]
  unfold tokenCount
  rw [htok]
  split_ifs <;> omega

/-- C17, as stated, fails: for the text `é`, whose UTF-8 payload has two bytes,
`characterCount` is 1. -/
theorem characterCount_stated_bytes_fails :
    ¬ ∀ text : String,
        (textSummary (bufferToString (bufferFrom text))).characterCount
          = (bufferFrom text).length := by
  intro h
  have h1 := h "é"
  revert h1
  decide

/-- C17, amended: for a plain-text source whose payload is the UTF-8 encoding of `text`, the
decoded content is `text` and `characterCount` is its number of UTF-16 code units (one per
character below U+10000, two above); it is at most the byte length of the payload, and equal
to it exactly when every character of the text is ASCII. -/
theorem characterCount_utf16_units (text : String) :
    bufferToString (bufferFrom text) = text ∧
    (textSummary (bufferToString (bufferFrom text))).characterCount
      = (text.data.map (fun c => if c.toNat < 65536 then 1 else 2)).sum ∧
    (textSummary (bufferToString (bufferFrom text))).characterCount
      ≤ (bufferFrom text).length ∧
    ((textSummary (bufferToString (bufferFrom text))).characterCount = (bufferFrom text).length
      ↔ ∀ c ∈ text.data, c.toNat < 128) := by
  have hdecode : bufferToString (bufferFrom text) = text := by
    unfold bufferToString bufferFrom
    rw [utf8Decode_flatMap]
  rw [hdecode]
  have h := jsLength_le_bytes text.data
  exact ⟨rfl, rfl, h.1, h.2⟩

/-- Witness of C17 (amended): the ASCII text `hi` has `characterCount` 2, the length of its
payload. -/
theorem characterCount_utf16_units_witness :
    (∀ c ∈ "hi".data, c.toNat < 128) ∧
      (textSummary (bufferToString (bufferFrom "hi"))).characterCount
        = (bufferFrom "hi").length :=
  ⟨by decide, (characterCount_utf16_units "hi").2.2.2.mpr (by decide)⟩

/-! ## CSV and data branches: claims C18 to C20 -/

/-- C18, as stated, fails: the fields of every data row are taken from the keys of the first
object, `Object.keys(data[0])`. Take the array of two objects, the first with the key `a` and
the value `1`, the second with the key `b` and a string value made of `x`, a comma, a double
quote and `y`. The output has three lines, `a`, `"1"` and `""`: the string value of the
second data row is not written as a quoted field, it is not written at all, and the reader
gets the empty field back. -/
theorem csvOfObjects_other_key_not_written :
    csvOfObjects [("a", .string "1")] [[("b", .string "x,\"y")]] = "a\n\"1\"\n\"\"\n" ∧
    includes (csvOfObjects [("a", .string "1")] [[("b", .string "x,\"y")]])
      ("\"" ++ doubleQuotes "x,\"y" ++ "\"") = false ∧
    readCsv (csvOfObjects [("a", .string "1")] [[("b", .string "x,\"y")]])
      = [["a"], ["1"], [""]] := by
  refine ⟨by decide, by decide, by decide⟩

/-- C18, amended: for a non-empty array of objects whose first object has at least one key,
the output is the header line followed by one line per element; the line of a row has one
field per key of the first object, each a double quote, then the text of the value of the row
under that key with every double quote doubled, then a double quote, the fields joined by
commas and followed by a line feed. A reader of RFC 4180 text gets from these lines, row by
row and key by key, exactly the texts back, and the text of a string value `v` is `v`
itself, also when it holds double quotes, commas or line breaks. A value under a key that
the first object does not have is not written. -/
theorem csvOfObjects_rows_read_back (first : List (String × Json))
    (rest : List (List (String × Json))) (hfirst : first ≠ []) :
    csvOfObjects first rest
        = ",".intercalate (first.map Prod.fst) ++ "\n"
          ++ String.join ((first :: rest).map (csvLine (first.map Prod.fst))) ∧
    (∀ row : List (String × Json),
      csvLine (first.map Prod.fst) row
        = ",".intercalate ((first.map Prod.fst).map
            (fun header => "\"" ++ doubleQuotes (cellText (row.lookup header)) ++ "\""))
          ++ "\n") ∧
    readCsv (String.join ((first :: rest).map (csvLine (first.map Prod.fst))))
      = (first :: rest).map
          (fun row => (first.map Prod.fst).map (fun header => cellText (row.lookup header))) ∧
    ∀ v : String, cellText (some (.string v)) = v := by
  refine ⟨rfl, ?_, ?_, ?_⟩
  · intro row
    unfold csvLine
    simp only [csvCell_eq]
  · cases first with
    | nil => exact absurd rfl hfirst
    | cons member members =>
      unfold readCsv
      rw [join_data, List.flatMap_map]
      exact readCsvAux_rows member.1 (members.map Prod.fst) ((member :: members) :: rest)
  · intro v
    unfold cellText
    by_cases hv : v = ""
    · subst hv
      simp [Json.truthy, Json.toJsString]
    · simp [Json.truthy, Json.toJsString, hv]

/-- Witness of C18 (amended): a row holds, under the key `name` of the first object, a string
with a comma and a double quote; its field is that string with the quote doubled, between
double quotes, and the two data lines read back as the texts of the rows. -/
theorem csvOfObjects_rows_read_back_witness :
    [("name", Json.string "say \"hi\", ok"), ("n", Json.number 3)] ≠ [] ∧
    csvLine ["name", "n"] [("n", .number 0), ("name", .string "x,\"y")]
      = "\"x,\"\"y\",\"\"\n" ∧
    readCsv (String.join
        ([[("name", Json.string "say \"hi\", ok"), ("n", Json.number 3)],
          [("n", .number 0), ("name", .string "x,\"y")]].map (csvLine ["name", "n"])))
      = [["say \"hi\", ok", "3"], ["x,\"y", ""]] :=
  ⟨List.cons_ne_nil _ _,
    ((csvOfObjects_rows_read_back
      [("name", Json.string "say \"hi\", ok"), ("n", Json.number 3)]
      [[("n", .number 0), ("name", .string "x,\"y")]] (List.cons_ne_nil _ _)).2.1
        [("n", .number 0), ("name", .string "x,\"y")]).trans (by decide),
    (csvOfObjects_rows_read_back
      [("name", Json.string "say \"hi\", ok"), ("n", Json.number 3)]
      [[("n", .number 0), ("name", .string "x,\"y")]] (List.cons_ne_nil _ _)).2.2.1.trans
        (by decide)⟩

/-- C19 (the code departs from it): the header line is `headers.join(',')`, without the
quoting that the data rows get. For the array `[{"a,b": "x"}]` the output is `a,b`, a line
feed, `"x"`, a line feed: an RFC 4180 reader sees a header record of two fields, `a` and `b`,
where the first object has the one key `a,b`, and a data record of one field. With
keys free of commas, quotes and line breaks the records come out as the claim says. -/
theorem csvOfObjects_header_not_quoted :
    csvOfObjects [("a,b", .string "x")] [] = "a,b\n\"x\"\n" ∧
    readCsv (csvOfObjects [("a,b", .string "x")] []) = [["a", "b"], ["x"]] ∧
    readCsv (csvOfObjects [("name", .string "say \"hi\", ok"), ("n", .number 3)]
        [[("n", .number 0), ("name", .string "line\nbreak")]])
      = [["name", "n"], ["say \"hi\", ok", "3"], ["line\nbreak", ""]] := by
  refine ⟨by decide, by decide, by decide⟩

/-- C20, as stated, fails: the JSON text of `{a: 1}` becomes the YAML text of
`{metadata: null, data: {a: 1}}`; the `.yaml` file is of category data, and its conversion to
json gives an object with the keys `metadata`, `content` and `note`, whose `content` is the
YAML text: there is no `originalData`. -/
theorem yaml_json_roundtrip_fails :
    sampleCodec.jsonParse "\x7b\"a\":1\x7d" = some (.object [("a", .number 1)]) ∧
    getFileCategory asciiLower "x.yaml" (some "application/x-yaml") = "data" ∧
    (jsonOfFile sampleCodec .null "data" "x" "application/x-yaml"
        (yamlOfData sampleCodec .null "x" "application/json" "\x7b\"a\":1\x7d")
        "2026-01-01T00:00:00.000Z" 27).map Json.keys = some ["metadata", "content", "note"] ∧
    (jsonOfFile sampleCodec .null "data" "x" "application/x-yaml"
        (yamlOfData sampleCodec .null "x" "application/json" "\x7b\"a\":1\x7d")
        "2026-01-01T00:00:00.000Z" 27).bind (Json.stringMember "content")
      = some "metadata: null\ndata:\n  a: 1\n" := by
  refine ⟨rfl, by decide, by decide, by decide⟩

/-- C20, amended: for a data source whose text parses to `d`, the `yaml` branch writes the
YAML text of `{metadata, data: d}`; the `json` branch does not read YAML back: it only calls
`JSON.parse`, which rejects that text, so for a `.yaml` file whose declared type does not
contain `text` the payload is `{metadata, content: <the YAML text>, note: "Could not parse
original data as JSON"}`, and in no case has the payload a field `originalData`. -/
theorem yaml_text_is_not_parsed_back (codec : DataCodec) (hcodec : codec.Conforms)
    (metadata1 metadata2 d : Json)
    (fileName1 fileType1 text1 fileName2 fileType2 convertedAt : String) (size : Nat)
    (hparse : codec.jsonParse text1 = some d) :
    yamlOfData codec metadata1 fileName1 fileType1 text1
        = codec.yamlDump (.object [("metadata", metadata1), ("data", d)]) ∧
    (includes fileType2 "text" = false →
      jsonOfFile codec metadata2 "data" fileName2 fileType2
          (yamlOfData codec metadata1 fileName1 fileType1 text1) convertedAt size
        = some (.object [("metadata", metadata2),
            ("content", .string (yamlOfData codec metadata1 fileName1 fileType1 text1)),
            ("note", .string "Could not parse original data as JSON")])) ∧
    ∀ payload,
      jsonOfFile codec metadata2 "data" fileName2 fileType2
          (yamlOfData codec metadata1 fileName1 fileType1 text1) convertedAt size = some payload →
        "originalData" ∉ payload.keys := by
  have hyaml : yamlOfData codec metadata1 fileName1 fileType1 text1
      = codec.yamlDump (.object [("metadata", metadata1), ("data", d)]) := by
    simp [yamlOfData, hparse]
  have hreject : codec.jsonParse (yamlOfData codec metadata1 fileName1 fileType1 text1) = none := by
    rw [hyaml]
    exact hcodec.parse_rejects _ (startsWith_m_of_metadata _ (hcodec.dump_block _ _))
  refine ⟨hyaml, ?_, ?_⟩
  · intro htext
    simp [jsonOfFile, htext, hreject]
  · intro payload hpayload
    unfold jsonOfFile at hpayload
    rw [hreject] at hpayload
    simp only [show ("data" : String) ≠ "spreadsheet" by decide,
      show ("data" : String) ≠ "document" by decide, show ("data" : String) ≠ "code" by decide,
      if_false, false_or, or_false, if_true] at hpayload
    split_ifs at hpayload
    · simp only [Option.some.injEq] at hpayload
      subst hpayload
      simp [Json.keys]
    · simp only [Option.some.injEq] at hpayload
      subst hpayload
      simp [Json.keys]

/-- Witness of C20 (amended): the sample round trip of `{a: 1}`. -/
theorem yaml_text_is_not_parsed_back_witness :
    sampleCodec.Conforms ∧
    sampleCodec.jsonParse "\x7b\"a\":1\x7d" = some (.object [("a", .number 1)]) ∧
    includes "application/x-yaml" "text" = false ∧
    jsonOfFile sampleCodec .null "data" "x" "application/x-yaml"
        (yamlOfData sampleCodec .null "x" "application/json" "\x7b\"a\":1\x7d")
        "2026-01-01T00:00:00.000Z" 27
      = some (.object [("metadata", .null),
          ("content",
            .string (yamlOfData sampleCodec .null "x" "application/json" "\x7b\"a\":1\x7d")),
          ("note", .string "Could not parse original data as JSON")]) :=
  ⟨sampleCodec_conforms, rfl, by decide,
    (yaml_text_is_not_parsed_back sampleCodec sampleCodec_conforms .null .null
      (.object [("a", .number 1)]) "x" "application/json" "\x7b\"a\":1\x7d" "x"
      "application/x-yaml" "2026-01-01T00:00:00.000Z" 27 rfl).2.1 (by decide)⟩

/-! ## Error responses and retrieval: claims C21 and C22 -/

/-- C21 (the code departs from it): an exception of a conversion step does not end in the
status-500 JSON response. The `catch` block reads `file` and `outputFormat`, which are
`const` bindings of the `try` block and out of scope there, so building `errorResponse`
raises a `ReferenceError` and the exception leaves the handler: `POST` never returns a
response with status 500. For `photo.png` to `webp` with a codec that raises, the outcome is
the uncaught error, with the state untouched. -/
theorem POST_exception_escapes_catch :
    (∀ (rt : Runtime) (g : Globals) (clock : Clock) (form : FormData) (body : Body),
      (POST rt g clock form).response ≠ .json 500 body) ∧
    failingRuntime.runBranch "webp" photoToWebp
      = .error "Input buffer contains unsupported image format" ∧
    POST failingRuntime freshGlobals (Clock.tick 0) photoToWebp
      = ⟨.uncaught "ReferenceError: file is not defined", freshGlobals, [.branch "webp"]⟩ := by
  refine ⟨?_, rfl, by decide⟩
  intro rt g clock form body
  by_cases hthr : Throttled g clock
  · obtain ⟨limit, hlimit, hactive, hnow⟩ := hthr
    rw [POST_throttled rt g clock form limit hlimit hactive hnow]
    simp
  · obtain ⟨limit, hpost⟩ := POST_of_not_throttled rt g clock form hthr
    rw [hpost]
    exact convert_ne_500 _ _ _ _ _

/-- C22, as stated, fails: a record created at time 0 and still in the store is returned by
a retrieval two hours later, though it is older than the retention window of one hour. -/
theorem GET_stated_expiry_fails :
    afterNotes.convertedFiles
        = some [(notesResult.downloadId, ⟨[104, 105], "application/json", "notes.json", 0⟩)] ∧
    (0 : Int) < 2 * 3600000 - 3600000 ∧
    (GET afterNotes (some notesResult.downloadId) (2 * 3600000)).1
      = .file 200 [104, 105] "application/json" "converted_file_7200000.json" "2" := by
  refine ⟨by decide, by decide, by decide⟩

/-- C22, amended: the retrieval endpoint returns the not-found error (status 404) when the
request has no `id` or an empty one, or when no record is stored under the handle (never
stored, or deleted by the sweep of a later conversion); otherwise it returns the stored
payload with its media type, whatever the age of the record: `GET` compares no time. -/
theorem GET_found_iff_stored (g : Globals) (now : Int) :
    (GET g none now).1 = .json 404 "File not found or expired" ∧
    (GET g (some "") now).1 = .json 404 "File not found or expired" ∧
    (∀ id : String, (g.convertedFiles.getD []).get id = none →
      (GET g (some id) now).1 = .json 404 "File not found or expired") ∧
    (∀ (id : String) (file : ArtifactRecord), id ≠ "" →
      (g.convertedFiles.getD []).get id = some file →
      ∃ name : String,
        (GET g (some id) now).1
          = .file 200 file.buffer file.contentType name (toString file.buffer.length)) := by
  refine ⟨rfl, by simp [GET], fun id h => GET_missing g id now h, ?_⟩
  intro id file hid hget
  cases hstore : g.convertedFiles with
  | none =>
    rw [hstore] at hget
    simp [ArtifactMap.get] at hget
  | some m =>
    rw [hstore] at hget
    exact GET_found g m id now file hstore hid hget

/-- Witness of C22 (amended): nothing is stored under `missing` in the fresh state, and
`notes.json` is returned at time 7 200 000 from the state that holds it since time 0. -/
theorem GET_found_iff_stored_witness :
    (GET freshGlobals (some "missing") 5).1 = .json 404 "File not found or expired" ∧
    ∃ name : String,
      (GET afterNotes (some notesResult.downloadId) 7200000).1
        = .file 200 [104, 105] "application/json" name (toString [104, 105].length) :=
  ⟨(GET_found_iff_stored freshGlobals 5).2.2.1 "missing" (by decide),
    (GET_found_iff_stored afterNotes 7200000).2.2.2 notesResult.downloadId
      ⟨[104, 105], "application/json", "notes.json", 0⟩ (by decide) (by decide)⟩

/-! ## Rule table: claims C24, C28 and C29 -/

/-- C24, as stated, fails: no category of `CONVERSION_RULES` has a target format in both its
allowed and its forbidden list. -/
theorem rules_have_no_overlap :
    ¬ ∃ p ∈ CONVERSION_RULES, ∃ target : String,
        target ∈ p.2.allowed.getD [] ∧ target ∈ p.2.forbidden.getD [] := by
  rintro ⟨p, hp, target, ha, hf⟩
  exact (rules_lists_disjoint p hp).2.2 target hf ha

/-- C24, amended: every category of `CONVERSION_RULES` has an allowed and a forbidden list,
and the two have no target format in common. -/
theorem rules_allowed_forbidden_disjoint (category : String) (rules : ConversionRule)
    (hentry : CONVERSION_RULES.lookup category = some rules) :
    ∃ allowed forbidden, rules.allowed = some allowed ∧ rules.forbidden = some forbidden ∧
      ∀ target, ¬ (target ∈ allowed ∧ target ∈ forbidden) := by
  have hmem := lookup_mem CONVERSION_RULES category rules hentry
  obtain ⟨ha, hf, hdisj⟩ := rules_lists_disjoint (category, rules) hmem
  obtain ⟨allowed, hallowed⟩ := Option.isSome_iff_exists.mp ha
  obtain ⟨forbidden, hforbidden⟩ := Option.isSome_iff_exists.mp hf
  simp only at hallowed hforbidden
  refine ⟨allowed, forbidden, hallowed, hforbidden, ?_⟩
  rintro target ⟨hta, htf⟩
  simp only [hallowed, hforbidden, Option.getD_some] at hdisj
  exact hdisj target htf hta

/-- Witness of C24 (amended): the entry of `image`. -/
theorem rules_allowed_forbidden_disjoint_witness :
    CONVERSION_RULES.lookup "image"
        = some ⟨some ["jpg", "jpeg", "png", "webp", "gif", "bmp", "tiff", "svg", "ico", "pdf"],
            some ["json", "xml", "yaml", "csv", "xlsx", "txt", "docx", "mp3", "mp4"]⟩ ∧
    ∃ allowed forbidden,
      (⟨some ["jpg", "jpeg", "png", "webp", "gif", "bmp", "tiff", "svg", "ico", "pdf"],
          some ["json", "xml", "yaml", "csv", "xlsx", "txt", "docx", "mp3", "mp4"]⟩
        : ConversionRule).allowed = some allowed ∧
      (⟨some ["jpg", "jpeg", "png", "webp", "gif", "bmp", "tiff", "svg", "ico", "pdf"],
          some ["json", "xml", "yaml", "csv", "xlsx", "txt", "docx", "mp3", "mp4"]⟩
        : ConversionRule).forbidden = some forbidden ∧
      ∀ target, ¬ (target ∈ allowed ∧ target ∈ forbidden) :=
  ⟨by decide, rules_allowed_forbidden_disjoint "image" _ (by decide)⟩

/-- C28: the policy and the dispatcher disagree on two pairs: `isConversionAllowed` permits
document to `docx` and data to `tsv`, and the `switch` has no branch for `docx` nor for `tsv`;
among the categories with a rule entry these are the only such pairs. A request for one of
them passes the policy and ends in the 400 response `Unsupported output format`. -/
theorem policy_allows_unsupported_targets :
    (isConversionAllowed "document" "docx" = true ∧ dispatch "docx" = none) ∧
    (isConversionAllowed "data" "tsv" = true ∧ dispatch "tsv" = none) ∧
    (∀ (category : String) (rules : ConversionRule) (target : String),
      CONVERSION_RULES.lookup category = some rules →
      isConversionAllowed category target = true → dispatch target = none →
        (category = "document" ∧ target = "docx") ∨ (category = "data" ∧ target = "tsv")) ∧
    (∀ (rt : Runtime) (g : Globals) (clock : Clock) (form : FormData) (file : UploadedFile),
      ¬ Throttled g clock → form.file = some file →
      ((getFileCategory rt.toLowerCase file.name (some file.type) = "document" ∧
          outputFormatOf rt.toLowerCase form = "docx") ∨
        (getFileCategory rt.toLowerCase file.name (some file.type) = "data" ∧
          outputFormatOf rt.toLowerCase form = "tsv")) →
        (POST rt g clock form).response
          = .json 400 (.unsupportedFormat
              ("Unsupported output format: " ++ outputFormatOf rt.toLowerCase form)
              ["jpg", "jpeg", "png", "webp", "gif", "bmp", "tiff", "svg", "ico"]
              ["pdf", "docx", "doc", "odt", "rtf", "txt", "html", "md", "tex"]
              ["xlsx", "xls", "csv", "ods", "tsv"]
              ["json", "xml", "yaml", "yml", "csv", "tsv"])) := by
  refine ⟨by decide, by decide, ?_, ?_⟩
  · intro category rules target hentry hallow hnone
    have hmem := lookup_mem CONVERSION_RULES category rules hentry
    obtain ⟨ha, _, _⟩ := rules_lists_disjoint (category, rules) hmem
    obtain ⟨allowed, hallowed⟩ := Option.isSome_iff_exists.mp ha
    simp only at hallowed
    have hin := (isConversionAllowed_iff_allowed category rules allowed hentry hallowed
      target).mp hallow
    have := allowed_unsupported_pairs (category, rules) hmem target
      (by simpa [hallowed] using hin) hnone
    simpa using this
  · intro rt g clock form file hgate hfile hpair
    obtain ⟨limit, hpost⟩ := POST_of_not_throttled rt g clock form hgate
    rw [hpost]
    apply convert_unsupported rt _ clock form file hfile
    · rcases hpair with ⟨hc, ht⟩ | ⟨hc, ht⟩ <;> rw [hc, ht] <;> decide
    · rcases hpair with ⟨_, ht⟩ | ⟨_, ht⟩ <;> rw [ht] <;> decide

/-- Witness of C28: `notes.txt` to `docx` and `a.json` to `tsv`. -/
theorem policy_allows_unsupported_targets_witness :
    ((CONVERSION_RULES.lookup "document").isSome = true ∧
      isConversionAllowed "document" "docx" = true ∧ dispatch "docx" = none) ∧
    (POST sampleRuntime freshGlobals (Clock.tick 0) notesToDocx).response
      = .json 400 (.unsupportedFormat
          ("Unsupported output format: " ++ outputFormatOf sampleRuntime.toLowerCase notesToDocx)
          ["jpg", "jpeg", "png", "webp", "gif", "bmp", "tiff", "svg", "ico"]
          ["pdf", "docx", "doc", "odt", "rtf", "txt", "html", "md", "tex"]
          ["xlsx", "xls", "csv", "ods", "tsv"]
          ["json", "xml", "yaml", "yml", "csv", "tsv"]) ∧
    (POST sampleRuntime freshGlobals (Clock.tick 0) jsonToTsv).response
      = .json 400 (.unsupportedFormat
          ("Unsupported output format: " ++ outputFormatOf sampleRuntime.toLowerCase jsonToTsv)
          ["jpg", "jpeg", "png", "webp", "gif", "bmp", "tiff", "svg", "ico"]
          ["pdf", "docx", "doc", "odt", "rtf", "txt", "html", "md", "tex"]
          ["xlsx", "xls", "csv", "ods", "tsv"]
          ["json", "xml", "yaml", "yml", "csv", "tsv"]) :=
  ⟨⟨by decide, by decide, by decide⟩,
    policy_allows_unsupported_targets.2.2.2 sampleRuntime freshGlobals (Clock.tick 0)
      notesToDocx ⟨"notes.txt", "text/plain", [104, 105]⟩
      (by rintro ⟨limit, h, _⟩; cases h) rfl (Or.inl ⟨by decide, by decide⟩),
    policy_allows_unsupported_targets.2.2.2 sampleRuntime freshGlobals (Clock.tick 0)
      jsonToTsv ⟨"a.json", "application/json", [123, 125]⟩
      (by rintro ⟨limit, h, _⟩; cases h) rfl (Or.inr ⟨by decide, by decide⟩)⟩

/-- C29: for a category with an entry in `CONVERSION_RULES` (image, document, spreadsheet,
data, code, audio, video) and every target, `isConversionAllowed` returns true exactly when
the target is in the allowed list of the category; the table without its forbidden lists
decides the same; so `yml` and `excel` are denied for every such category, and `md` for
every one but document. -/
theorem isConversionAllowed_is_allowed_list (category : String) (rules : ConversionRule)
    (hentry : CONVERSION_RULES.lookup category = some rules) :
    category ∈ ["image", "document", "spreadsheet", "data", "code", "audio", "video"] ∧
    (∃ allowed, rules.allowed = some allowed ∧
      ∀ target, isConversionAllowed category target = true ↔ target ∈ allowed) ∧
    (∀ target, isConversionAllowed category target
      = isConversionAllowedIn (withoutForbidden CONVERSION_RULES) category target) ∧
    isConversionAllowed category "yml" = false ∧
    isConversionAllowed category "excel" = false ∧
    (category ≠ "document" → isConversionAllowed category "md" = false) := by
  have hmem := lookup_mem CONVERSION_RULES category rules hentry
  obtain ⟨ha, _, _⟩ := rules_lists_disjoint (category, rules) hmem
  obtain ⟨allowed, hallowed⟩ := Option.isSome_iff_exists.mp ha
  simp only at hallowed
  have hiff := isConversionAllowed_iff_allowed category rules allowed hentry hallowed
  have hcat : category ∈ ["image", "document", "spreadsheet", "data", "code", "audio", "video"] := by
    have := List.mem_map_of_mem Prod.fst hmem
    simpa [CONVERSION_RULES] using this
  have hfalse : ∀ target, target ∉ allowed → isConversionAllowed category target = false := by
    intro target h
    cases hval : isConversionAllowed category target with
    | false => rfl
    | true => exact absurd ((hiff target).mp hval) h
  have hlists : ∀ p ∈ CONVERSION_RULES,
      "yml" ∉ p.2.allowed.getD [] ∧ "excel" ∉ p.2.allowed.getD [] ∧
        (p.1 ≠ "document" → "md" ∉ p.2.allowed.getD []) := by
    decide
  obtain ⟨hyml, hexcel, hmd⟩ := hlists (category, rules) hmem
  simp only [hallowed, Option.getD_some] at hyml hexcel hmd
  refine ⟨hcat, ⟨allowed, hallowed, hiff⟩, ?_, hfalse _ hyml, hfalse _ hexcel,
    fun h => hfalse _ (hmd h)⟩
  intro target
  have hright : isConversionAllowedIn (withoutForbidden CONVERSION_RULES) category target
      = decide (target ∈ allowed) := by
    unfold isConversionAllowedIn
    rw [lookup_withoutForbidden, hentry]
    simp [hallowed]
  rw [hright]
  by_cases hta : target ∈ allowed
  · simp [hta, (hiff target).mpr hta]
  · simp [hta, hfalse target hta]

/-- Witness of C29: the entry of `data`. -/
theorem isConversionAllowed_is_allowed_list_witness :
    CONVERSION_RULES.lookup "data"
        = some ⟨some ["json", "xml", "yaml", "csv", "tsv", "txt", "html"],
            some ["jpg", "png", "mp3", "mp4", "docx", "pdf"]⟩ ∧
    isConversionAllowed "data" "yml" = false ∧
    isConversionAllowed "data" "excel" = false ∧
    ("data" ≠ "document" → isConversionAllowed "data" "md" = false) :=
  ⟨by decide,
    (isConversionAllowed_is_allowed_list "data"
      ⟨some ["json", "xml", "yaml", "csv", "tsv", "txt", "html"],
        some ["jpg", "png", "mp3", "mp4", "docx", "pdf"]⟩ (by decide)).2.2.2⟩

/-! ## Output naming and the rate limit: claims C27 and C30 -/

/-- C27: the media type and the file extension of a successful conversion are what the
`switch` assigns for the target token alone: `jpg` and `jpeg` give `jpg` and `image/jpeg`,
`ico` gives `ico` and `image/x-icon`, `xlsx` and `excel` give `xlsx` and the spreadsheetml
type, `yaml` and `yml` give the requested token and `application/x-yaml`, every other
supported token gives itself with its fixed media type; the `fileName` of the response is
the base name, a dot and that extension. -/
theorem dispatch_fixes_extension_and_type :
    (∀ (rt : Runtime) (g : Globals) (clock : Clock) (form : FormData) (r : ConversionResult),
      (POST rt g clock form).response = .json 200 (.converted r) →
        ∃ file contentType fileExtension,
          form.file = some file ∧
          dispatch (outputFormatOf rt.toLowerCase form) = some (contentType, fileExtension) ∧
          r.contentType = contentType ∧
          r.fileName = stripExtension file.name ++ "." ++ fileExtension) ∧
    dispatch "jpg" = some ("image/jpeg", "jpg") ∧
    dispatch "jpeg" = some ("image/jpeg", "jpg") ∧
    dispatch "ico" = some ("image/x-icon", "ico") ∧
    dispatch "xlsx"
      = some ("application/vnd.openxmlformats-officedocument.spreadsheetml.sheet", "xlsx") ∧
    dispatch "excel"
      = some ("application/vnd.openxmlformats-officedocument.spreadsheetml.sheet", "xlsx") ∧
    dispatch "yaml" = some ("application/x-yaml", "yaml") ∧
    dispatch "yml" = some ("application/x-yaml", "yml") ∧
    [dispatch "png", dispatch "webp", dispatch "gif", dispatch "bmp", dispatch "tiff",
        dispatch "pdf", dispatch "html", dispatch "txt", dispatch "md", dispatch "json",
        dispatch "xml", dispatch "csv", dispatch "svg"]
      = [some ("image/png", "png"), some ("image/webp", "webp"), some ("image/gif", "gif"),
          some ("image/bmp", "bmp"), some ("image/tiff", "tiff"),
          some ("application/pdf", "pdf"), some ("text/html", "html"),
          some ("text/plain", "txt"), some ("text/markdown", "md"),
          some ("application/json", "json"), some ("application/xml", "xml"),
          some ("text/csv", "csv"), some ("image/svg+xml", "svg")] := by
  refine ⟨?_, by decide, by decide, by decide, by decide, by decide, by decide, by decide,
    by decide⟩
  intro rt g clock form r hok
  obtain ⟨file, contentType, fileExtension, hfile, hdisp, hname, hct, _⟩ :=
    POST_converted_inv rt g clock form r hok
  exact ⟨file, contentType, fileExtension, hfile, hdisp, hct, hname⟩

/-- Witness of C27: `notes.txt` to `json` gives `notes.json` with `application/json`. -/
theorem dispatch_fixes_extension_and_type_witness :
    (POST sampleRuntime freshGlobals (Clock.tick 0) notesToJson).response
        = .json 200 (.converted notesResult) ∧
    ∃ file contentType fileExtension,
      notesToJson.file = some file ∧
      dispatch (outputFormatOf sampleRuntime.toLowerCase notesToJson)
        = some (contentType, fileExtension) ∧
      notesResult.contentType = contentType ∧
      notesResult.fileName = stripExtension file.name ++ "." ++ fileExtension :=
  ⟨by decide,
    dispatch_fixes_extension_and_type.1 sampleRuntime freshGlobals (Clock.tick 0) notesToJson
      notesResult (by decide)⟩

/-- C30: no conversion request and no retrieval request activates the rate limit. With an
inactive state before a `POST` the state is the same, and inactive, after it; with an active
state it is unchanged or cleared; `GET` leaves the whole state as it is; `checkSystemHealth`
is what activates it (here for the status `warning`). -/
theorem handlers_never_activate (rt : Runtime) (g : Globals) (clock : Clock)
    (form : FormData) (id : Option String) (now : Int) :
    (¬ Active g →
      (POST rt g clock form).globals.systemRateLimit = g.systemRateLimit ∧
        ¬ Active (POST rt g clock form).globals) ∧
    (Active g →
      (POST rt g clock form).globals.systemRateLimit = g.systemRateLimit ∨
        (POST rt g clock form).globals.systemRateLimit = none) ∧
    (GET g id now).2 = g ∧
    Active (checkSystemHealth g (.ok "warning") now).2 := by
  have hpost := POST_rateLimit rt g clock form
  refine ⟨?_, ?_, GET_state g id now, ?_⟩
  · intro hinactive
    have hsame : (POST rt g clock form).globals.systemRateLimit = g.systemRateLimit := by
      rcases hpost with h | ⟨_, limit, hlimit, hactive, _⟩
      · exact h
      · exact absurd ⟨limit, hlimit, hactive⟩ hinactive
    refine ⟨hsame, ?_⟩
    rintro ⟨limit, hlimit, hactive⟩
    exact hinactive ⟨limit, hsame ▸ hlimit, hactive⟩
  · intro _
    rcases hpost with h | ⟨h, _⟩
    · exact Or.inl h
    · exact Or.inr h
  · exact ⟨⟨true, now + 30 * 60 * 1000, "High system load"⟩, by simp [checkSystemHealth], rfl⟩

/-- Witness of C30: a request in the fresh state, and one at time 5 with the limit active
until 1 000 000. -/
theorem handlers_never_activate_witness :
    (¬ Active freshGlobals ∧
      (POST sampleRuntime freshGlobals (Clock.tick 5) notesToJson).globals.systemRateLimit
        = freshGlobals.systemRateLimit) ∧
    (Active limitedGlobals ∧
      ((POST sampleRuntime limitedGlobals (Clock.tick 5) notesToJson).globals.systemRateLimit
          = limitedGlobals.systemRateLimit ∨
        (POST sampleRuntime limitedGlobals (Clock.tick 5) notesToJson).globals.systemRateLimit
          = none)) :=
  ⟨⟨(by rintro ⟨limit, h, _⟩; cases h),
      ((handlers_never_activate sampleRuntime freshGlobals (Clock.tick 5) notesToJson none
        0).1 (by rintro ⟨limit, h, _⟩; cases h)).1⟩,
    ⟨⟨⟨true, 1000000, "High system load"⟩, rfl, rfl⟩,
      (handlers_never_activate sampleRuntime limitedGlobals (Clock.tick 5) notesToJson none
        0).2.1 ⟨⟨true, 1000000, "High system load"⟩, rfl, rfl⟩⟩⟩

/-! ## Quality, PDF layout and the download URL: claims C23, C25 and C26 -/

/-- C23, as stated, fails: for the quality field `0` the call `parseInt` returns the
integer 0, and the quality handed on is 90, not the parsed integer. -/
theorem quality_stated_parsed_fails :
    ¬ ∀ (form : FormData) (raw : String) (n : Int),
        form.quality = some raw → parseInt raw = .finite n → qualityOf form = .finite n := by
  intro h
  have h1 := h ⟨none, none, some "0", none⟩ "0" 0 rfl (by decide)
  revert h1
  decide

/-- C23, amended: the quality handed to the codecs is 90 when the field is absent, when no
integer is read from it, or when the integer read is 0 (a falsy value of `||`); otherwise it
is the Number that `parseInt` returns for the field, without a range check. That Number is
the double nearest to the integer read: the integer itself as long as its absolute value is
at most 2^53, and an infinity once the absolute value reaches 2^1024. -/
theorem quality_default (form : FormData) :
    (form.quality = none → qualityOf form = .finite 90) ∧
    (∀ raw, form.quality = some raw → parseIntMath raw = none →
      qualityOf form = .finite 90) ∧
    (∀ raw, form.quality = some raw → parseIntMath raw = some 0 →
      qualityOf form = .finite 90) ∧
    (∀ raw n, form.quality = some raw → parseIntMath raw = some n → n ≠ 0 →
      qualityOf form = parseInt raw ∧ parseInt raw = numberOfInt n ∧
      (n.natAbs ≤ 2 ^ 53 → qualityOf form = .finite n) ∧
      (2 ^ 1024 ≤ n.natAbs → qualityOf form = .infinity (decide (n < 0)))) := by
  refine ⟨?_, ?_, ?_, ?_⟩
  · intro h
    simp only [qualityOf, h]
    decide
  · intro raw h hparse
    simp only [qualityOf, h, parseInt, hparse]
  · intro raw h hparse
    simp only [qualityOf, h, parseInt, hparse]
    decide
  · intro raw n h hparse hn
    have hp : parseInt raw = numberOfInt n := by simp only [parseInt, hparse]
    obtain ⟨hnan, hzero⟩ := numberOfInt_ne_zero n hn
    have hq : qualityOf form = parseInt raw := by
      simp only [qualityOf, h, hp]
      cases hv : numberOfInt n with
      | nan => exact absurd hv hnan
      | finite v =>
        have : v ≠ 0 := fun hz => hzero (by rw [hv, hz])
        simp [this]
      | infinity negative => rfl
    refine ⟨hq, hp, ?_, ?_⟩
    · intro hsmall
      rw [hq, hp, numberOfInt_exact n hsmall]
    · intro hbig
      rw [hq, hp, numberOfInt_overflow n hbig]

set_option maxRecDepth 100000 in
/-- Witness of C23 (amended): an absent field, the fields `abc` and `0` give 90; the fields
`75`, `1000` and `-5` give 75, 1000 and -5; the field `9007199254740993` gives
9007199254740992, the nearest double; a hexadecimal field that reads as 2^1024 gives
`Infinity`. -/
theorem quality_default_witness :
    qualityOf ⟨none, none, none, none⟩ = .finite 90 ∧
    (parseIntMath "abc" = none ∧ qualityOf ⟨none, none, some "abc", none⟩ = .finite 90) ∧
    (parseIntMath "0" = some 0 ∧ qualityOf ⟨none, none, some "0", none⟩ = .finite 90) ∧
    (parseIntMath "75" = some 75 ∧ qualityOf ⟨none, none, some "75", none⟩ = .finite 75) ∧
    (parseIntMath "1000" = some 1000 ∧
      qualityOf ⟨none, none, some "1000", none⟩ = .finite 1000) ∧
    (parseIntMath "-5" = some (-5) ∧ qualityOf ⟨none, none, some "-5", none⟩ = .finite (-5)) ∧
    (parseIntMath "9007199254740993" = some 9007199254740993 ∧
      qualityOf ⟨none, none, some "9007199254740993", none⟩ = .finite 9007199254740992) ∧
    (parseIntMath hugeQuality = some ((16 ^ 256 : Nat) : Int) ∧
      qualityOf ⟨none, none, some hugeQuality, none⟩ = .infinity false) :=
  ⟨(quality_default ⟨none, none, none, none⟩).1 rfl,
    ⟨by decide, (quality_default ⟨none, none, some "abc", none⟩).2.1 "abc" rfl (by decide)⟩,
    ⟨by decide, (quality_default ⟨none, none, some "0", none⟩).2.2.1 "0" rfl (by decide)⟩,
    ⟨by decide,
      ((quality_default ⟨none, none, some "75", none⟩).2.2.2 "75" 75 rfl (by decide)
        (by decide)).2.2.1 (by decide)⟩,
    ⟨by decide,
      ((quality_default ⟨none, none, some "1000", none⟩).2.2.2 "1000" 1000 rfl (by decide)
        (by decide)).2.2.1 (by decide)⟩,
    ⟨by decide,
      ((quality_default ⟨none, none, some "-5", none⟩).2.2.2 "-5" (-5) rfl (by decide)
        (by decide)).2.2.1 (by decide)⟩,
    ⟨by decide,
      ((quality_default ⟨none, none, some "9007199254740993", none⟩).2.2.2
        "9007199254740993" 9007199254740993 rfl (by decide) (by decide)).1.trans
        (by decide)⟩,
    ⟨by decide,
      ((quality_default ⟨none, none, some hugeQuality, none⟩).2.2.2 hugeQuality
        ((16 ^ 256 : Nat) : Int) rfl (by decide) (by decide)).2.2.2
        (by rw [Int.natAbs_ofNat, show (16 : Nat) = 2 ^ 4 from rfl, ← pow_mul])⟩⟩

/-- C25, as stated, fails: `page.drawText` raises an exception for a text that the font of
the page cannot encode, and the loop has no handler. For the two-line text whose second line
is `dosyasıdır`, with a font that does not encode the dotless i, the first line is drawn, the
second call raises, and the branch ends without a PDF; the claim has two lines drawn. -/
theorem pdfTextDraws_stated_layout_fails :
    pdfTextDraws printableAscii "Merhaba\ndosyasıdır"
      = ⟨[⟨[77, 101, 114, 104, 97, 98, 97], 50, 800, 10⟩], true⟩ ∧
    (splitUnits 10 (utf16Units "Merhaba\ndosyasıdır")).length = 2 ∧
    ¬ ∀ (encodes : List Nat → Bool) (textContent : String),
        (pdfTextDraws encodes textContent).raised = false ∧
        (pdfTextDraws encodes textContent).draws.length
          = min (splitUnits 10 (utf16Units textContent)).length 38 := by
  refine ⟨by decide, by decide, ?_⟩
  intro h
  have h1 := (h printableAscii "Merhaba\ndosyasıdır").1
  revert h1
  decide

/-- C25, amended: take a text with `n` lines (split at the line feed), each cut to its first
80 characters (UTF-16 code units). If the font encodes every one of the first `min(n, 38)`
cut lines, no call raises and exactly these lines are drawn, the `i`-th (from 0) at `x = 50`,
`y = 800 - 20 * i`, with size 10. If the `j`-th line (`j < 38`) is the first that the font
does not encode, exactly the `j` lines before it are drawn and the call for it raises an
exception. In every case the `i`-th call that returned drew the first 80 characters of the
`i`-th line at `x = 50`, `y = 800 - 20 * i`; at most 40 lines are drawn, every drawn text has
at most 80 characters, and every `y` is at least 50. -/
theorem pdfTextDraws_layout (encodes : List Nat → Bool) (textContent : String) :
    ((∀ (i : Nat) (line : List Nat),
        (splitUnits 10 (utf16Units textContent))[i]? = some line → i < 38 →
          encodes (line.take 80) = true) →
      (pdfTextDraws encodes textContent).raised = false ∧
      (pdfTextDraws encodes textContent).draws.length
        = min (splitUnits 10 (utf16Units textContent)).length 38 ∧
      ∀ (i : Nat) (line : List Nat),
        (splitUnits 10 (utf16Units textContent))[i]? = some line → i < 38 →
          (pdfTextDraws encodes textContent).draws[i]?
            = some ⟨line.take 80, 50, 800 - 20 * (i : Int), 10⟩) ∧
    (∀ (j : Nat) (line : List Nat),
        (splitUnits 10 (utf16Units textContent))[j]? = some line → j < 38 →
        encodes (line.take 80) = false →
        (∀ (i : Nat) (l : List Nat), i < j →
          (splitUnits 10 (utf16Units textContent))[i]? = some l →
            encodes (l.take 80) = true) →
      (pdfTextDraws encodes textContent).raised = true ∧
      (pdfTextDraws encodes textContent).draws.length = j) ∧
    (∀ (i : Nat) (d : DrawText), (pdfTextDraws encodes textContent).draws[i]? = some d →
      ∃ line, (splitUnits 10 (utf16Units textContent))[i]? = some line ∧
        d = ⟨line.take 80, 50, 800 - 20 * (i : Int), 10⟩) ∧
    (pdfTextDraws encodes textContent).draws.length ≤ 40 ∧
    ∀ d ∈ (pdfTextDraws encodes textContent).draws,
      d.text.length ≤ 80 ∧ 50 ≤ d.y ∧ d.x = 50 := by
  obtain ⟨hget, hall, hraise⟩ :=
    drawTextLoop_spec encodes ((splitUnits 10 (utf16Units textContent)).take 40) 0 (by omega)
  simp only [Nat.cast_zero, mul_zero, sub_zero, Nat.sub_zero, zero_add] at hget hall hraise
  have htake : ∀ (i : Nat), i < 38 →
      ((splitUnits 10 (utf16Units textContent)).take 40)[i]?
        = (splitUnits 10 (utf16Units textContent))[i]? := by
    intro i hi
    rw [List.getElem?_take]
    simp [show i < 40 by omega]
  have hdrawn : ∀ (i : Nat) (d : DrawText),
      (pdfTextDraws encodes textContent).draws[i]? = some d →
      i < 38 ∧ ∃ line, (splitUnits 10 (utf16Units textContent))[i]? = some line ∧
        d = ⟨line.take 80, 50, 800 - 20 * (i : Int), 10⟩ := by
    intro i d hd
    obtain ⟨hi, line, hline, _, hdl⟩ := hget i d hd
    exact ⟨hi, line, by rw [← htake i hi]; exact hline, hdl⟩
  have hlen38 : (pdfTextDraws encodes textContent).draws.length ≤ 38 := by
    by_contra hnot
    have hlt : 38 < (pdfTextDraws encodes textContent).draws.length := by omega
    obtain ⟨d, hd⟩ : ∃ d, (pdfTextDraws encodes textContent).draws[38]? = some d :=
      ⟨_, List.getElem?_eq_getElem hlt⟩
    have := (hdrawn 38 d hd).1
    omega
  refine ⟨?_, ?_, ?_, by omega, ?_⟩
  · intro hok
    obtain ⟨hr, hlen⟩ := hall (fun i line hline hi => hok i line (by rw [← htake i hi]; exact hline) hi)
    have hlen' : (pdfTextDraws encodes textContent).draws.length
        = min (splitUnits 10 (utf16Units textContent)).length 38 := by
      unfold pdfTextDraws
      rw [hlen, List.length_take]
      omega
    refine ⟨hr, hlen', ?_⟩
    intro i line hline hi
    have hlt : i < (pdfTextDraws encodes textContent).draws.length := by
      rw [hlen']
      have := (List.getElem?_eq_some_iff.mp hline).1
      omega
    obtain ⟨_, l, hl, hd⟩ := hdrawn i _ (List.getElem?_eq_getElem hlt)
    rw [hline] at hl
    cases hl
    rw [List.getElem?_eq_getElem hlt, hd]
  · intro j line hline hj hrej hbefore
    exact hraise j line (by rw [htake j hj]; exact hline) hj hrej
      (fun i l hi hl => hbefore i l hi (by rw [← htake i (by omega)]; exact hl))
  · intro i d hd
    exact (hdrawn i d hd).2
  · intro d hd
    obtain ⟨i, hi, hget'⟩ := List.getElem_of_mem hd
    obtain ⟨hi38, line, _, hdl⟩ := hdrawn i d (by rw [List.getElem?_eq_getElem hi, hget'])
    subst hdl
    refine ⟨?_, ?_, rfl⟩
    · simp only [List.length_take]
      omega
    · show (50 : Int) ≤ 800 - 20 * (i : Int)
      omega

/-- Witness of C25 (amended): with a font for printable ASCII, both lines of `a`, `bc` are
drawn, the second at `y = 780`; of the text whose second line is `dosyasıdır` one line is
drawn and the second call raises. -/
theorem pdfTextDraws_layout_witness :
    ((∀ (i : Nat) (line : List Nat),
        (splitUnits 10 (utf16Units "a\nbc"))[i]? = some line → i < 38 →
          printableAscii (line.take 80) = true) ∧
      (pdfTextDraws printableAscii "a\nbc").raised = false ∧
      (pdfTextDraws printableAscii "a\nbc").draws.length
        = min (splitUnits 10 (utf16Units "a\nbc")).length 38 ∧
      (pdfTextDraws printableAscii "a\nbc").draws[1]?
        = some ⟨[98, 99].take 80, 50, 800 - 20 * ((1 : Nat) : Int), 10⟩) ∧
    ((splitUnits 10 (utf16Units "Merhaba\ndosyasıdır"))[1]?
        = some [100, 111, 115, 121, 97, 115, 305, 100, 305, 114] ∧
      printableAscii ([100, 111, 115, 121, 97, 115, 305, 100, 305, 114].take 80) = false ∧
      (pdfTextDraws printableAscii "Merhaba\ndosyasıdır").raised = true ∧
      (pdfTextDraws printableAscii "Merhaba\ndosyasıdır").draws.length = 1) :=
  have hok : ∀ (i : Nat) (line : List Nat),
      (splitUnits 10 (utf16Units "a\nbc"))[i]? = some line → i < 38 →
        printableAscii (line.take 80) = true := by
    intro i line h _
    have hl : splitUnits 10 (utf16Units "a\nbc") = [[97], [98, 99]] := by decide
    rw [hl] at h
    rcases i with _ | _ | i
    · simp at h
      subst h
      decide
    · simp at h
      subst h
      decide
    · simp at h
  have hbefore : ∀ (i : Nat) (l : List Nat), i < 1 →
      (splitUnits 10 (utf16Units "Merhaba\ndosyasıdır"))[i]? = some l →
        printableAscii (l.take 80) = true := by
    intro i l hi h
    have hl : splitUnits 10 (utf16Units "Merhaba\ndosyasıdır")
        = [[77, 101, 114, 104, 97, 98, 97],
          [100, 111, 115, 121, 97, 115, 305, 100, 305, 114]] := by decide
    rw [hl] at h
    have hi0 : i = 0 := by omega
    subst hi0
    simp at h
    subst h
    decide
  ⟨⟨hok, ((pdfTextDraws_layout printableAscii "a\nbc").1 hok).1,
      ((pdfTextDraws_layout printableAscii "a\nbc").1 hok).2.1,
      ((pdfTextDraws_layout printableAscii "a\nbc").1 hok).2.2 1 [98, 99] (by decide)
        (by decide)⟩,
    ⟨by decide, by decide,
      (pdfTextDraws_layout printableAscii "Merhaba\ndosyasıdır").2.1 1
        [100, 111, 115, 121, 97, 115, 305, 100, 305, 114] (by decide) (by decide)
        (by decide) hbefore⟩⟩

/-- C26 (the code departs from it): the front end puts the handle into the URL as it is, and
the query parsing of `GET` reads a `+` as a space. The display name `ab~.txt` has the handle
`YWJ+LnR4dA==`; `url.searchParams.get('id')` gives `YWJ LnR4dA==`, under which nothing is
stored, so the retrieval answers 404 although the artifact is in the store under its
handle. A handle without `+`, such as that of `notes.json`, comes through unchanged. -/
theorem download_handle_plus_is_lost :
    (POST sampleRuntime freshGlobals (Clock.tick 0) tildeToTxt).response
        = .json 200 (.converted
            { success := true, fileName := "ab~.txt", contentType := "text/plain", size := 2,
              originalSize := 2, sourceCategory := "document", targetFormat := "txt",
              downloadId := "YWJ+LnR4dA==", hasMetadata := false }) ∧
    searchParamsGet (downloadQuery "YWJ+LnR4dA==") "id" = some "YWJ LnR4dA==" ∧
    (GET (POST sampleRuntime freshGlobals (Clock.tick 0) tildeToTxt).globals
        (searchParamsGet (downloadQuery "YWJ+LnR4dA==") "id") 1).1
      = .json 404 "File not found or expired" ∧
    (GET (POST sampleRuntime freshGlobals (Clock.tick 0) tildeToTxt).globals
        (some "YWJ+LnR4dA==") 1).1
      = .file 200 [104, 105] "text/plain" "converted_file_1.txt" "2" ∧
    searchParamsGet (downloadQuery notesResult.downloadId) "id"
      = some notesResult.downloadId := by
  refine ⟨by decide, by decide, by decide, by decide, by decide⟩

end TransForma
